import Mathlib

/-! # The atomic-operations code generator (codegen/codegen.cpp)

A shallow embedding of the generator's tables, naming scheme, raw-primitive
emitter and dispatch synthesizer, followed by theorems about the text and the
control flow it emits.

The tables of the source are `std::map`s, iterated in ascending key order;
`stdMap` models that.  A generated `switch` is kept as the list of its source
lines (`Line`), rendered to the emitted text by `Line.render` and executed, with
C fall-through, by `exec`.
-/

namespace Codegen

/-! ## `std::map` and `std::string` -/

/-- Lexicographic comparison of character sequences by code unit, as
`std::string::operator<`. -/
def lexLt : List Char → List Char → Bool
  | [], [] => false
  | [], _ :: _ => true
  | _ :: _, [] => false
  | a :: as, b :: bs => decide (a.toNat < b.toNat) || (a.toNat == b.toNat && lexLt as bs)

/-- Key order of a `std::map<std::string, _>`. -/
def keyLt (a b : String) : Bool := lexLt a.toList b.toList

/-- Insertion into a `std::map`: the entries stay sorted by key and an already
present key is not overwritten. -/
def mapInsert {β : Type} (kv : String × β) : List (String × β) → List (String × β)
  | [] => [kv]
  | x :: xs =>
    if keyLt kv.1 x.1 then kv :: x :: xs
    else if kv.1 = x.1 then x :: xs
    else x :: mapInsert kv xs

/-- A `std::map` built from an initializer list; the resulting list is the
sequence a range-for loop over the map visits. -/
def stdMap {β : Type} (decl : List (String × β)) : List (String × β) :=
  decl.foldl (fun m kv => mapInsert kv m) []

/-- The `operator[]` of `std::map`: the mapped value, or a default-constructed
one when the key is absent. -/
def mapGet {β : Type} (m : List (String × β)) (k : String) (dflt : β) : β :=
  match m.find? (fun kv => kv.1 == k) with
  | some kv => kv.2
  | none => dflt

/-! ## Configuration tables (codegen.cpp, lines 20-73) -/

def scopes : List (String × String) :=
  stdMap [("system", ".sys"), ("device", ".gpu"), ("block", ".cta")]

def membar_scopes : List (String × String) :=
  stdMap [("system", ".sys"), ("device", ".gl"), ("block", ".cta")]

def fence_semantics : List (String × String) :=
  stdMap [("sc", ".sc"), ("acq_rel", ".acq_rel")]

def ld_as_atom : Bool := false

def ld_sizes : List Nat := [32, 64]

def ld_semantics : List (String × String) :=
  stdMap [("relaxed", ".relaxed"), ("acquire", ".acquire"), ("volatile", ".volatile")]

def st_sizes : List Nat := [32, 64]

def st_semantics : List (String × String) :=
  stdMap [("relaxed", ".relaxed"), ("release", ".release"), ("volatile", ".volatile")]

def rmw_sizes : List Nat := [32, 64]

def rmw_semantics : List (String × String) :=
  stdMap [("relaxed", ".relaxed"), ("acquire", ".acquire"), ("release", ".release"),
          ("acq_rel", ".acq_rel"), ("volatile", "")]

def rmw_classes : List String := ["bitwise", "arithmetic"]

def rmw_operations : List (String × List (String × String)) :=
  stdMap [("bitwise", stdMap [("exchange", ".exch"), ("compare_exchange", ".cas"),
                              ("fetch_and", ".and"), ("fetch_or", ".or"),
                              ("fetch_xor", ".xor")]),
          ("arithmetic", stdMap [("fetch_add", ".add"), ("fetch_sub", ".add"),
                                 ("fetch_max", ".max"), ("fetch_min", ".min")])]

def rmw_types : List (String × List (String × String)) :=
  stdMap [("bitwise", stdMap [("", ".b")]),
          ("arithmetic", stdMap [("u", ".u"), ("s", ".s"), ("f", ".f")])]

def cv_qualifier : List String := ["volatile "]

/-! ## Naming scheme (lines 88-99 and the name expressions of the emitter) -/

def scopenametag (scope : String) : String :=
  "__thread_scope_" ++ scope ++ "_tag"

def fencename (sem scope : String) : String :=
  "__cuda_fence_" ++ sem ++ "_" ++ scope

def registers (type_literal : String) (type_size : Nat) : String :=
  if type_literal = "f" then (if type_size = 32 then "f" else "d")
  else (if type_size = 32 then "r" else "l")

/-- The tuple that identifies a raw primitive: its role or operation, the
order token, the type suffix, the size and the scope. -/
inductive Prim where
  | membar (scope : String)
  | fence (sem scope : String)
  | load (sem : String) (sz : Nat) (scope : String)
  | store (sem : String) (sz : Nat) (scope : String)
  | rmw (op sem type : String) (sz : Nat) (scope : String)
  deriving DecidableEq, Repr

/-- The name under which a raw primitive is defined (lines 102, 104, 134, 173,
218) and called (the dispatchers recompute it by the same concatenation). -/
def Prim.name : Prim → String
  | .membar scope => "__cuda_membar_" ++ scope
  | .fence sem scope => fencename sem scope
  | .load sem sz scope => "__cuda_load_" ++ sem ++ "_" ++ toString sz ++ "_" ++ scope
  | .store sem sz scope => "__cuda_store_" ++ sem ++ "_" ++ toString sz ++ "_" ++ scope
  | .rmw op sem type sz scope =>
    "__cuda_" ++ op ++ "_" ++ sem ++ "_" ++ type ++ toString sz ++ "_" ++ scope

/-! ## Generated statements and switches -/

/-- The memory orders, named after the compiler's predefined `__ATOMIC_*`
macros that label the generated `case` arms. -/
inductive MemOrder where
  | relaxed | consume | acquire | release | acq_rel | seq_cst
  deriving DecidableEq, Repr

/-- The macro spelled in the generated text. -/
def MemOrder.macroName : MemOrder → String
  | .relaxed => "__ATOMIC_RELAXED"
  | .consume => "__ATOMIC_CONSUME"
  | .acquire => "__ATOMIC_ACQUIRE"
  | .release => "__ATOMIC_RELEASE"
  | .acq_rel => "__ATOMIC_ACQ_REL"
  | .seq_cst => "__ATOMIC_SEQ_CST"

/-- The integer value of the macro (fixed by the compiler). -/
def MemOrder.toInt : MemOrder → Int
  | .relaxed => 0
  | .consume => 1
  | .acquire => 2
  | .release => 3
  | .acq_rel => 4
  | .seq_cst => 5

/-- A statement of a generated switch arm: a call of a raw primitive with its
argument list, or `assert(0)`. -/
inductive Stmt where
  | call (callee : Prim) (args : List String)
  | assert0
  deriving DecidableEq, Repr

def Stmt.render : Stmt → String
  | .call callee args => callee.name ++ "(" ++ ", ".intercalate args ++ ");"
  | .assert0 => "assert(0);"

inductive Label where
  | case (o : MemOrder)
  | default
  deriving DecidableEq, Repr

def Label.render : Label → String
  | .case o => "case " ++ o.macroName ++ ":"
  | .default => "default:"

/-- One emitted line of a switch body: a label, the statements that follow it
on the line, and whether the line ends in `break;`. -/
structure Line where
  label : Label
  stmts : List Stmt
  brk : Bool
  deriving DecidableEq, Repr

def Line.render (indent : String) (l : Line) : String :=
  indent ++ l.label.render ++ String.join (l.stmts.map fun s => " " ++ s.render)
    ++ (if l.brk then " break;" else "") ++ "\n"

def Label.isCase (v : Int) : Label → Bool
  | .case o => o.toInt == v
  | .default => false

/-- The switch body from the line labelled with the value `v` on. -/
def fromCase (v : Int) : List Line → Option (List Line)
  | [] => none
  | l :: ls => if l.label.isCase v then some (l :: ls) else fromCase v ls

/-- The switch body from the `default:` line on. -/
def fromDefault : List Line → Option (List Line)
  | [] => none
  | l :: ls => if l.label = Label.default then some (l :: ls) else fromDefault ls

/-- C fall-through: the statements from the entry line up to the first
`break;`. -/
def fallThrough : List Line → List Stmt
  | [] => []
  | l :: ls => l.stmts ++ (if l.brk then [] else fallThrough ls)

/-- The assertion `assert(0)` aborts: nothing after it is executed. -/
def untilAbort : List Stmt → List Stmt
  | [] => []
  | Stmt.assert0 :: _ => [Stmt.assert0]
  | s :: ss => s :: untilAbort ss

/-- The statements a C `switch` with body `sw` executes for the scrutinee value
`v`: entry at the matching `case`, else at `default:`, else nothing. -/
def exec (sw : List Line) (v : Int) : List Stmt :=
  match fromCase v sw with
  | some ls => untilAbort (fallThrough ls)
  | none =>
    match fromDefault sw with
    | some ls => untilAbort (fallThrough ls)
    | none => []

/-- The statements executed for a memory order. -/
def execOrder (sw : List Line) (o : MemOrder) : List Stmt :=
  exec sw o.toInt

/-! ### The switches of the dispatchers -/

/-- Lines 109-115. -/
def fenceSwitchSM70 (scope : String) : List Line :=
  [ ⟨.case .seq_cst, [.call (.fence "sc" scope) []], true⟩,
    ⟨.case .consume, [], false⟩,
    ⟨.case .acquire, [], false⟩,
    ⟨.case .acq_rel, [], false⟩,
    ⟨.case .release, [.call (.fence "acq_rel" scope) []], true⟩,
    ⟨.case .relaxed, [], true⟩,
    ⟨.default, [.assert0], false⟩ ]

/-- Lines 120-126. -/
def fenceSwitchDevice (scope : String) : List Line :=
  [ ⟨.case .seq_cst, [], false⟩,
    ⟨.case .consume, [], false⟩,
    ⟨.case .acquire, [], false⟩,
    ⟨.case .acq_rel, [], false⟩,
    ⟨.case .release, [.call (.membar scope) []], true⟩,
    ⟨.case .relaxed, [], true⟩,
    ⟨.default, [.assert0], false⟩ ]

/-- Lines 149-153. -/
def loadSwitchSM70 (sz : Nat) (scope : String) : List Line :=
  [ ⟨.case .seq_cst, [.call (.fence "sc" scope) []], false⟩,
    ⟨.case .consume, [], false⟩,
    ⟨.case .acquire, [.call (.load "acquire" sz scope) ["__ptr", "__tmp"]], true⟩,
    ⟨.case .relaxed, [.call (.load "relaxed" sz scope) ["__ptr", "__tmp"]], true⟩,
    ⟨.default, [.assert0], false⟩ ]

/-- Lines 158-162. -/
def loadSwitchDevice (sz : Nat) (scope : String) : List Line :=
  [ ⟨.case .seq_cst, [.call (.membar scope) []], false⟩,
    ⟨.case .consume, [], false⟩,
    ⟨.case .acquire, [.call (.load "volatile" sz scope) ["__ptr", "__tmp"],
                      .call (.membar scope) []], true⟩,
    ⟨.case .relaxed, [.call (.load "volatile" sz scope) ["__ptr", "__tmp"]], true⟩,
    ⟨.default, [.assert0], false⟩ ]

/-- Lines 186-189. -/
def storeSwitchSM70 (sz : Nat) (scope : String) : List Line :=
  [ ⟨.case .release, [.call (.store "release" sz scope) ["__ptr", "__tmp"]], true⟩,
    ⟨.case .seq_cst, [.call (.fence "sc" scope) []], false⟩,
    ⟨.case .relaxed, [.call (.store "relaxed" sz scope) ["__ptr", "__tmp"]], true⟩,
    ⟨.default, [.assert0], false⟩ ]

/-- Lines 194-197. -/
def storeSwitchDevice (sz : Nat) (scope : String) : List Line :=
  [ ⟨.case .release, [], false⟩,
    ⟨.case .seq_cst, [.call (.membar scope) []], false⟩,
    ⟨.case .relaxed, [.call (.store "volatile" sz scope) ["__ptr", "__tmp"]], true⟩,
    ⟨.default, [.assert0], false⟩ ]

/-- The argument list of the compare-exchange primitive calls. -/
def casArgs : List String := ["__ptr", "__old", "__old_tmp", "__tmp"]

/-- Lines 249-255. -/
def casSwitchSM70 (type : String) (sz : Nat) (scope : String) : List Line :=
  [ ⟨.case .seq_cst, [.call (.fence "sc" scope) []], false⟩,
    ⟨.case .consume, [], false⟩,
    ⟨.case .acquire, [.call (.rmw "compare_exchange" "acquire" type sz scope) casArgs], true⟩,
    ⟨.case .acq_rel, [.call (.rmw "compare_exchange" "acq_rel" type sz scope) casArgs], true⟩,
    ⟨.case .release, [.call (.rmw "compare_exchange" "release" type sz scope) casArgs], true⟩,
    ⟨.case .relaxed, [.call (.rmw "compare_exchange" "relaxed" type sz scope) casArgs], true⟩,
    ⟨.default, [.assert0], false⟩ ]

/-- Lines 260-266. -/
def casSwitchDevice (type : String) (sz : Nat) (scope : String) : List Line :=
  [ ⟨.case .seq_cst, [], false⟩,
    ⟨.case .acq_rel, [.call (.membar scope) []], false⟩,
    ⟨.case .consume, [], false⟩,
    ⟨.case .acquire, [.call (.rmw "compare_exchange" "volatile" type sz scope) casArgs,
                      .call (.membar scope) []], true⟩,
    ⟨.case .release, [.call (.membar scope) [],
                      .call (.rmw "compare_exchange" "volatile" type sz scope) casArgs], true⟩,
    ⟨.case .relaxed, [.call (.rmw "compare_exchange" "volatile" type sz scope) casArgs], true⟩,
    ⟨.default, [.assert0], false⟩ ]

/-- The argument list of the other read-modify-write primitive calls. -/
def rmwArgs : List String := ["__ptr", "__tmp", "__tmp"]

/-- Lines 310-316. -/
def rmwSwitchSM70 (op type : String) (sz : Nat) (scope : String) : List Line :=
  [ ⟨.case .seq_cst, [.call (.fence "sc" scope) []], false⟩,
    ⟨.case .consume, [], false⟩,
    ⟨.case .acquire, [.call (.rmw op "acquire" type sz scope) rmwArgs], true⟩,
    ⟨.case .acq_rel, [.call (.rmw op "acq_rel" type sz scope) rmwArgs], true⟩,
    ⟨.case .release, [.call (.rmw op "release" type sz scope) rmwArgs], true⟩,
    ⟨.case .relaxed, [.call (.rmw op "relaxed" type sz scope) rmwArgs], true⟩,
    ⟨.default, [.assert0], false⟩ ]

/-- Lines 321-327. -/
def rmwSwitchDevice (op type : String) (sz : Nat) (scope : String) : List Line :=
  [ ⟨.case .seq_cst, [], false⟩,
    ⟨.case .acq_rel, [.call (.membar scope) []], false⟩,
    ⟨.case .consume, [], false⟩,
    ⟨.case .acquire, [.call (.rmw op "volatile" type sz scope) rmwArgs,
                      .call (.membar scope) []], true⟩,
    ⟨.case .release, [.call (.membar scope) [],
                      .call (.rmw op "volatile" type sz scope) rmwArgs], true⟩,
    ⟨.case .relaxed, [.call (.rmw op "volatile" type sz scope) rmwArgs], true⟩,
    ⟨.default, [.assert0], false⟩ ]

/-- Lines 358-363; this switch has no `default:` line. -/
def ptrSwitchSM70 (scope : String) : List Line :=
  [ ⟨.case .seq_cst, [.call (.fence "sc" scope) []], false⟩,
    ⟨.case .consume, [], false⟩,
    ⟨.case .acquire, [.call (.rmw "fetch_add" "acquire" "u" 64 scope) rmwArgs], true⟩,
    ⟨.case .acq_rel, [.call (.rmw "fetch_add" "acq_rel" "u" 64 scope) rmwArgs], true⟩,
    ⟨.case .release, [.call (.rmw "fetch_add" "release" "u" 64 scope) rmwArgs], true⟩,
    ⟨.case .relaxed, [.call (.rmw "fetch_add" "relaxed" "u" 64 scope) rmwArgs], true⟩ ]

/-- Lines 368-374. -/
def ptrSwitchDevice (scope : String) : List Line :=
  [ ⟨.case .seq_cst, [], false⟩,
    ⟨.case .acq_rel, [.call (.membar scope) []], false⟩,
    ⟨.case .consume, [], false⟩,
    ⟨.case .acquire, [.call (.rmw "fetch_add" "volatile" "u" 64 scope) rmwArgs,
                      .call (.membar scope) []], true⟩,
    ⟨.case .release, [.call (.membar scope) [],
                      .call (.rmw "fetch_add" "volatile" "u" 64 scope) rmwArgs], true⟩,
    ⟨.case .relaxed, [.call (.rmw "fetch_add" "volatile" "u" 64 scope) rmwArgs], true⟩,
    ⟨.default, [.assert0], false⟩ ]

/-- The text of an `NV_DISPATCH_TARGET` block with its two switches, at the
indentation `ind` of its first line. -/
def dispatchTarget (ind scrutinee : String) (sm70 device : List Line) : String :=
  ind ++ "NV_DISPATCH_TARGET(\n"
    ++ ind ++ "  NV_PROVIDES_SM_70, (\n"
    ++ ind ++ "    switch (" ++ scrutinee ++ ") \x7b\n"
    ++ String.join (sm70.map (Line.render (ind ++ "      ")))
    ++ ind ++ "    \x7d\n"
    ++ ind ++ "  ),\n"
    ++ ind ++ "  NV_IS_DEVICE, (\n"
    ++ ind ++ "    switch (" ++ scrutinee ++ ") \x7b\n"
    ++ String.join (device.map (Line.render (ind ++ "      ")))
    ++ ind ++ "    \x7d\n"
    ++ ind ++ "  )\n"
    ++ ind ++ ")\n"

/-! ## Primitive emitter -/

/-- A raw primitive as emitted: its identifying tuple, the statements its body
holds before the `asm` statement, the instruction template of the `asm`
statement, and the full text of the definition. -/
structure RawDef where
  prim : Prim
  pre : List String
  instr : String
  text : String

/-- Line 102. -/
def membarDef (s : String × String) : RawDef :=
  let instr := "membar" ++ mapGet membar_scopes s.1 "" ++ ";"
  { prim := .membar s.1
    pre := []
    instr := instr
    text := "static inline _LIBCUDACXX_DEVICE void " ++ (Prim.membar s.1).name
      ++ "() \x7b asm volatile(\"" ++ instr ++ "\":::\"memory\"); \x7d\n" }

/-- Line 104. -/
def fenceDef (s sem : String × String) : RawDef :=
  let instr := "fence" ++ sem.2 ++ s.2 ++ ";"
  { prim := .fence sem.1 s.1
    pre := []
    instr := instr
    text := "static inline _LIBCUDACXX_DEVICE void " ++ fencename sem.1 s.1
      ++ "() \x7b asm volatile(\"" ++ instr ++ "\":::\"memory\"); \x7d\n" }

/-- Lines 133-140. -/
def loadDef (s : String × String) (sz : Nat) (sem : String × String) : RawDef :=
  let instr :=
    if ld_as_atom then
      "atom.add" ++ (if sem.1 = "volatile" then "" else sem.2) ++ s.2 ++ ".u" ++ toString sz
        ++ " %0, [%1], 0;"
    else
      "ld" ++ sem.2 ++ (if sem.1 = "volatile" then "" else s.2) ++ ".b" ++ toString sz
        ++ " %0,[%1];"
  { prim := .load sem.1 sz s.1
    pre := []
    instr := instr
    text := "template<class _CUDA_A, class _CUDA_B> "
      ++ "static inline _LIBCUDACXX_DEVICE void " ++ (Prim.load sem.1 sz s.1).name
      ++ "(_CUDA_A __ptr, _CUDA_B& __dst) \x7b"
      ++ "asm volatile(\"" ++ instr ++ "\" : "
      ++ "\"=" ++ registers "b" sz ++ "\"(__dst) : \"l\"(__ptr)"
      ++ " : \"memory\"); \x7d\n" }

/-- Lines 172-176. -/
def storeDef (s : String × String) (sz : Nat) (sem : String × String) : RawDef :=
  let instr :=
    "st" ++ sem.2 ++ (if sem.1 = "volatile" then "" else s.2) ++ ".b" ++ toString sz
      ++ " [%0], %1;"
  { prim := .store sem.1 sz s.1
    pre := []
    instr := instr
    text := "template<class _CUDA_A, class _CUDA_B> "
      ++ "static inline _LIBCUDACXX_DEVICE void " ++ (Prim.store sem.1 sz s.1).name
      ++ "(_CUDA_A __ptr, _CUDA_B __src) \x7b "
      ++ "asm volatile(\"" ++ instr ++ "\" :: "
      ++ "\"l\"(__ptr),\"" ++ registers "b" sz ++ "\"(__src)"
      ++ " : \"memory\"); \x7d\n" }

/-- The instruction template of a raw read-modify-write primitive (lines
226-231). -/
def rmwInstr (s : String × String) (sz : Nat) (rmw type sem : String × String) : String :=
  "atom" ++ rmw.2 ++ sem.2 ++ s.2 ++ type.2 ++ toString sz ++ " "
    ++ (if rmw.1 = "compare_exchange" then "%0,[%1],%2,%3" else "%0,[%1],%2")
    ++ ";"

/-- The `asm` statement of a raw read-modify-write primitive (lines 226-236,
without the closing of the function body). -/
def rmwAsm (s : String × String) (sz : Nat) (rmw type sem : String × String) : String :=
  "asm volatile(\"" ++ rmwInstr s sz rmw type sem ++ "\" : "
    ++ (if rmw.1 = "compare_exchange" then
          "\"=" ++ registers type.1 sz ++ "\"(__dst) : \"l\"(__ptr),\"" ++ registers type.1 sz
            ++ "\"(__cmp),\"" ++ registers type.1 sz ++ "\"(__op)"
        else
          "\"=" ++ registers type.1 sz ++ "\"(__dst) : \"l\"(__ptr),\"" ++ registers type.1 sz
            ++ "\"(__op)")
    ++ " : \"memory\");"

/-- The statements between the braces of a raw read-modify-write primitive
(lines 224-236). -/
def rmwBody (s : String × String) (sz : Nat) (rmw type sem : String × String) : String :=
  (if rmw.1 = "fetch_sub" then "__op = -__op;" ++ "\n" else "") ++ rmwAsm s sz rmw type sem

/-- Lines 214-236. -/
def rmwDef (s : String × String) (sz : Nat) (rmw type sem : String × String) : RawDef :=
  { prim := .rmw rmw.1 sem.1 type.1 sz s.1
    pre := if rmw.1 = "fetch_sub" then ["__op = -__op;"] else []
    instr := rmwInstr s sz rmw type sem
    text :=
      (if rmw.1 = "compare_exchange" then
        "template<class _CUDA_A, class _CUDA_B, class _CUDA_C, class _CUDA_D> "
       else "template<class _CUDA_A, class _CUDA_B, class _CUDA_C> ")
      ++ "static inline _LIBCUDACXX_DEVICE void "
      ++ (Prim.rmw rmw.1 sem.1 type.1 sz s.1).name ++ "("
      ++ (if rmw.1 = "compare_exchange" then
            "_CUDA_A __ptr, _CUDA_B& __dst, _CUDA_C __cmp, _CUDA_D __op"
          else "_CUDA_A __ptr, _CUDA_B& __dst, _CUDA_C __op")
      ++ ") \x7b " ++ rmwBody s sz rmw type sem ++ " \x7d\n" }

/-! ## Dispatch synthesizer -/

/-- A public entry point as emitted: its name, the scrutinee and the bodies of
its two switches, and the full text of the definition. -/
structure Dispatcher where
  name : String
  scrutinee : String
  sm70 : List Line
  device : List Line
  text : String

/-- Lines 105-130. -/
def fenceDispatcher (s : String × String) : Dispatcher :=
  { name := "__atomic_thread_fence_cuda"
    scrutinee := "__memorder"
    sm70 := fenceSwitchSM70 s.1
    device := fenceSwitchDevice s.1
    text := "static inline _LIBCUDACXX_DEVICE void __atomic_thread_fence_cuda(int __memorder, "
      ++ scopenametag s.1 ++ ") \x7b\n"
      ++ dispatchTarget "  " "__memorder" (fenceSwitchSM70 s.1) (fenceSwitchDevice s.1)
      ++ "\x7d\n" }

/-- Lines 143-167. -/
def loadDispatcher (s : String × String) (sz : Nat) (cv : String) : Dispatcher :=
  { name := "__atomic_load_cuda"
    scrutinee := "__memorder"
    sm70 := loadSwitchSM70 sz s.1
    device := loadSwitchDevice sz s.1
    text := "template<class _Type, typename _CUDA_VSTD::enable_if<sizeof(_Type)=="
      ++ toString (sz / 8) ++ ", int>::type = 0>\n"
      ++ "_LIBCUDACXX_DEVICE void __atomic_load_cuda(const " ++ cv
      ++ "_Type *__ptr, _Type *__ret, int __memorder, " ++ scopenametag s.1 ++ ") \x7b\n"
      ++ "    uint" ++ toString sz ++ "_t __tmp = 0;\n"
      ++ dispatchTarget "    " "__memorder" (loadSwitchSM70 sz s.1) (loadSwitchDevice sz s.1)
      ++ "    memcpy(__ret, &__tmp, " ++ toString (sz / 8) ++ ");\n"
      ++ "\x7d\n" }

/-- Lines 179-201. -/
def storeDispatcher (s : String × String) (sz : Nat) (cv : String) : Dispatcher :=
  { name := "__atomic_store_cuda"
    scrutinee := "__memorder"
    sm70 := storeSwitchSM70 sz s.1
    device := storeSwitchDevice sz s.1
    text := "template<class _Type, typename cuda::std::enable_if<sizeof(_Type)=="
      ++ toString (sz / 8) ++ ", int>::type = 0>\n"
      ++ "_LIBCUDACXX_DEVICE void __atomic_store_cuda(" ++ cv
      ++ "_Type *__ptr, _Type *__val, int __memorder, " ++ scopenametag s.1 ++ ") \x7b\n"
      ++ "    uint" ++ toString sz ++ "_t __tmp = 0;\n"
      ++ "    memcpy(&__tmp, __val, " ++ toString (sz / 8) ++ ");\n"
      ++ dispatchTarget "    " "__memorder" (storeSwitchSM70 sz s.1) (storeSwitchDevice sz s.1)
      ++ "\x7d\n" }

/-- The scrutinee of the compare-exchange switches (lines 248 and 259). -/
def casScrutinee : String :=
  "__stronger_order_cuda(__success_memorder, __failure_memorder)"

/-- Lines 240-273. -/
def casDispatcher (s : String × String) (sz : Nat) (type : String × String) (cv : String) :
    Dispatcher :=
  { name := "__atomic_compare_exchange_cuda"
    scrutinee := casScrutinee
    sm70 := casSwitchSM70 type.1 sz s.1
    device := casSwitchDevice type.1 sz s.1
    text := "template<class _Type, typename cuda::std::enable_if<sizeof(_Type)=="
      ++ toString (sz / 8) ++ ", int>::type = 0>\n"
      ++ "_LIBCUDACXX_DEVICE bool __atomic_compare_exchange_cuda(" ++ cv
      ++ "_Type *__ptr, _Type *__expected, const _Type *__desired, bool, "
      ++ "int __success_memorder, int __failure_memorder, " ++ scopenametag s.1 ++ ") \x7b\n"
      ++ "    uint" ++ toString sz ++ "_t __tmp = 0, __old = 0, __old_tmp;\n"
      ++ "    memcpy(&__tmp, __desired, " ++ toString (sz / 8) ++ ");\n"
      ++ "    memcpy(&__old, __expected, " ++ toString (sz / 8) ++ ");\n"
      ++ "    __old_tmp = __old;\n"
      ++ dispatchTarget "    " casScrutinee (casSwitchSM70 type.1 sz s.1)
           (casSwitchDevice type.1 sz s.1)
      ++ "    bool const __ret = __old == __old_tmp;\n"
      ++ "    memcpy(__expected, &__old, " ++ toString (sz / 8) ++ ");\n"
      ++ "    return __ret;\n"
      ++ "\x7d\n" }

/-- The rest of the `enable_if` condition of a fetch dispatcher, after
`sizeof(_Type)==N` (lines 284-295). -/
def fetchConstraint (op type : String) : String :=
  if type = "f" then
    " && cuda::std::is_floating_point<_Type>::value, int>::type = 0>\n"
  else if op = "fetch_max" ∨ op = "fetch_min" then
    (if type = "u" then
      " && cuda::std::is_integral<_Type>::value && cuda::std::is_unsigned<_Type>::value, int>::type = 0>\n"
     else if type = "s" then
      " && cuda::std::is_integral<_Type>::value && cuda::std::is_signed<_Type>::value, int>::type = 0>\n"
     else "")
  else if type = "u" then
    " && cuda::std::is_integral<_Type>::value, int>::type = 0>\n"
  else
    ", int>::type = 0>\n"

/-- The declaration of the local `__tmp` of a fetch dispatcher (lines 298-304). -/
def fetchTmpType (type : String) (sz : Nat) : String :=
  if type = "f" ∧ sz = 32 then "    float"
  else if type = "f" ∧ sz = 64 then "    double"
  else "    uint" ++ toString sz ++ "_t"

/-- Lines 276-337: the dispatcher of `exchange` and of every fetch operation. -/
def rmwDispatcher (s : String × String) (sz : Nat) (rmw type : String × String) (cv : String) :
    Dispatcher :=
  { name := "__atomic_" ++ rmw.1 ++ "_cuda"
    scrutinee := "__memorder"
    sm70 := rmwSwitchSM70 rmw.1 type.1 sz s.1
    device := rmwSwitchDevice rmw.1 type.1 sz s.1
    text := "template<class _Type, typename cuda::std::enable_if<sizeof(_Type)=="
      ++ toString (sz / 8)
      ++ (if rmw.1 = "exchange" then
            ", int>::type = 0>\n"
            ++ "_LIBCUDACXX_DEVICE void __atomic_exchange_cuda(" ++ cv
            ++ "_Type *__ptr, _Type *__val, _Type *__ret, int __memorder, "
            ++ scopenametag s.1 ++ ") \x7b\n"
            ++ "    uint" ++ toString sz ++ "_t __tmp = 0;\n"
            ++ "    memcpy(&__tmp, __val, " ++ toString (sz / 8) ++ ");\n"
          else
            fetchConstraint rmw.1 type.1
            ++ "_LIBCUDACXX_DEVICE _Type __atomic_" ++ rmw.1 ++ "_cuda(" ++ cv
            ++ "_Type *__ptr, _Type __val, int __memorder, " ++ scopenametag s.1 ++ ") \x7b\n"
            ++ "    _Type __ret;\n"
            ++ fetchTmpType type.1 sz ++ " __tmp = 0;\n"
            ++ "    memcpy(&__tmp, &__val, " ++ toString (sz / 8) ++ ");\n")
      ++ dispatchTarget "    " "__memorder" (rmwSwitchSM70 rmw.1 type.1 sz s.1)
           (rmwSwitchDevice rmw.1 type.1 sz s.1)
      ++ (if rmw.1 = "exchange" then
            "    memcpy(__ret, &__tmp, " ++ toString (sz / 8) ++ ");\n"
          else
            "    memcpy(&__ret, &__tmp, " ++ toString (sz / 8) ++ ");\n"
            ++ "    return __ret;\n")
      ++ "\x7d\n" }

/-- Lines 347-380: the pointer `fetch_add` / `fetch_sub` dispatcher, `op` being
`add` or `sub`. -/
def ptrDispatcher (s : String × String) (cv op : String) : Dispatcher :=
  { name := "__atomic_fetch_" ++ op ++ "_cuda"
    scrutinee := "__memorder"
    sm70 := ptrSwitchSM70 s.1
    device := ptrSwitchDevice s.1
    text := "template<class _Type>\n"
      ++ "_LIBCUDACXX_DEVICE _Type* __atomic_fetch_" ++ op ++ "_cuda(_Type *" ++ cv
      ++ "*__ptr, ptrdiff_t __val, int __memorder, " ++ scopenametag s.1 ++ ") \x7b\n"
      ++ "    _Type* __ret;\n"
      ++ "    uint64_t __tmp = 0;\n"
      ++ "    memcpy(&__tmp, &__val, 8);\n"
      ++ (if op = "sub" then "    __tmp = -__tmp;\n" else "")
      ++ "    __tmp *= sizeof(_Type);\n"
      ++ dispatchTarget "    " "__memorder" (ptrSwitchSM70 s.1) (ptrSwitchDevice s.1)
      ++ "    memcpy(&__ret, &__tmp, 8);\n"
      ++ "    return __ret;\n"
      ++ "\x7d\n" }

/-! ## Output writer -/

/-- A unit of the output: a raw primitive or a public dispatcher. -/
inductive Item where
  | raw (d : RawDef)
  | disp (d : Dispatcher)

def Item.text : Item → String
  | .raw d => d.text
  | .disp d => d.text

def Item.rawDef? : Item → Option RawDef
  | .raw d => some d
  | .disp _ => none

def Item.dispatcher? : Item → Option Dispatcher
  | .raw _ => none
  | .disp d => some d

/-- The two skip rules of the read-modify-write loop (lines 209-212). -/
def rmwSkipped (type op : String) : Bool :=
  (type == "f" && (op == "fetch_max" || op == "fetch_min")) ||
  (type == "s" && (op == "fetch_add" || op == "fetch_sub"))

/-- The read-modify-write part of one scope section (lines 204-343). -/
def rmwItems (s : String × String) : List Item :=
  rmw_sizes.flatMap fun sz =>
    rmw_classes.flatMap fun cl =>
      (mapGet rmw_operations cl []).flatMap fun rmw =>
        (mapGet rmw_types cl []).flatMap fun type =>
          if rmwSkipped type.1 rmw.1 then []
          else
            rmw_semantics.map (fun sem => Item.raw (rmwDef s sz rmw type sem))
            ++ cv_qualifier.map (fun cv =>
                Item.disp (if rmw.1 = "compare_exchange" then casDispatcher s sz type cv
                           else rmwDispatcher s sz rmw type cv))

/-- The operation tokens of the pointer dispatchers (line 345). -/
def addsub : List String := ["add", "sub"]

/-- One scope section of the output (the body of the loop of line 101). -/
def scopeItems (s : String × String) : List Item :=
  [Item.raw (membarDef s)]
    ++ fence_semantics.map (fun sem => Item.raw (fenceDef s sem))
    ++ [Item.disp (fenceDispatcher s)]
    ++ (ld_sizes.flatMap fun sz =>
          ld_semantics.map (fun sem => Item.raw (loadDef s sz sem))
          ++ cv_qualifier.map (fun cv => Item.disp (loadDispatcher s sz cv)))
    ++ (st_sizes.flatMap fun sz =>
          st_semantics.map (fun sem => Item.raw (storeDef s sz sem))
          ++ cv_qualifier.map (fun cv => Item.disp (storeDispatcher s sz cv)))
    ++ rmwItems s
    ++ (cv_qualifier.flatMap fun cv => addsub.map fun op => Item.disp (ptrDispatcher s cv op))

/-- Everything the generator emits after the preamble, in output order. -/
def items : List Item :=
  scopes.flatMap scopeItems

/-- Lines 77-86. -/
def preamble : String :=
  "//===----------------------------------------------------------------------===//\n"
    ++ "//\n"
    ++ "// Part of libcu++, the C++ Standard Library for your entire system,\n"
    ++ "// under the Apache License v2.0 with LLVM Exceptions.\n"
    ++ "// See https://llvm.org/LICENSE.txt for license information.\n"
    ++ "// SPDX-License-Identifier: Apache-2.0 WITH LLVM-exception\n"
    ++ "// SPDX-FileCopyrightText: Copyright (c) 2023 NVIDIA CORPORATION & AFFILIATES.\n"
    ++ "//\n"
    ++ "//===----------------------------------------------------------------------===//\n"
    ++ "\n\n"

/-- The content of the file `__atomic_generated` written by `main`. -/
def main : String :=
  preamble ++ String.join (items.map Item.text)

/-- Every raw primitive the generator defines, in emission order. -/
def rawDefs : List RawDef :=
  items.filterMap Item.rawDef?

/-- Every public dispatcher the generator defines, in emission order. -/
def dispatchers : List Dispatcher :=
  items.filterMap Item.dispatcher?

/-- The identifying tuples of the raw primitives the generator defines. -/
def emittedPrims : List Prim :=
  rawDefs.map RawDef.prim

/-- The names of all raw primitives the generator defines. -/
def emittedNames : List String :=
  emittedPrims.map Prim.name

/-- The instruction templates of all raw primitives the generator defines. -/
def emittedInstrs : List String :=
  rawDefs.map RawDef.instr

/-- The capability tiers an `NV_DISPATCH_TARGET` block selects between. -/
inductive Tier where
  | sm70
  | device
  deriving DecidableEq, Repr

/-- The switch body a dispatcher runs in a tier: the `NV_PROVIDES_SM_70` branch
or the `NV_IS_DEVICE` branch. -/
def Dispatcher.switch (d : Dispatcher) : Tier → List Line
  | .sm70 => d.sm70
  | .device => d.device

/-- The statements a dispatcher executes in a tier for a memory order. -/
def Dispatcher.run (d : Dispatcher) (t : Tier) (o : MemOrder) : List Stmt :=
  execOrder (d.switch t) o

/-- The raw primitive a statement calls, if it is a call. -/
def Stmt.callee? : Stmt → Option Prim
  | .call callee _ => some callee
  | .assert0 => none

/-- The raw primitives called on one switch line. -/
def Line.calls (l : Line) : List Prim :=
  l.stmts.filterMap Stmt.callee?

/-- The raw primitives a dispatcher calls, in either tier and any arm. -/
def Dispatcher.calls (d : Dispatcher) : List Prim :=
  (d.sm70 ++ d.device).flatMap Line.calls

/-! ## The fence-sandwich policy, as the specification words it -/

/-- A full barrier stands before the volatile primitive iff the order is
release, acquire-release or sequential-consistency. -/
def barrierBefore : MemOrder → Bool
  | .release | .acq_rel | .seq_cst => true
  | _ => false

/-- A full barrier stands after the volatile primitive iff the order is
acquire, consume, acquire-release or sequential-consistency. -/
def barrierAfter : MemOrder → Bool
  | .acquire | .consume | .acq_rel | .seq_cst => true
  | _ => false

/-- The call `__cuda_membar_<scope>()`. -/
def membarCall (scope : String) : Stmt := .call (.membar scope) []

/-- The call `__cuda_fence_sc_<scope>()`. -/
def fenceScCall (scope : String) : Stmt := .call (.fence "sc" scope) []

/-- The statement sequence the sandwich policy prescribes around the volatile
primitive call `p`. -/
def sandwich (scope : String) (p : Stmt) (o : MemOrder) : List Stmt :=
  (if barrierBefore o then [membarCall scope] else [])
    ++ [p]
    ++ (if barrierAfter o then [membarCall scope] else [])

/-- The (operation, type suffix) pairs of the arithmetic class that the skip
rules leave: fetch_add and fetch_sub with `u` and `f`, fetch_max and fetch_min
with `u` and `s`. -/
def arithmeticPairs : List (String × String) :=
  [("fetch_add", "u"), ("fetch_add", "f"), ("fetch_sub", "u"), ("fetch_sub", "f"),
   ("fetch_max", "u"), ("fetch_max", "s"), ("fetch_min", "u"), ("fetch_min", "s")]

/-- The bitwise operations, each with the single untyped suffix. -/
def bitwisePairs : List (String × String) :=
  [("exchange", ""), ("compare_exchange", ""), ("fetch_and", ""), ("fetch_or", ""),
   ("fetch_xor", "")]

/-! ## Execution of the compare-exchange dispatcher -/

/-- The objects a call of `__atomic_compare_exchange_cuda` touches: the atomic
object `*__ptr` and the local variables, by name. -/
structure CasState where
  mem : Nat
  vars : String → Nat

def CasState.set (st : CasState) (x : String) (v : Nat) : CasState :=
  { st with vars := fun y => if y = x then v else st.vars y }

/-- Effect of one statement of a compare-exchange switch.  The raw
compare-exchange primitive `(ptr, dst, cmp, op)` is the atomic instruction that
writes the value observed in memory into `dst` and stores `op` iff the observed
value equals `cmp`; barriers and fences change no value; `assert(0)` aborts,
and so does a call this model does not cover (`none`). -/
def runCasStmt (st : CasState) : Stmt → Option CasState
  | .call (.membar _) [] => some st
  | .call (.fence _ _) [] => some st
  | .call (.rmw op _ _ _ _) [_, dst, cmp, new] =>
    if op = "compare_exchange" then
      let observed := st.mem
      let stored := if observed = st.vars cmp then st.vars new else st.mem
      some ({ st with mem := stored }.set dst observed)
    else none
  | _ => none

def runCasStmts (st : CasState) : List Stmt → Option CasState
  | [] => some st
  | s :: ss =>
    match runCasStmt st s with
    | some st1 => runCasStmts st1 ss
    | none => none

/-- The result of a call of `__atomic_compare_exchange_cuda`. -/
structure CasResult where
  ret : Bool
  mem : Nat
  expected : Nat
  deriving DecidableEq, Repr

/-- The body of `__atomic_compare_exchange_cuda` (lines 242-272) run on the
memory value `mem`, the caller's `*__expected` and `*__desired`, in tier `t`,
with `key` the value of `__stronger_order_cuda(__success_memorder,
__failure_memorder)`; `none` when the call aborts. -/
def atomic_compare_exchange_cuda (d : Dispatcher) (t : Tier) (key : Int)
    (mem expected desired : Nat) : Option CasResult :=
  -- uint_t __tmp = 0, __old = 0, __old_tmp;
  let st0 : CasState := { mem := mem, vars := fun _ => 0 }
  -- memcpy(&__tmp, __desired, n);
  let st1 := st0.set "__tmp" desired
  -- memcpy(&__old, __expected, n);
  let st2 := st1.set "__old" expected
  -- __old_tmp = __old;
  let st3 := st2.set "__old_tmp" (st2.vars "__old")
  match runCasStmts st3 (exec (d.switch t) key) with
  | none => none
  | some st4 =>
    -- bool const __ret = __old == __old_tmp;
    let ret := decide (st4.vars "__old" = st4.vars "__old_tmp")
    -- memcpy(__expected, &__old, n); return __ret;
    some { ret := ret, mem := st4.mem, expected := st4.vars "__old" }

/-! ## Execution of a raw read-modify-write primitive -/

/-- The body of a raw read-modify-write primitive run on the memory value
`mem` and the operand `op`: the statement `__op = -__op;` negates the operand,
then the one instruction acts on memory and operand.  The value domain, its
negation and the meaning `isa` of an instruction template are parameters; the
result is the new memory value and the value written to `__dst`. -/
def RawDef.run {V : Type} (neg : V → V) (isa : String → V → V → V × V) (d : RawDef)
    (mem op : V) : V × V :=
  let op1 := d.pre.foldl (fun v st => if st = "__op = -__op;" then neg v else v) op
  isa d.instr mem op1

/-- The instruction set on `w`-bit unsigned patterns, as far as the add
instruction goes: `atom.add` returns the old value and stores the sum modulo
`2^w`; any other template is left as the identity on memory. -/
def isaUnsigned (w : Nat) (instr : String) (mem op : Nat) : Nat × Nat :=
  if (instr.toList.take 8 = "atom.add".toList) then ((mem + op) % 2 ^ w, mem)
  else (mem, mem)

/-- Two's-complement negation of a `w`-bit pattern. -/
def negUnsigned (w : Nat) (v : Nat) : Nat := (2 ^ w - v % 2 ^ w) % 2 ^ w

/-- The table entry of an operation of a class: the pair a loop over
`rmw_operations[cl]` visits for the key `op`. -/
def opEntry (cl op : String) : String × String :=
  (op, mapGet (mapGet rmw_operations cl []) op "")

/-! ## Character-level helpers for statements about names -/

/-- The code units of a string. -/
def codes (s : String) : List Nat := s.toList.map Char.toNat

/-- Whether `p` occurs in `l` as a contiguous block. -/
def occursIn (p : List Nat) : List Nat → Bool
  | [] => p.isEmpty
  | x :: xs => p.isPrefixOf (x :: xs) || occursIn p xs

/-- Whether the code-unit sequence `n` has the form `pre * mid *`: it starts
with `pre` and `mid` occurs in what follows. -/
def hasForm (pre mid n : List Nat) : Bool :=
  pre.isPrefixOf n && occursIn mid (n.drop pre.length)

/-- A string read as a number in base 256, by its code units. -/
def nameKey (s : String) : Nat := (codes s).foldl (fun a c => a * 256 + c) 0

/-- The four excluded name forms, for both sizes: a prefix and the type and
size token that would follow the order token. -/
def excludedForms : List (String × String) :=
  [("__cuda_fetch_max_", "_f32_"), ("__cuda_fetch_max_", "_f64_"),
   ("__cuda_fetch_min_", "_f32_"), ("__cuda_fetch_min_", "_f64_"),
   ("__cuda_fetch_add_", "_s32_"), ("__cuda_fetch_add_", "_s64_"),
   ("__cuda_fetch_sub_", "_s32_"), ("__cuda_fetch_sub_", "_s64_")]

/-! ## Notions used by the statements about dispatchers -/

/-- The line `default: assert(0);`. -/
def defaultLine : Line := ⟨.default, [.assert0], false⟩

/-- The raw primitives called in one tier of a dispatcher, in any arm. -/
def Dispatcher.tierCalls (d : Dispatcher) (t : Tier) : List Prim :=
  (d.switch t).flatMap Line.calls

/-- Whether the primitive is the full barrier `__cuda_membar_<scope>`. -/
def Prim.isMembar : Prim → Bool
  | .membar _ => true
  | _ => false

/-- Whether the primitive is a scoped fence `__cuda_fence_<sem>_<scope>`. -/
def Prim.isFence : Prim → Bool
  | .fence _ _ => true
  | _ => false

/-- The order token of a primitive name; the membar has none. -/
def Prim.tag : Prim → String
  | .membar _ => ""
  | .fence sem _ => sem
  | .load sem _ _ => sem
  | .store sem _ _ => sem
  | .rmw _ sem _ _ _ => sem

/-- Whether the primitive is a load, store or read-modify-write primitive
named `volatile`. -/
def Prim.isVolatile (p : Prim) : Bool :=
  !p.isMembar && !p.isFence && p.tag == "volatile"

/-- The dispatchers emitted for the scope `s`, in output order. -/
def scopeDispatchers (s : String × String) : List Dispatcher :=
  (scopeItems s).filterMap Item.dispatcher?

/-- The two pointer dispatchers of each scope, in output order. -/
def ptrDispatchers : List Dispatcher :=
  scopes.flatMap fun s => cv_qualifier.flatMap fun cv => addsub.map fun op => ptrDispatcher s cv op

/-- The number of positions of `l` at which the non-empty block `p` starts. -/
def countOcc (p : List Nat) : List Nat → Nat
  | [] => 0
  | x :: xs => (if p.isPrefixOf (x :: xs) then 1 else 0) + countOcc p xs

/-! ## The operand of the pointer dispatchers -/

/-- The value of `__tmp` that a pointer dispatcher passes to the primitive
(lines 350-354): `__tmp` receives the 8 bytes of `__val`, is negated when the
operation is `sub`, and is then multiplied by `sizeof(_Type)`; it is a
`uint64_t`, so each step wraps modulo `2^64`. -/
def ptrOperand (op : String) (val sizeofType : Nat) : Nat :=
  -- uint64_t __tmp = 0; memcpy(&__tmp, &__val, 8);
  let tmp0 := val % 2 ^ 64
  -- if(op == "sub") __tmp = -__tmp;
  let tmp1 := if op = "sub" then (2 ^ 64 - tmp0) % 2 ^ 64 else tmp0
  -- __tmp *= sizeof(_Type);
  (tmp1 * sizeofType) % 2 ^ 64

/-- The read-modify-write primitives among the statements, in order. -/
def rmwCallees (ss : List Stmt) : List Prim :=
  (ss.filterMap Stmt.callee?).filter fun p => !p.isMembar && !p.isFence

/-- The order token the native tier uses for a memory order on a
read-modify-write operation. -/
def nativeTag : MemOrder → String
  | .seq_cst => "acquire"
  | .acquire => "acquire"
  | .consume => "acquire"
  | .acq_rel => "acq_rel"
  | .release => "release"
  | .relaxed => "relaxed"

/-- The order token of the primitive a tier calls for a memory order on a
read-modify-write operation: the native tag, or `volatile` in the fallback. -/
def tierTag : Tier → MemOrder → String
  | .sm70, o => nativeTag o
  | .device, _ => "volatile"

/-! ## The layout of the output, as the specification words it -/

/-- The text of one scope section. -/
def sectionText (s : String × String) : String :=
  String.join ((scopeItems s).map Item.text)

/-- The load primitives of a size followed by the public load dispatcher. -/
def loadGroup (s : String × String) (sz : Nat) : List Item :=
  [Item.raw (loadDef s sz ("acquire", ".acquire")),
   Item.raw (loadDef s sz ("relaxed", ".relaxed")),
   Item.raw (loadDef s sz ("volatile", ".volatile")),
   Item.disp (loadDispatcher s sz "volatile ")]

/-- The store primitives of a size followed by the public store dispatcher. -/
def storeGroup (s : String × String) (sz : Nat) : List Item :=
  [Item.raw (storeDef s sz ("relaxed", ".relaxed")),
   Item.raw (storeDef s sz ("release", ".release")),
   Item.raw (storeDef s sz ("volatile", ".volatile")),
   Item.disp (storeDispatcher s sz "volatile ")]

/-- The read-modify-write primitives of one operation, type and size, one per
order, followed by the public dispatcher of the group. -/
def rmwGroup (s : String × String) (g : Nat × (String × String) × (String × String)) :
    List Item :=
  [Item.raw (rmwDef s g.1 g.2.1 g.2.2 ("acq_rel", ".acq_rel")),
   Item.raw (rmwDef s g.1 g.2.1 g.2.2 ("acquire", ".acquire")),
   Item.raw (rmwDef s g.1 g.2.1 g.2.2 ("relaxed", ".relaxed")),
   Item.raw (rmwDef s g.1 g.2.1 g.2.2 ("release", ".release")),
   Item.raw (rmwDef s g.1 g.2.1 g.2.2 ("volatile", "")),
   Item.disp (if g.2.1.1 = "compare_exchange" then casDispatcher s g.1 g.2.2 "volatile "
              else rmwDispatcher s g.1 g.2.1 g.2.2 "volatile ")]

/-- The groups of read-modify-write primitives of one size, in output order:
operation with its mnemonic, type suffix with its instruction suffix. -/
def rmwGroupsOfSize (sz : Nat) : List (Nat × (String × String) × (String × String)) :=
  [(sz, ("compare_exchange", ".cas"), ("", ".b")),
   (sz, ("exchange", ".exch"), ("", ".b")),
   (sz, ("fetch_and", ".and"), ("", ".b")),
   (sz, ("fetch_or", ".or"), ("", ".b")),
   (sz, ("fetch_xor", ".xor"), ("", ".b")),
   (sz, ("fetch_add", ".add"), ("f", ".f")),
   (sz, ("fetch_add", ".add"), ("u", ".u")),
   (sz, ("fetch_max", ".max"), ("s", ".s")),
   (sz, ("fetch_max", ".max"), ("u", ".u")),
   (sz, ("fetch_min", ".min"), ("s", ".s")),
   (sz, ("fetch_min", ".min"), ("u", ".u")),
   (sz, ("fetch_sub", ".add"), ("f", ".f")),
   (sz, ("fetch_sub", ".add"), ("u", ".u"))]

/-- One scope section in the order the specification gives: the full-barrier
primitive, the scoped fence primitives, the public fence dispatcher, the load
groups of size 32 and 64, the store groups of size 32 and 64, the
read-modify-write groups, the pointer fetch_add dispatcher and the pointer
fetch_sub dispatcher. -/
def sectionLayout (s : String × String) : List Item :=
  [Item.raw (membarDef s),
   Item.raw (fenceDef s ("acq_rel", ".acq_rel")),
   Item.raw (fenceDef s ("sc", ".sc")),
   Item.disp (fenceDispatcher s)]
    ++ loadGroup s 32 ++ loadGroup s 64
    ++ storeGroup s 32 ++ storeGroup s 64
    ++ (rmwGroupsOfSize 32 ++ rmwGroupsOfSize 64).flatMap (rmwGroup s)
    ++ [Item.disp (ptrDispatcher s "volatile " "add"),
        Item.disp (ptrDispatcher s "volatile " "sub")]

/-! ## The naming grammar, as the specification words it -/

/-- The public entry-point names of one scope section, in output order. -/
def publicNameSeq : List String :=
  ["__atomic_thread_fence_cuda", "__atomic_load_cuda", "__atomic_load_cuda",
   "__atomic_store_cuda", "__atomic_store_cuda",
   "__atomic_compare_exchange_cuda", "__atomic_exchange_cuda", "__atomic_fetch_and_cuda",
   "__atomic_fetch_or_cuda", "__atomic_fetch_xor_cuda", "__atomic_fetch_add_cuda",
   "__atomic_fetch_add_cuda", "__atomic_fetch_max_cuda", "__atomic_fetch_max_cuda",
   "__atomic_fetch_min_cuda", "__atomic_fetch_min_cuda", "__atomic_fetch_sub_cuda",
   "__atomic_fetch_sub_cuda",
   "__atomic_compare_exchange_cuda", "__atomic_exchange_cuda", "__atomic_fetch_and_cuda",
   "__atomic_fetch_or_cuda", "__atomic_fetch_xor_cuda", "__atomic_fetch_add_cuda",
   "__atomic_fetch_add_cuda", "__atomic_fetch_max_cuda", "__atomic_fetch_max_cuda",
   "__atomic_fetch_min_cuda", "__atomic_fetch_min_cuda", "__atomic_fetch_sub_cuda",
   "__atomic_fetch_sub_cuda",
   "__atomic_fetch_add_cuda", "__atomic_fetch_sub_cuda"]

/-! ## Code units of the emitted texts, computed piece by piece

The functions below give the code units of an emitted text followed by a rest
`k`, built from the same pieces as the text; the theorems `*_codes` state that
they agree with `codes` of the text.  They exist so that statements about the
characters of the output can be evaluated. -/

/-- The code units of the characters `cs` followed by `k`. -/
def litAux : List Char → List Nat → List Nat
  | [], k => k
  | c :: cs, k => c.toNat :: litAux cs k

/-- The code units of `s` followed by `k`. -/
def lit (s : String) (k : List Nat) : List Nat := litAux s.toList k

/-- The code units of the name of a raw primitive followed by `k`. -/
def Prim.nameK : Prim → List Nat → List Nat
  | .membar scope, k => lit "__cuda_membar_" (lit scope k)
  | .fence sem scope, k => lit "__cuda_fence_" (lit sem (lit "_" (lit scope k)))
  | .load sem sz scope, k =>
    lit "__cuda_load_" (lit sem (lit "_" (lit (toString sz) (lit "_" (lit scope k)))))
  | .store sem sz scope, k =>
    lit "__cuda_store_" (lit sem (lit "_" (lit (toString sz) (lit "_" (lit scope k)))))
  | .rmw op sem type sz scope, k =>
    lit "__cuda_" (lit op (lit "_" (lit sem (lit "_" (lit type (lit (toString sz)
      (lit "_" (lit scope k))))))))

/-- The code units of the name of a raw primitive. -/
def Prim.nameCodes (p : Prim) : List Nat := p.nameK []

/-- A rendered statement followed by `k`. -/
def stmtK : Stmt → List Nat → List Nat
  | .call callee args, k => callee.nameK (lit "(" (lit (", ".intercalate args) (lit ");" k)))
  | .assert0, k => lit "assert(0);" k

/-- The statements of a switch line, each after a blank, followed by `k`. -/
def stmtsK (ss : List Stmt) (k : List Nat) : List Nat :=
  ss.foldr (fun s acc => lit " " (stmtK s acc)) k

/-- A rendered label followed by `k`. -/
def labelK : Label → List Nat → List Nat
  | .case o, k => lit "case " (lit o.macroName (lit ":" k))
  | .default, k => lit "default:" k

/-- A rendered switch line followed by `k`. -/
def lineK (indent : String) (l : Line) (k : List Nat) : List Nat :=
  lit indent (labelK l.label (stmtsK l.stmts
    (lit (if l.brk then " break;" else "") (lit "\n" k))))

/-- The rendered lines of a switch body followed by `k`. -/
def linesK (indent : String) (ls : List Line) (k : List Nat) : List Nat :=
  ls.foldr (fun l acc => lineK indent l acc) k

/-- The text of `dispatchTarget` followed by `k`. -/
def dispatchTargetK (ind scrutinee : String) (sm70 device : List Line) (k : List Nat) :
    List Nat :=
  lit ind (lit "NV_DISPATCH_TARGET(\n"
    (lit ind (lit "  NV_PROVIDES_SM_70, (\n"
    (lit ind (lit "    switch (" (lit scrutinee (lit ") \x7b\n"
    (linesK (ind ++ "      ") sm70
    (lit ind (lit "    \x7d\n"
    (lit ind (lit "  ),\n"
    (lit ind (lit "  NV_IS_DEVICE, (\n"
    (lit ind (lit "    switch (" (lit scrutinee (lit ") \x7b\n"
    (linesK (ind ++ "      ") device
    (lit ind (lit "    \x7d\n"
    (lit ind (lit "  )\n"
    (lit ind (lit ")\n" k)))))))))))))))))))))))))

/-- The text of `membarDef` followed by `k`. -/
def membarDefK (s : String × String) (k : List Nat) : List Nat :=
  lit "static inline _LIBCUDACXX_DEVICE void " ((Prim.membar s.1).nameK
    (lit "() \x7b asm volatile(\"" (lit ("membar" ++ mapGet membar_scopes s.1 "" ++ ";")
    (lit "\":::\"memory\"); \x7d\n" k))))

/-- The text of `fenceDef` followed by `k`. -/
def fenceDefK (s sem : String × String) (k : List Nat) : List Nat :=
  lit "static inline _LIBCUDACXX_DEVICE void " ((Prim.fence sem.1 s.1).nameK
    (lit "() \x7b asm volatile(\"" (lit ("fence" ++ sem.2 ++ s.2 ++ ";")
    (lit "\":::\"memory\"); \x7d\n" k))))

/-- The text of `loadDef` followed by `k`. -/
def loadDefK (s : String × String) (sz : Nat) (sem : String × String) (k : List Nat) :
    List Nat :=
  lit "template<class _CUDA_A, class _CUDA_B> "
    (lit "static inline _LIBCUDACXX_DEVICE void " ((Prim.load sem.1 sz s.1).nameK
    (lit "(_CUDA_A __ptr, _CUDA_B& __dst) \x7b"
    (lit "asm volatile(\"" (lit (loadDef s sz sem).instr (lit "\" : "
    (lit "\"=" (lit (registers "b" sz) (lit "\"(__dst) : \"l\"(__ptr)"
    (lit " : \"memory\"); \x7d\n" k))))))))))

/-- The text of `storeDef` followed by `k`. -/
def storeDefK (s : String × String) (sz : Nat) (sem : String × String) (k : List Nat) :
    List Nat :=
  lit "template<class _CUDA_A, class _CUDA_B> "
    (lit "static inline _LIBCUDACXX_DEVICE void " ((Prim.store sem.1 sz s.1).nameK
    (lit "(_CUDA_A __ptr, _CUDA_B __src) \x7b "
    (lit "asm volatile(\"" (lit (storeDef s sz sem).instr (lit "\" :: "
    (lit "\"l\"(__ptr),\"" (lit (registers "b" sz) (lit "\"(__src)"
    (lit " : \"memory\"); \x7d\n" k))))))))))

/-- The text of `rmwDef` followed by `k`. -/
def rmwDefK (s : String × String) (sz : Nat) (rmw type sem : String × String) (k : List Nat) :
    List Nat :=
  lit (if rmw.1 = "compare_exchange" then
        "template<class _CUDA_A, class _CUDA_B, class _CUDA_C, class _CUDA_D> "
       else "template<class _CUDA_A, class _CUDA_B, class _CUDA_C> ")
    (lit "static inline _LIBCUDACXX_DEVICE void "
    ((Prim.rmw rmw.1 sem.1 type.1 sz s.1).nameK (lit "("
    (lit (if rmw.1 = "compare_exchange" then
            "_CUDA_A __ptr, _CUDA_B& __dst, _CUDA_C __cmp, _CUDA_D __op"
          else "_CUDA_A __ptr, _CUDA_B& __dst, _CUDA_C __op")
    (lit ") \x7b "
    (lit (if rmw.1 = "fetch_sub" then "__op = -__op;" ++ "\n" else "")
    (lit "asm volatile(\"" (lit (rmwInstr s sz rmw type sem) (lit "\" : "
    (lit (if rmw.1 = "compare_exchange" then
            "\"=" ++ registers type.1 sz ++ "\"(__dst) : \"l\"(__ptr),\"" ++ registers type.1 sz
              ++ "\"(__cmp),\"" ++ registers type.1 sz ++ "\"(__op)"
          else
            "\"=" ++ registers type.1 sz ++ "\"(__dst) : \"l\"(__ptr),\"" ++ registers type.1 sz
              ++ "\"(__op)")
    (lit " : \"memory\");" (lit " \x7d\n" k))))))))))))

/-- The text of `fenceDispatcher` followed by `k`. -/
def fenceDispatcherK (s : String × String) (k : List Nat) : List Nat :=
  lit "static inline _LIBCUDACXX_DEVICE void __atomic_thread_fence_cuda(int __memorder, "
    (lit (scopenametag s.1) (lit ") \x7b\n"
    (dispatchTargetK "  " "__memorder" (fenceSwitchSM70 s.1) (fenceSwitchDevice s.1)
    (lit "\x7d\n" k))))

/-- The text of `loadDispatcher` followed by `k`. -/
def loadDispatcherK (s : String × String) (sz : Nat) (cv : String) (k : List Nat) : List Nat :=
  lit "template<class _Type, typename _CUDA_VSTD::enable_if<sizeof(_Type)=="
    (lit (toString (sz / 8)) (lit ", int>::type = 0>\n"
    (lit "_LIBCUDACXX_DEVICE void __atomic_load_cuda(const " (lit cv
    (lit "_Type *__ptr, _Type *__ret, int __memorder, " (lit (scopenametag s.1)
    (lit ") \x7b\n"
    (lit "    uint" (lit (toString sz) (lit "_t __tmp = 0;\n"
    (dispatchTargetK "    " "__memorder" (loadSwitchSM70 sz s.1) (loadSwitchDevice sz s.1)
    (lit "    memcpy(__ret, &__tmp, " (lit (toString (sz / 8)) (lit ");\n"
    (lit "\x7d\n" k)))))))))))))))

/-- The text of `storeDispatcher` followed by `k`. -/
def storeDispatcherK (s : String × String) (sz : Nat) (cv : String) (k : List Nat) : List Nat :=
  lit "template<class _Type, typename cuda::std::enable_if<sizeof(_Type)=="
    (lit (toString (sz / 8)) (lit ", int>::type = 0>\n"
    (lit "_LIBCUDACXX_DEVICE void __atomic_store_cuda(" (lit cv
    (lit "_Type *__ptr, _Type *__val, int __memorder, " (lit (scopenametag s.1)
    (lit ") \x7b\n"
    (lit "    uint" (lit (toString sz) (lit "_t __tmp = 0;\n"
    (lit "    memcpy(&__tmp, __val, " (lit (toString (sz / 8)) (lit ");\n"
    (dispatchTargetK "    " "__memorder" (storeSwitchSM70 sz s.1) (storeSwitchDevice sz s.1)
    (lit "\x7d\n" k)))))))))))))))

/-- The text of `casDispatcher` followed by `k`. -/
def casDispatcherK (s : String × String) (sz : Nat) (type : String × String) (cv : String)
    (k : List Nat) : List Nat :=
  lit "template<class _Type, typename cuda::std::enable_if<sizeof(_Type)=="
    (lit (toString (sz / 8)) (lit ", int>::type = 0>\n"
    (lit "_LIBCUDACXX_DEVICE bool __atomic_compare_exchange_cuda(" (lit cv
    (lit "_Type *__ptr, _Type *__expected, const _Type *__desired, bool, "
    (lit "int __success_memorder, int __failure_memorder, " (lit (scopenametag s.1)
    (lit ") \x7b\n"
    (lit "    uint" (lit (toString sz) (lit "_t __tmp = 0, __old = 0, __old_tmp;\n"
    (lit "    memcpy(&__tmp, __desired, " (lit (toString (sz / 8)) (lit ");\n"
    (lit "    memcpy(&__old, __expected, " (lit (toString (sz / 8)) (lit ");\n"
    (lit "    __old_tmp = __old;\n"
    (dispatchTargetK "    " casScrutinee (casSwitchSM70 type.1 sz s.1)
      (casSwitchDevice type.1 sz s.1)
    (lit "    bool const __ret = __old == __old_tmp;\n"
    (lit "    memcpy(__expected, &__old, " (lit (toString (sz / 8)) (lit ");\n"
    (lit "    return __ret;\n"
    (lit "\x7d\n" k)))))))))))))))))))))))))

/-- The text of `rmwDispatcher` followed by `k`. -/
def rmwDispatcherK (s : String × String) (sz : Nat) (rmw type : String × String) (cv : String)
    (k : List Nat) : List Nat :=
  lit "template<class _Type, typename cuda::std::enable_if<sizeof(_Type)=="
    (lit (toString (sz / 8))
    (lit (if rmw.1 = "exchange" then
            ", int>::type = 0>\n"
            ++ "_LIBCUDACXX_DEVICE void __atomic_exchange_cuda(" ++ cv
            ++ "_Type *__ptr, _Type *__val, _Type *__ret, int __memorder, "
            ++ scopenametag s.1 ++ ") \x7b\n"
            ++ "    uint" ++ toString sz ++ "_t __tmp = 0;\n"
            ++ "    memcpy(&__tmp, __val, " ++ toString (sz / 8) ++ ");\n"
          else
            fetchConstraint rmw.1 type.1
            ++ "_LIBCUDACXX_DEVICE _Type __atomic_" ++ rmw.1 ++ "_cuda(" ++ cv
            ++ "_Type *__ptr, _Type __val, int __memorder, " ++ scopenametag s.1 ++ ") \x7b\n"
            ++ "    _Type __ret;\n"
            ++ fetchTmpType type.1 sz ++ " __tmp = 0;\n"
            ++ "    memcpy(&__tmp, &__val, " ++ toString (sz / 8) ++ ");\n")
    (dispatchTargetK "    " "__memorder" (rmwSwitchSM70 rmw.1 type.1 sz s.1)
      (rmwSwitchDevice rmw.1 type.1 sz s.1)
    (lit (if rmw.1 = "exchange" then
            "    memcpy(__ret, &__tmp, " ++ toString (sz / 8) ++ ");\n"
          else
            "    memcpy(&__ret, &__tmp, " ++ toString (sz / 8) ++ ");\n"
            ++ "    return __ret;\n")
    (lit "\x7d\n" k)))))

/-- The text of `ptrDispatcher` followed by `k`. -/
def ptrDispatcherK (s : String × String) (cv op : String) (k : List Nat) : List Nat :=
  lit "template<class _Type>\n"
    (lit "_LIBCUDACXX_DEVICE _Type* __atomic_fetch_" (lit op (lit "_cuda(_Type *" (lit cv
    (lit "*__ptr, ptrdiff_t __val, int __memorder, " (lit (scopenametag s.1)
    (lit ") \x7b\n"
    (lit "    _Type* __ret;\n"
    (lit "    uint64_t __tmp = 0;\n"
    (lit "    memcpy(&__tmp, &__val, 8);\n"
    (lit (if op = "sub" then "    __tmp = -__tmp;\n" else "")
    (lit "    __tmp *= sizeof(_Type);\n"
    (dispatchTargetK "    " "__memorder" (ptrSwitchSM70 s.1) (ptrSwitchDevice s.1)
    (lit "    memcpy(&__ret, &__tmp, 8);\n"
    (lit "    return __ret;\n"
    (lit "\x7d\n" k))))))))))))))))

/-- An item together with the code units of its text, computed piece by
piece. -/
def loadGroupCoded (s : String × String) (sz : Nat) : List (Item × List Nat) :=
  [(Item.raw (loadDef s sz ("acquire", ".acquire")), loadDefK s sz ("acquire", ".acquire") []),
   (Item.raw (loadDef s sz ("relaxed", ".relaxed")), loadDefK s sz ("relaxed", ".relaxed") []),
   (Item.raw (loadDef s sz ("volatile", ".volatile")),
      loadDefK s sz ("volatile", ".volatile") []),
   (Item.disp (loadDispatcher s sz "volatile "), loadDispatcherK s sz "volatile " [])]

def storeGroupCoded (s : String × String) (sz : Nat) : List (Item × List Nat) :=
  [(Item.raw (storeDef s sz ("relaxed", ".relaxed")), storeDefK s sz ("relaxed", ".relaxed") []),
   (Item.raw (storeDef s sz ("release", ".release")), storeDefK s sz ("release", ".release") []),
   (Item.raw (storeDef s sz ("volatile", ".volatile")),
      storeDefK s sz ("volatile", ".volatile") []),
   (Item.disp (storeDispatcher s sz "volatile "), storeDispatcherK s sz "volatile " [])]

def rmwGroupCoded (s : String × String) (g : Nat × (String × String) × (String × String)) :
    List (Item × List Nat) :=
  [(Item.raw (rmwDef s g.1 g.2.1 g.2.2 ("acq_rel", ".acq_rel")),
      rmwDefK s g.1 g.2.1 g.2.2 ("acq_rel", ".acq_rel") []),
   (Item.raw (rmwDef s g.1 g.2.1 g.2.2 ("acquire", ".acquire")),
      rmwDefK s g.1 g.2.1 g.2.2 ("acquire", ".acquire") []),
   (Item.raw (rmwDef s g.1 g.2.1 g.2.2 ("relaxed", ".relaxed")),
      rmwDefK s g.1 g.2.1 g.2.2 ("relaxed", ".relaxed") []),
   (Item.raw (rmwDef s g.1 g.2.1 g.2.2 ("release", ".release")),
      rmwDefK s g.1 g.2.1 g.2.2 ("release", ".release") []),
   (Item.raw (rmwDef s g.1 g.2.1 g.2.2 ("volatile", "")),
      rmwDefK s g.1 g.2.1 g.2.2 ("volatile", "") []),
   (if g.2.1.1 = "compare_exchange" then
      (Item.disp (casDispatcher s g.1 g.2.2 "volatile "), casDispatcherK s g.1 g.2.2 "volatile " [])
    else
      (Item.disp (rmwDispatcher s g.1 g.2.1 g.2.2 "volatile "),
        rmwDispatcherK s g.1 g.2.1 g.2.2 "volatile " []))]

/-- The items of one scope section, in output order, each with the code units
of its text. -/
def sectionCoded (s : String × String) : List (Item × List Nat) :=
  [(Item.raw (membarDef s), membarDefK s []),
   (Item.raw (fenceDef s ("acq_rel", ".acq_rel")), fenceDefK s ("acq_rel", ".acq_rel") []),
   (Item.raw (fenceDef s ("sc", ".sc")), fenceDefK s ("sc", ".sc") []),
   (Item.disp (fenceDispatcher s), fenceDispatcherK s [])]
    ++ loadGroupCoded s 32 ++ loadGroupCoded s 64
    ++ storeGroupCoded s 32 ++ storeGroupCoded s 64
    ++ (rmwGroupsOfSize 32 ++ rmwGroupsOfSize 64).flatMap (rmwGroupCoded s)
    ++ [(Item.disp (ptrDispatcher s "volatile " "add"), ptrDispatcherK s "volatile " "add" []),
        (Item.disp (ptrDispatcher s "volatile " "sub"), ptrDispatcherK s "volatile " "sub" [])]

/-- Every item of the output, in output order, with the code units of its
text. -/
def coded : List (Item × List Nat) :=
  scopes.flatMap sectionCoded

/-- The pointer dispatchers of the output, each with the code units of its
text. -/
def ptrCoded : List (Dispatcher × List Nat) :=
  scopes.flatMap fun s => cv_qualifier.flatMap fun cv =>
    addsub.map fun op => (ptrDispatcher s cv op, ptrDispatcherK s cv op [])

/-! ## Words of the emitted text -/

/-- Whether the code unit is a letter, a digit or the underscore. -/
def isIdent (c : Nat) : Bool :=
  (decide (48 ≤ c) && decide (c ≤ 57)) || (decide (65 ≤ c) && decide (c ≤ 90))
    || (decide (97 ≤ c) && decide (c ≤ 122)) || c == 95

/-- An identifier word of a text: its code units, the code unit that follows
it (0 at the end of the text), and whether an opening brace stands somewhere
before it, that is whether the word belongs to a function body. -/
structure Word where
  word : List Nat
  next : Nat
  inBody : Bool
  deriving DecidableEq, Repr

/-- The identifier words of the rest `l` of a text, `cur` being the word that
is being read (kept reversed) and `seen` whether an opening brace was read. -/
def wordsAux (seen : Bool) : List Nat → List Nat → List Word
  | cur, [] => if cur.isEmpty then [] else [⟨cur.reverse, 0, seen⟩]
  | cur, c :: cs =>
    if isIdent c then wordsAux seen (c :: cur) cs
    else if cur.isEmpty then wordsAux (seen || c == 123) [] cs
    else ⟨cur.reverse, c, seen⟩ :: wordsAux (seen || c == 123) [] cs

/-- The identifier words of a text: its maximal runs of letters, digits and
underscores. -/
def words (l : List Nat) : List Word := wordsAux false [] l

/-- The words that introduce a loop or a jump. -/
def loopKeywords : List (List Nat) :=
  [codes "while", codes "for", codes "do", codes "goto"]

/-- The names a dispatcher body applies that the generator does not emit:
macros, operators and functions of the surrounding library. -/
def externalNames : List (List Nat) :=
  [codes "NV_DISPATCH_TARGET", codes "sizeof", codes "memcpy", codes "assert",
   codes "__stronger_order_cuda"]

/-- What a word applied in the body of an item may be: in a raw primitive only
`volatile` (of `asm volatile`); in a dispatcher an external name or the name of
a raw primitive the dispatcher calls in one of its switches. -/
def appliedOk : Item → List Nat → Bool
  | .raw _, w => w == codes "volatile"
  | .disp d, w => externalNames.contains w || (d.calls.map Prim.nameCodes).contains w

/-- What a word applied in the signature of an item may be: the name under
which the item is defined or, in the template header of a dispatcher,
`sizeof`. -/
def definedOk : Item → List Nat → Bool
  | .raw d, w => w == d.prim.nameCodes
  | .disp d, w => w == codes d.name || w == codes "sizeof"

/-- The check of one word of an item: it is no loop keyword; if it stands in
the body directly before an opening parenthesis it is an allowed applied name;
if it stands in the signature directly before an opening parenthesis it is the
defined name (or `sizeof`). -/
def wordOk (i : Item) (w : Word) : Bool :=
  !loopKeywords.contains w.word
    && (!(w.next == 40 && w.inBody) || appliedOk i w.word)
    && (!(w.next == 40 && !w.inBody) || definedOk i w.word)

/-- The check of all words of the text `l` of an item. -/
def straightLine (i : Item) (l : List Nat) : Bool :=
  (words l).all (wordOk i)

/-- The type suffix of a read-modify-write primitive; empty for the others. -/
def Prim.typeSuffix : Prim → String
  | .rmw _ _ type _ _ => type
  | _ => ""

/-- Whether every read-modify-write primitive the dispatcher calls carries the
type suffix `ty`. -/
def callsOnlyType (d : Dispatcher) (ty : String) : Bool :=
  d.calls.all fun p => p.isMembar || p.isFence || p.typeSuffix == ty

/-- The dispatchers of the section of scope `s` with the public name `n`, in
output order. -/
def overloads (s : String × String) (n : String) : List Dispatcher :=
  (scopeDispatchers s).filter fun d => d.name = n

/-- The first line of a dispatcher template whose `enable_if` condition is
`sizeof(_Type)==bytes` followed by `constraint`. -/
def templateLine (bytes : Nat) (constraint : String) : String :=
  "template<class _Type, typename cuda::std::enable_if<sizeof(_Type)==" ++ toString bytes
    ++ constraint

/-- The lines of a text. -/
def linesOf : List Nat → List (List Nat)
  | [] => [[]]
  | c :: cs =>
    match linesOf cs with
    | [] => [[c]]
    | l :: ls => if c == 10 then [] :: l :: ls else (c :: l) :: ls

/-- Whether every line of the text is empty or a `//` comment. -/
def commentOnly (text : String) : Bool :=
  (linesOf (codes text)).all fun l => l.isEmpty || [47, 47].isPrefixOf l

/-- The largest number of statements a switch body executes from any of its
lines on. -/
def maxRun (sw : List Line) : Nat :=
  (sw.tails.map fun ls => (untilAbort (fallThrough ls)).length).foldr max 0


/-! ## Checks evaluated section by section -/

/-- The names of the raw primitives of the section of scope `s`, in emission
order. -/
def scopeNames (s : String × String) : List String :=
  ((scopeItems s).filterMap Item.rawDef?).map fun d => d.prim.name

/-- Whether the name has none of the excluded forms. -/
def avoidsForms (n : String) : Bool :=
  excludedForms.all fun f => !hasForm (codes f.1) (codes f.2) (codes n)

/-- The pointer dispatchers of the section of scope `s`, each with the code
units of its text. -/
def ptrCodedOf (s : String × String) : List (Dispatcher × List Nat) :=
  cv_qualifier.flatMap fun cv =>
    addsub.map fun op => (ptrDispatcher s cv op, ptrDispatcherK s cv op [])

/-- The check of the text of a pointer dispatcher: it copies eight bytes in and
eight bytes out, scales `__tmp` once, and negates it before the scaling exactly
when it is the fetch_sub dispatcher. -/
def copiesEight (p : Dispatcher × List Nat) : Bool :=
  countOcc (codes "memcpy(") p.2 == 2
    && countOcc (codes "memcpy(&__tmp, &__val, 8);") p.2 == 1
    && countOcc (codes "memcpy(&__ret, &__tmp, 8);") p.2 == 1
    && countOcc (codes "__tmp *= sizeof(_Type);") p.2 == 1
    && countOcc (codes "__tmp = -__tmp;\n    __tmp *= sizeof(_Type);") p.2
        == (if p.1.name = "__atomic_fetch_sub_cuda" then 1 else 0)

/-! ## The instruction of a read-modify-write primitive, as the specification words it -/

/-- The instruction mnemonic of an operation token. -/
def mnemonic (op : String) : String :=
  if op = "exchange" then ".exch"
  else if op = "compare_exchange" then ".cas"
  else if op = "fetch_and" then ".and"
  else if op = "fetch_or" then ".or"
  else if op = "fetch_xor" then ".xor"
  else if op = "fetch_add" ∨ op = "fetch_sub" then ".add"
  else if op = "fetch_max" then ".max"
  else if op = "fetch_min" then ".min"
  else ""

/-- The order qualifier of an order token: empty for `volatile`. -/
def orderQualifier (order : String) : String :=
  if order = "volatile" then "" else "." ++ order

/-- The instruction suffix of a scope token. -/
def scopeSuffix (scope : String) : String :=
  if scope = "block" then ".cta"
  else if scope = "device" then ".gpu"
  else if scope = "system" then ".sys"
  else ""

/-- The instruction suffix of a type token; the untyped token gives `.b`. -/
def typeSuffix (type : String) : String :=
  if type = "" then ".b" else "." ++ type

/-- The operand list of an operation. -/
def operandList (op : String) : String :=
  if op = "compare_exchange" then "%0,[%1],%2,%3" else "%0,[%1],%2"

/-- The instruction of the primitive `__cuda_<op>_<order>_<type><size>_<scope>`
without its operand list. -/
def rmwOpcode (op order type : String) (sz : Nat) (scope : String) : String :=
  "atom" ++ mnemonic op ++ orderQualifier order ++ scopeSuffix scope ++ typeSuffix type
    ++ toString sz

/-- Whether a text holds no semicolon and no brace. -/
def plain (s : String) : Bool :=
  (codes s).all fun c => c != 59 && c != 123 && c != 125

/-- The body of a raw primitive with the statements `pre` before the `asm`
statement, the instruction template `instr` and the operand text `ops`: each
statement of `pre` on a line of its own, then the single `asm volatile`
statement. -/
def asmBody (pre : List String) (instr ops : String) : String :=
  String.join (pre.map fun st => st ++ "\n")
    ++ "asm volatile(\"" ++ instr ++ "\"" ++ ops ++ ");"

/-- The shape of the text of a raw primitive: a signature `sig` without
semicolon or brace, the opening brace, at most a blank, the body `asmBody`
with the operand text `ops` free of semicolons, and the closing brace; the
instruction template is `i` without semicolon, followed by one `;`. -/
def RawShape (d : RawDef) : Prop :=
  ∃ sig pad ops i, d.text = sig ++ ("\x7b" ++ (pad ++ (asmBody d.pre d.instr ops ++ " \x7d\n")))
    ∧ plain sig = true ∧ (pad = "" ∨ pad = " ") ∧ plain ops = true
    ∧ d.instr = i ++ ";" ∧ plain i = true


/-! ## Definition before use -/

/-- Whether every dispatcher of the item list `l` calls only raw primitives
that are among `seen` or defined by an item standing before it in `l`. -/
def definedBefore : List Prim → List Item → Bool
  | _, [] => true
  | seen, .raw r :: rest => definedBefore (r.prim :: seen) rest
  | seen, .disp d :: rest => d.calls.all (fun p => seen.contains p) && definedBefore seen rest

/-! ## The `enable_if` condition of a dispatcher template -/

/-- One conjunct of an `enable_if` condition on `_Type`. -/
inductive Atom where
  | sizeIs (n : Nat)
  | integral
  | floating
  | signed
  | unsigned
  deriving DecidableEq, Repr

/-- What the conditions ask of a type: its size and the values of the four
type traits on it. -/
structure TypeFacts where
  size : Nat
  is_integral : Bool
  is_floating_point : Bool
  is_signed : Bool
  is_unsigned : Bool

/-- The traits of a type are consistent when `is_integral` and
`is_floating_point` are not both true and `is_signed` and `is_unsigned` are not
both true. -/
def TypeFacts.consistent (t : TypeFacts) : Bool :=
  !(t.is_integral && t.is_floating_point) && !(t.is_signed && t.is_unsigned)

/-- Whether a type satisfies a conjunct. -/
def Atom.holds (t : TypeFacts) : Atom → Bool
  | .sizeIs n => t.size == n
  | .integral => t.is_integral
  | .floating => t.is_floating_point
  | .signed => t.is_signed
  | .unsigned => t.is_unsigned

/-- Whether a type satisfies a condition, the conjunction of its conjuncts. -/
def satisfies (t : TypeFacts) (c : List Atom) : Bool :=
  c.all (Atom.holds t)

/-- Two conjuncts no consistent type satisfies together. -/
def Atom.conflicts : Atom → Atom → Bool
  | .sizeIs m, .sizeIs n => m != n
  | .integral, .floating => true
  | .floating, .integral => true
  | .signed, .unsigned => true
  | .unsigned, .signed => true
  | _, _ => false

/-- Whether two conditions hold conflicting conjuncts. -/
def exclusive (c1 c2 : List Atom) : Bool :=
  c1.any fun a => c2.any fun b => a.conflicts b

/-- What follows the first occurrence of the block `p` in `l`, if `p` occurs. -/
def dropThrough (p : List Nat) : List Nat → Option (List Nat)
  | [] => none
  | x :: xs => if p.isPrefixOf (x :: xs) then some ((x :: xs).drop p.length) else dropThrough p xs

/-- What stands before the first occurrence of the block `p` in `l`. -/
def upTo (p : List Nat) : List Nat → List Nat
  | [] => []
  | x :: xs => if p.isPrefixOf (x :: xs) then [] else x :: upTo p xs

/-- The pieces of a text between its `&` characters, `cur` being the piece
that is being read (kept reversed). -/
def ampPieces : List Nat → List Nat → List (List Nat)
  | cur, [] => [cur.reverse]
  | cur, c :: cs => if c == 38 then cur.reverse :: ampPieces [] cs else ampPieces (c :: cur) cs

/-- A text without the blanks at its ends. -/
def trimBlanks (l : List Nat) : List Nat :=
  ((l.dropWhile fun c => c == 32).reverse.dropWhile fun c => c == 32).reverse

/-- The number a sequence of decimal digits denotes. -/
def decimal (l : List Nat) : Option Nat :=
  if l.isEmpty || l.any (fun c => decide (c < 48) || decide (57 < c)) then none
  else some (l.foldl (fun a c => a * 10 + (c - 48)) 0)

/-- The conjunct a piece of condition text spells. -/
def parseAtom (l : List Nat) : Option Atom :=
  if (codes "sizeof(_Type)==").isPrefixOf l then
    (decimal (l.drop (codes "sizeof(_Type)==").length)).map Atom.sizeIs
  else if l = codes "cuda::std::is_integral<_Type>::value" then some .integral
  else if l = codes "cuda::std::is_floating_point<_Type>::value" then some .floating
  else if l = codes "cuda::std::is_signed<_Type>::value" then some .signed
  else if l = codes "cuda::std::is_unsigned<_Type>::value" then some .unsigned
  else none

/-- The `enable_if` condition in the template header of a definition, the first
line of its text `l`: the conjuncts between `enable_if<` and `, int>::type`.
There is none when the header holds no `enable_if`. -/
def enableIf (l : List Nat) : Option (List Atom) :=
  match dropThrough (codes "enable_if<") (l.takeWhile fun c => c != 10) with
  | none => none
  | some rest =>
    (((ampPieces [] (upTo (codes ", int>::type") rest)).map trimBlanks).filter
      fun a => !a.isEmpty).mapM parseAtom

/-- The public name and the `enable_if` condition of every dispatcher among
the coded items. -/
def conditions (l : List (Item × List Nat)) : List (String × Option (List Atom)) :=
  l.filterMap fun p =>
    match p.1 with
    | .disp d => some (d.name, enableIf p.2)
    | .raw _ => none

/-- Whether two overloads are told apart: their names differ, or one has no
`enable_if` condition, or their conditions are exclusive. -/
def apart (x y : String × Option (List Atom)) : Bool :=
  x.1 != y.1 ||
    match x.2, y.2 with
    | some a, some b => exclusive a b
    | _, _ => true

/-- Whether the overloads of a list are pairwise told apart. -/
def allApart : List (String × Option (List Atom)) → Bool
  | [] => true
  | x :: xs => xs.all (apart x) && allApart xs

/-- The conditions of the overloads of one size, in output order: the size in
bytes alone for the bitwise operations, the size and `is_floating_point` or
`is_integral` for fetch_add and fetch_sub, the size, `is_integral` and
`is_signed` or `is_unsigned` for fetch_max and fetch_min. -/
def sizedConditions (n : Nat) : List (String × Option (List Atom)) :=
  [("__atomic_compare_exchange_cuda", some [.sizeIs n]),
   ("__atomic_exchange_cuda", some [.sizeIs n]),
   ("__atomic_fetch_and_cuda", some [.sizeIs n]),
   ("__atomic_fetch_or_cuda", some [.sizeIs n]),
   ("__atomic_fetch_xor_cuda", some [.sizeIs n]),
   ("__atomic_fetch_add_cuda", some [.sizeIs n, .floating]),
   ("__atomic_fetch_add_cuda", some [.sizeIs n, .integral]),
   ("__atomic_fetch_max_cuda", some [.sizeIs n, .integral, .signed]),
   ("__atomic_fetch_max_cuda", some [.sizeIs n, .integral, .unsigned]),
   ("__atomic_fetch_min_cuda", some [.sizeIs n, .integral, .signed]),
   ("__atomic_fetch_min_cuda", some [.sizeIs n, .integral, .unsigned]),
   ("__atomic_fetch_sub_cuda", some [.sizeIs n, .floating]),
   ("__atomic_fetch_sub_cuda", some [.sizeIs n, .integral])]

/-- The public names of a scope section with their conditions, in output
order; the fence dispatcher and the two pointer dispatchers, which close the
section, have no condition. -/
def overloadConditions : List (String × Option (List Atom)) :=
  [("__atomic_thread_fence_cuda", none),
   ("__atomic_load_cuda", some [.sizeIs 4]), ("__atomic_load_cuda", some [.sizeIs 8]),
   ("__atomic_store_cuda", some [.sizeIs 4]), ("__atomic_store_cuda", some [.sizeIs 8])]
    ++ sizedConditions 4 ++ sizedConditions 8
    ++ [("__atomic_fetch_add_cuda", none), ("__atomic_fetch_sub_cuda", none)]


end Codegen

/-! # The `common_type` trait (`__type_traits/common_type.h`)

Template instantiation is embedded as evaluation: a class template is a
function of its type arguments whose result says whether the instantiated class
has a member `type`. What the header takes from the language and from headers
it includes (`decay.h`, `remove_cvref.h`, the typing of the conditional
operator) is a parameter. -/

namespace CommonType

/-- The language facts `common_type.h` builds on, over a type `Ty` of C++
types. -/
structure Lang (Ty : Type) where
  /-- The trait `__decay_t<T>` of `decay.h`. -/
  decay : Ty → Ty
  /-- The trait `remove_cvref_t<T>` of `remove_cvref.h`. -/
  remove_cvref : Ty → Ty
  /-- The type `decltype(true ? declval<T>() : declval<U>())`, when that
  conditional expression is well-formed. -/
  condExpr : Ty → Ty → Option Ty
  /-- The alias `__cond_type<const T&, const U&>` (line 33), when the
  conditional expression is well-formed. -/
  condCref : Ty → Ty → Option Ty
  /-- The value of `_LIBCUDACXX_STD_VER`. -/
  stdVer : Nat

/-- The outcome of instantiating a trait class: the instantiation did not
finish within the allowed nesting depth, or the class has no member `type`, or
it has the member `type`. -/
inductive Inst (Ty : Type) where
  | unfinished
  | empty
  | member (t : Ty)
  deriving DecidableEq, Repr

/-- An optional member type as an instantiated class. -/
def Inst.ofOption {Ty : Type} : Option Ty → Inst Ty
  | none => .empty
  | some t => .member t

/-- `__common_type3<T, U>` (lines 35-43, only under `_LIBCUDACXX_STD_VER > 17`):
the primary template is empty, the specialization for a well-formed
`__cond_type<const T&, const U&>` has its `remove_cvref_t` as member. -/
def __common_type3 {Ty : Type} (L : Lang Ty) (T U : Ty) : Option Ty :=
  (L.condCref T U).map L.remove_cvref

/-- `__common_type2_imp<T, U>` (lines 45-58): the specialization of lines 52-58
applies when `true ? declval<T>() : declval<U>()` is well-formed and has the
decayed type of that expression as member; otherwise the primary template
applies, which derives from `__common_type3<T, U>` after C++17 and is empty
before. -/
def __common_type2_imp {Ty : Type} (L : Lang Ty) (T U : Ty) : Option Ty :=
  match L.condExpr T U with
  | some X => some (L.decay X)
  | none => if L.stdVer > 17 then __common_type3 L T U else none

/-- `common_type<T, U>` (lines 110-117): when both arguments are their own
decayed types the class derives from `__common_type2_imp<T, U>`, otherwise from
`common_type<decay_t<T>, decay_t<U>>`. The first argument bounds the nesting
depth of this instantiation. -/
def common_type2 {Ty : Type} [DecidableEq Ty] (L : Lang Ty) : Nat → Ty → Ty → Inst Ty
  | 0, _, _ => .unfinished
  | n + 1, T, U =>
    if T = L.decay T ∧ U = L.decay U then Inst.ofOption (__common_type2_imp L T U)
    else common_type2 L n (L.decay T) (L.decay U)

/-- `__common_type_impl<__common_types<T, U, Rest...>>` (lines 60-96): empty
when `common_type<T, U>` has no member type (the primary template); with two
types the member of `common_type<T, U>`; with more the class
`__common_type_impl<__common_types<common_type<T, U>::type, V, Rest...>>`. -/
def __common_type_impl {Ty : Type} [DecidableEq Ty] (L : Lang Ty) (n : Nat) :
    Ty → Ty → List Ty → Inst Ty
  | T, U, [] => common_type2 L n T U
  | T, U, V :: Rest =>
    match common_type2 L n T U with
    | .member C => __common_type_impl L n C V Rest
    | .empty => .empty
    | .unfinished => .unfinished

/-- `common_type<Tp...>` (lines 98-127), `n` bounding the nesting depth of the
two-argument instantiations: no member for no argument, `common_type<T, T>` for
one, the two-argument class for two, `__common_type_impl` for more. -/
def common_type {Ty : Type} [DecidableEq Ty] (L : Lang Ty) (n : Nat) : List Ty → Inst Ty
  | [] => .empty
  | [T] => common_type2 L n T T
  | [T, U] => common_type2 L n T U
  | T :: U :: V :: Rest => __common_type_impl L n T U (V :: Rest)

/-- One step of the fold over the argument list: the common type of the
accumulated class, if it has a member, and the next argument. -/
def foldStep {Ty : Type} [DecidableEq Ty] (L : Lang Ty) (n : Nat) (acc : Inst Ty) (V : Ty) :
    Inst Ty :=
  match acc with
  | .member C => common_type2 L n C V
  | .empty => .empty
  | .unfinished => .unfinished

/-! ### A small instance of the language -/

/-- Arithmetic types under `const` and lvalue-reference wrappers. -/
inductive CTy where
  | int
  | long
  | double
  | const (t : CTy)
  | lref (t : CTy)
  deriving DecidableEq, Repr

/-- Decay on `CTy`: the wrappers are dropped. -/
def CTy.strip : CTy → CTy
  | .const t => t.strip
  | .lref t => t.strip
  | t => t

/-- The conversion rank of the arithmetic type under the wrappers. -/
def CTy.rank (t : CTy) : Nat :=
  match t.strip with
  | .long => 1
  | .double => 2
  | _ => 0

/-- The usual arithmetic conversions: the operand of the higher rank. -/
def CTy.arith (a b : CTy) : CTy :=
  if a.rank < b.rank then b.strip else a.strip

/-- The instance: decay drops the wrappers and every conditional expression
between arithmetic operands is well-formed. -/
def arithLang : Lang CTy :=
  { decay := CTy.strip
    remove_cvref := CTy.strip
    condExpr := fun a b => some (CTy.arith a b)
    condCref := fun a b => some (CTy.arith a b)
    stdVer := 17 }

/-- An instance in which no conditional expression is well-formed. -/
def noCondLang : Lang CTy :=
  { arithLang with condExpr := fun _ _ => none, condCref := fun _ _ => none }

end CommonType

/-! # Copy assignment of `expected<void, E>`
(`expected.void/assign/assign.copy.pass.cpp`)

The test file documents the effects of the operator and exercises it on four
pairs of objects and on an error type whose copy constructor throws. -/

namespace ExpectedVoid

/-- The copy operations of the error type `E`; `X` is the type of the
exceptions its copy constructor may throw. -/
structure ErrOps (E X : Type) where
  /-- The copy constructor: the new object, or the exception thrown. -/
  copyCtor : E → Except X E
  /-- The copy assignment `target = source`: the new value of the target. -/
  copyAssign : E → E → E

/-- An object of type `expected<void, E>`: it holds a value (of type `void`) or
an error. -/
inductive Expected (E : Type) where
  | value
  | unex (e : E)
  deriving DecidableEq, Repr

/-- The observer `has_value()`. -/
def Expected.has_value {E : Type} : Expected E → Bool
  | .value => true
  | .unex _ => false

/-- The observer `error()`; it is defined on objects that hold an error. -/
def Expected.error {E : Type} : Expected E → Option E
  | .value => none
  | .unex e => some e

/-- The special member functions of `E` a call runs, as the test's `Traced`
type records them. -/
inductive Event where
  | copyCtorCalled
  | copyAssignCalled
  | dtorCalled
  deriving DecidableEq, Repr

/-- The objects of a program, by address. -/
abbrev Store (E : Type) := Nat → Expected E

/-- The store with the object at address `a` replaced. -/
def Store.set {E : Type} (st : Store E) (a : Nat) (v : Expected E) : Store E :=
  fun b => if b = a then v else st b

/-- What a call of the operator leaves: the objects, the address the returned
reference denotes (none when the call is left by an exception), the exception
thrown, and the special member functions of `E` that ran. -/
structure Outcome (E X : Type) where
  store : Store E
  ret : Option Nat
  thrown : Option X
  trace : List Event

/-- Modelled from the spec: `expected<void, E>::operator=(const expected& rhs)`,
whose definition (the header `<expected>`) is not among the sources. The
effects are the ones the test documents (lines 13-21): if both objects hold a
value, no effects; otherwise, if `*this` holds a value, `rhs.unex` is
copy-constructed into `unex` and then `has_val` is set to false; otherwise, if
`rhs` holds a value, `unex` is destroyed and `has_val` set to true; otherwise
`unex = rhs.error()`. Returns `*this`. The object at `self` is assigned from
the object at `rhs`. -/
def assign {E X : Type} (ops : ErrOps E X) (st : Store E) (self rhs : Nat) : Outcome E X :=
  match st self, st rhs with
  | .value, .value => { store := st, ret := some self, thrown := none, trace := [] }
  | .value, .unex e =>
    match ops.copyCtor e with
    | .ok c =>
      { store := st.set self (.unex c), ret := some self, thrown := none,
        trace := [.copyCtorCalled] }
    | .error x => { store := st, ret := none, thrown := some x, trace := [.copyCtorCalled] }
  | .unex _, .value =>
    { store := st.set self .value, ret := some self, thrown := none, trace := [.dtorCalled] }
  | .unex a, .unex e =>
    { store := st.set self (.unex (ops.copyAssign a e)), ret := some self, thrown := none,
      trace := [.copyAssignCalled] }

/-- The copy operations of the test's `Traced` type, an error with the member
`data_`: both copy the member. -/
def tracedOps : ErrOps Int Unit :=
  { copyCtor := fun e => .ok e
    copyAssign := fun _ e => e }

/-- The copy operations of the test's `ThrowOnCopyConstruct` type: the copy
constructor throws. -/
def throwOps : ErrOps Unit Unit :=
  { copyCtor := fun _ => .error ()
    copyAssign := fun _ e => e }

/-- The two objects `e1` (address 0) and `e2` (address 1) of a test block. -/
def twoObjects {E : Type} (e1 e2 : Expected E) : Store E :=
  fun a => if a = 0 then e1 else e2

/-- What a block of `test()` asserts (lines 55-103): the returned reference
denotes `e1`, `e1.has_value()` is `hasValue`, an expected `data_` of the error
is found, and the special member function `called` was recorded. -/
def blockPasses (e1 e2 : Expected Int) (hasValue : Bool) (data : Option Int)
    (called : Option Event) : Bool :=
  let r := assign tracedOps (twoObjects e1 e2) 0 1
  r.ret == some 0
    && (r.store 0).has_value == hasValue
    && (data.isNone || (r.store 0).error == data)
    && (match called with
        | none => true
        | some ev => r.trace.contains ev)

/-- The function `test()` (lines 53-106): its four blocks. -/
def test : Bool :=
  blockPasses .value .value true none none
    && blockPasses .value (.unex 5) false (some 5) (some .copyCtorCalled)
    && blockPasses (.unex 5) .value true none (some .dtorCalled)
    && blockPasses (.unex 5) (.unex 10) false (some 10) (some .copyAssignCalled)

/-- The function `testException()` (lines 108-119): the assignment is left by
the exception and `e1` still has a value. -/
def testException : Bool :=
  let r := assign throwOps (twoObjects .value (.unex ())) 0 1
  r.thrown.isSome && (r.store 0).has_value

end ExpectedVoid

namespace Codegen

/-! ## Theorems -/

/-! ### Membership in the output -/

theorem rawDef_eq_some {i : Item} {d : RawDef} : i.rawDef? = some d ↔ i = Item.raw d := by
  cases i <;> simp [Item.rawDef?]

theorem mem_emittedPrims_iff (p : Prim) :
    p ∈ emittedPrims ↔ ∃ s ∈ scopes, ∃ d, Item.raw d ∈ scopeItems s ∧ d.prim = p := by
  simp only [emittedPrims, rawDefs, items, List.mem_map, List.mem_filterMap, List.mem_flatMap,
    rawDef_eq_some]
  constructor
  · rintro ⟨d, ⟨i, ⟨s, hs, hi⟩, rfl⟩, rfl⟩
    exact ⟨s, hs, d, hi, rfl⟩
  · rintro ⟨s, hs, d, hi, rfl⟩
    exact ⟨d, ⟨_, ⟨s, hs, hi⟩, rfl⟩, rfl⟩

theorem rmwDef_mem_scopeItems (s : String × String) {sz : Nat} (hsz : sz ∈ rmw_sizes)
    {cl : String} (hcl : cl ∈ rmw_classes) {r : String × String}
    (hr : r ∈ mapGet rmw_operations cl []) {t : String × String}
    (ht : t ∈ mapGet rmw_types cl []) (hk : rmwSkipped t.1 r.1 = false)
    {e : String × String} (he : e ∈ rmw_semantics) :
    Item.raw (rmwDef s sz r t e) ∈ scopeItems s := by
  unfold scopeItems
  refine List.mem_append_left _ (List.mem_append_right _ ?_)
  unfold rmwItems
  refine List.mem_flatMap.2 ⟨sz, hsz, List.mem_flatMap.2 ⟨cl, hcl, List.mem_flatMap.2 ⟨r, hr,
    List.mem_flatMap.2 ⟨t, ht, ?_⟩⟩⟩⟩
  rw [hk]
  exact List.mem_append_left _ (List.mem_map.2 ⟨e, he, rfl⟩)

theorem rmw_raw_mem_scopeItems (s : String × String) (op sem ty : String) (sz : Nat) (sc : String) :
    (∃ d, Item.raw d ∈ scopeItems s ∧ d.prim = Prim.rmw op sem ty sz sc) ↔
      s.1 = sc ∧ sz ∈ rmw_sizes ∧ (∃ e ∈ rmw_semantics, e.1 = sem) ∧
      ∃ cl ∈ rmw_classes, (∃ r ∈ mapGet rmw_operations cl [], r.1 = op) ∧
        (∃ t ∈ mapGet rmw_types cl [], t.1 = ty) ∧ rmwSkipped ty op = false := by
  constructor
  · rintro ⟨d, hd, hp⟩
    simp only [scopeItems, rmwItems, List.mem_append, List.mem_flatMap, List.mem_map,
      List.mem_singleton, List.mem_cons, Item.raw.injEq, List.not_mem_nil, or_false,
      false_or, reduceCtorEq, and_false, exists_false] at hd
    rcases hd with ((((((rfl | ⟨e, he, rfl⟩)) | ⟨z, hz, e, he, rfl⟩) | ⟨z, hz, e, he, rfl⟩) | h))
    · simp [membarDef] at hp
    · simp [fenceDef] at hp
    · simp [loadDef] at hp
    · simp [storeDef] at hp
    · obtain ⟨z, hz, cl, hcl, r, hr, t, ht, h⟩ := h
      by_cases hk : rmwSkipped t.1 r.1 = true
      · simp [hk] at h
      · simp only [hk, Bool.false_eq_true, ↓reduceIte, List.mem_append, List.mem_map,
          Item.raw.injEq, reduceCtorEq, and_false, exists_false, or_false] at h
        obtain ⟨e, he, rfl⟩ := h
        simp only [rmwDef, Prim.rmw.injEq] at hp
        obtain ⟨rfl, rfl, rfl, rfl, rfl⟩ := hp
        exact ⟨rfl, hz, ⟨e, he, rfl⟩, cl, hcl, ⟨r, hr, rfl⟩, ⟨t, ht, rfl⟩, by simpa using hk⟩
  · rintro ⟨rfl, hz, ⟨e, he, rfl⟩, cl, hcl, ⟨r, hr, rfl⟩, ⟨t, ht, rfl⟩, hk⟩
    exact ⟨rmwDef s sz r t e, rmwDef_mem_scopeItems s hz hcl hr ht hk he, rfl⟩

/-- A raw definition among the items of a scope of the table is one of the raw
primitives the generator defines. -/
theorem prim_mem_emittedPrims {s : String × String} (hs : s ∈ scopes) {d : RawDef}
    (h : Item.raw d ∈ scopeItems s) : d.prim ∈ emittedPrims :=
  List.mem_map.2 ⟨d, List.mem_filterMap.2 ⟨Item.raw d, List.mem_flatMap.2 ⟨s, hs, h⟩, rfl⟩, rfl⟩

theorem loadDef_mem_scopeItems (s : String × String) {sz : Nat} (hsz : sz ∈ ld_sizes)
    {sem : String × String} (hsem : sem ∈ ld_semantics) :
    Item.raw (loadDef s sz sem) ∈ scopeItems s := by
  unfold scopeItems
  refine List.mem_append_left _ (List.mem_append_left _ (List.mem_append_left _
    (List.mem_append_right _ ?_)))
  exact List.mem_flatMap.2 ⟨sz, hsz, List.mem_append_left _ (List.mem_map.2 ⟨sem, hsem, rfl⟩)⟩

theorem classCond_iff (op ty : String) :
    (∃ cl ∈ rmw_classes, (∃ r ∈ mapGet rmw_operations cl [], r.1 = op) ∧
        (∃ t ∈ mapGet rmw_types cl [], t.1 = ty) ∧ rmwSkipped ty op = false)
      ↔ (op, ty) ∈ arithmeticPairs ++ bitwisePairs := by
  have hb : mapGet rmw_operations "bitwise" [] =
      [("compare_exchange", ".cas"), ("exchange", ".exch"), ("fetch_and", ".and"),
       ("fetch_or", ".or"), ("fetch_xor", ".xor")] := by decide
  have ha : mapGet rmw_operations "arithmetic" [] =
      [("fetch_add", ".add"), ("fetch_max", ".max"), ("fetch_min", ".min"),
       ("fetch_sub", ".add")] := by decide
  have tb : mapGet rmw_types "bitwise" [] = [("", ".b")] := by decide
  have ta : mapGet rmw_types "arithmetic" [] = [("f", ".f"), ("s", ".s"), ("u", ".u")] := by
    decide
  constructor
  · rintro ⟨cl, hcl, ⟨r, hr, rfl⟩, ⟨t, ht, rfl⟩, hk⟩
    simp only [rmw_classes, List.mem_cons, List.mem_singleton, List.not_mem_nil, or_false] at hcl
    rcases hcl with rfl | rfl
    · rw [hb] at hr
      rw [tb] at ht
      simp only [List.mem_cons, List.mem_singleton, List.not_mem_nil, or_false] at hr ht
      subst ht
      rcases hr with rfl | rfl | rfl | rfl | rfl <;> decide
    · rw [ha] at hr
      rw [ta] at ht
      simp only [List.mem_cons, List.mem_singleton, List.not_mem_nil, or_false] at hr ht
      rcases hr with rfl | rfl | rfl | rfl <;> rcases ht with rfl | rfl | rfl <;>
        revert hk <;> decide
  · intro h
    have all_allowed : ∀ p ∈ arithmeticPairs ++ bitwisePairs,
        ∃ cl ∈ rmw_classes, (∃ r ∈ mapGet rmw_operations cl [], r.1 = p.1) ∧
          (∃ t ∈ mapGet rmw_types cl [], t.1 = p.2) ∧ rmwSkipped p.2 p.1 = false := by
      decide
    exact all_allowed (op, ty) h

theorem rmw_mem_emittedPrims {s : String × String} (hs : s ∈ scopes) {sz : Nat}
    (hsz : sz ∈ rmw_sizes) {e : String × String} (he : e ∈ rmw_semantics) (op ty : String) :
    Prim.rmw op e.1 ty sz s.1 ∈ emittedPrims ↔ (op, ty) ∈ arithmeticPairs ++ bitwisePairs := by
  rw [mem_emittedPrims_iff, ← classCond_iff]
  constructor
  · rintro ⟨s1, _, h⟩
    exact ((rmw_raw_mem_scopeItems s1 op e.1 ty sz s.1).1 h).2.2.2
  · intro h
    exact ⟨s, hs, (rmw_raw_mem_scopeItems s op e.1 ty sz s.1).2 ⟨rfl, hsz, ⟨e, he, rfl⟩, h⟩⟩

theorem dispatcher_eq_some {i : Item} {d : Dispatcher} :
    i.dispatcher? = some d ↔ i = Item.disp d := by
  cases i <;> simp [Item.dispatcher?]

theorem mem_dispatchers_iff (d : Dispatcher) :
    d ∈ dispatchers ↔ ∃ s ∈ scopes, Item.disp d ∈ scopeItems s := by
  simp only [dispatchers, items, List.mem_filterMap, List.mem_flatMap, dispatcher_eq_some]
  constructor
  · rintro ⟨i, ⟨s, hs, hi⟩, rfl⟩
    exact ⟨s, hs, hi⟩
  · rintro ⟨s, hs, hi⟩
    exact ⟨_, ⟨s, hs, hi⟩, rfl⟩

theorem rmwPublic_mem_scopeItems (s : String × String) {sz : Nat} (hsz : sz ∈ rmw_sizes)
    {cl : String} (hcl : cl ∈ rmw_classes) {r : String × String}
    (hr : r ∈ mapGet rmw_operations cl []) {t : String × String}
    (ht : t ∈ mapGet rmw_types cl []) (hk : rmwSkipped t.1 r.1 = false)
    {cv : String} (hcv : cv ∈ cv_qualifier) :
    Item.disp (if r.1 = "compare_exchange" then casDispatcher s sz t cv
               else rmwDispatcher s sz r t cv) ∈ scopeItems s := by
  unfold scopeItems
  refine List.mem_append_left _ (List.mem_append_right _ ?_)
  unfold rmwItems
  refine List.mem_flatMap.2 ⟨sz, hsz, List.mem_flatMap.2 ⟨cl, hcl, List.mem_flatMap.2 ⟨r, hr,
    List.mem_flatMap.2 ⟨t, ht, ?_⟩⟩⟩⟩
  rw [hk]
  exact List.mem_append_right _ (List.mem_map.2 ⟨cv, hcv, rfl⟩)

/-- A dispatcher of a scope section that calls the volatile primitive of
`(op, ty, sz, sc)` belongs to an operation and type the skip rules leave. -/
theorem rmw_called_in_scopeItems (s : String × String) (d : Dispatcher)
    (hd : Item.disp d ∈ scopeItems s) (op ty : String) (sz : Nat) (sc : String)
    (hc : Prim.rmw op "volatile" ty sz sc ∈ d.calls) :
    ∃ cl ∈ rmw_classes, (∃ r ∈ mapGet rmw_operations cl [], r.1 = op) ∧
        (∃ t ∈ mapGet rmw_types cl [], t.1 = ty) ∧ rmwSkipped ty op = false := by
  simp only [scopeItems, rmwItems, List.mem_append, List.mem_flatMap, List.mem_map,
    List.mem_singleton, List.mem_cons, Item.disp.injEq, List.not_mem_nil, or_false,
    false_or, reduceCtorEq, and_false, exists_false] at hd
  rcases hd with (((rfl | ⟨z, hz, cv, hcv, rfl⟩) | ⟨z, hz, cv, hcv, rfl⟩) | h) | h
  · simp [Dispatcher.calls, fenceDispatcher, fenceSwitchSM70, fenceSwitchDevice, Line.calls,
      Stmt.callee?] at hc
  · simp [Dispatcher.calls, loadDispatcher, loadSwitchSM70, loadSwitchDevice, Line.calls,
      Stmt.callee?] at hc
  · simp [Dispatcher.calls, storeDispatcher, storeSwitchSM70, storeSwitchDevice, Line.calls,
      Stmt.callee?] at hc
  · obtain ⟨z, hz, cl, hcl, r, hr, t, ht, h⟩ := h
    by_cases hk : rmwSkipped t.1 r.1 = true
    · simp [hk] at h
    · simp only [hk, Bool.false_eq_true, ↓reduceIte, List.mem_append, List.mem_map,
        Item.disp.injEq, reduceCtorEq, and_false, exists_false, false_or] at h
      obtain ⟨cv, hcv, rfl⟩ := h
      have hk1 : rmwSkipped t.1 r.1 = false := by simpa using hk
      by_cases hcas : r.1 = "compare_exchange"
      · simp only [hcas, ↓reduceIte] at hc
        simp [Dispatcher.calls, casDispatcher, casSwitchSM70, casSwitchDevice, Line.calls,
          Stmt.callee?] at hc
        obtain ⟨rfl, rfl, rfl, rfl⟩ := hc
        exact ⟨cl, hcl, ⟨r, hr, hcas⟩, ⟨t, ht, rfl⟩, by rw [← hcas]; exact hk1⟩
      · simp only [hcas, ↓reduceIte] at hc
        simp [Dispatcher.calls, rmwDispatcher, rmwSwitchSM70, rmwSwitchDevice, Line.calls,
          Stmt.callee?] at hc
        obtain ⟨rfl, rfl, rfl, rfl⟩ := hc
        exact ⟨cl, hcl, ⟨r, hr, rfl⟩, ⟨t, ht, rfl⟩, hk1⟩
  · obtain ⟨cv, hcv, o, ho, rfl⟩ := h
    simp [Dispatcher.calls, ptrDispatcher, ptrSwitchSM70, ptrSwitchDevice, Line.calls,
      Stmt.callee?] at hc
    obtain ⟨rfl, rfl, rfl, rfl⟩ := hc
    decide

theorem rmw_dispatcher_emitted {s : String × String} (hs : s ∈ scopes) {sz : Nat}
    (hsz : sz ∈ rmw_sizes) (op ty : String) :
    (∃ d ∈ dispatchers, d.name = "__atomic_" ++ op ++ "_cuda"
        ∧ Prim.rmw op "volatile" ty sz s.1 ∈ d.calls)
      ↔ (op, ty) ∈ arithmeticPairs ++ bitwisePairs := by
  rw [← classCond_iff]
  constructor
  · rintro ⟨d, hd, _, hc⟩
    obtain ⟨s1, _, hi⟩ := (mem_dispatchers_iff d).1 hd
    exact rmw_called_in_scopeItems s1 d hi op ty sz s.1 hc
  · rintro ⟨cl, hcl, ⟨r, hr, rfl⟩, ⟨t, ht, rfl⟩, hk⟩
    have hcv : "volatile " ∈ cv_qualifier := by decide
    refine ⟨_, (mem_dispatchers_iff _).2
      ⟨s, hs, rmwPublic_mem_scopeItems s hsz hcl hr ht hk hcv⟩, ?_, ?_⟩
    · by_cases hcas : r.1 = "compare_exchange"
      · simp only [hcas, ↓reduceIte, casDispatcher]
        decide
      · simp only [hcas, ↓reduceIte, rmwDispatcher]
    · by_cases hcas : r.1 = "compare_exchange"
      · simp [hcas, Dispatcher.calls, casDispatcher, casSwitchSM70, casSwitchDevice, Line.calls,
          Stmt.callee?]
      · simp [hcas, Dispatcher.calls, rmwDispatcher, rmwSwitchSM70, rmwSwitchDevice, Line.calls,
          Stmt.callee?]

/-! ### Names and instructions -/

theorem codes_append (x y : String) : codes (x ++ y) = codes x ++ codes y := by
  simp [codes, String.toList]

theorem isPrefixOf_append_self (p l : List Nat) : p.isPrefixOf (p ++ l) = true := by
  induction p with
  | nil => simp [List.isPrefixOf]
  | cons a p ih => simp [List.isPrefixOf, ih]

theorem occursIn_append (m a b : List Nat) : occursIn m (a ++ (m ++ b)) = true := by
  induction a with
  | nil =>
    cases h : m ++ b with
    | nil =>
      have : m = [] := (List.append_eq_nil.1 h).1
      simp [occursIn, this]
    | cons x xs =>
      simp only [List.nil_append, occursIn, Bool.or_eq_true]
      left
      rw [← h]
      exact isPrefixOf_append_self m b
  | cons x a ih =>
    simp only [List.cons_append, occursIn, Bool.or_eq_true]
    right
    exact ih

theorem hasForm_of_eq (pre a mid b : String) :
    hasForm (codes pre) (codes mid) (codes (pre ++ a ++ mid ++ b)) = true := by
  simp only [hasForm, codes_append, List.append_assoc, Bool.and_eq_true]
  refine ⟨isPrefixOf_append_self _ _, ?_⟩
  rw [List.drop_left]
  exact occursIn_append _ _ _

theorem scopes_eq : scopes = [("block", ".cta"), ("device", ".gpu"), ("system", ".sys")] := by
  decide

/-- What holds of the three scopes of the table holds of every scope of the
table. -/
theorem forall_scopes {P : String × String → Prop} (hb : P ("block", ".cta"))
    (hd : P ("device", ".gpu")) (hs : P ("system", ".sys")) : ∀ s ∈ scopes, P s := by
  intro s h
  rw [scopes_eq] at h
  simp only [List.mem_cons, List.mem_singleton, List.mem_nil_iff, or_false] at h
  rcases h with rfl | rfl | rfl <;> assumption

theorem emittedNames_eq : emittedNames = scopes.flatMap scopeNames := by
  unfold emittedNames emittedPrims rawDefs items scopeNames
  induction scopes with
  | nil => rfl
  | cons s ss ih =>
    simp only [List.flatMap_cons, List.filterMap_append, List.map_append, List.map_map] at ih ⊢
    rw [ih]
    rfl

set_option maxRecDepth 1000000 in
theorem avoidsForms_block : ((scopeNames ("block", ".cta")).all avoidsForms) = true := by
  decide!

set_option maxRecDepth 1000000 in
theorem avoidsForms_device : ((scopeNames ("device", ".gpu")).all avoidsForms) = true := by
  decide!

set_option maxRecDepth 1000000 in
theorem avoidsForms_system : ((scopeNames ("system", ".sys")).all avoidsForms) = true := by
  decide!

theorem emittedNames_avoid_forms :
    (emittedNames.all fun n =>
      excludedForms.all fun f => !hasForm (codes f.1) (codes f.2) (codes n)) = true := by
  have h := forall_scopes (P := fun s => ((scopeNames s).all avoidsForms) = true)
    avoidsForms_block avoidsForms_device avoidsForms_system
  rw [emittedNames_eq]
  refine List.all_eq_true.2 fun n hn => ?_
  obtain ⟨s, hs, hns⟩ := List.mem_flatMap.1 hn
  exact List.all_eq_true.1 (h s hs) n hns

theorem name_not_of_form {n : String} (hn : n ∈ emittedNames) {f : String × String}
    (hf : f ∈ excludedForms) (a b : String) : n ≠ f.1 ++ a ++ f.2 ++ b := by
  intro h
  have h1 := List.all_eq_true.1 (List.all_eq_true.1 emittedNames_avoid_forms n hn) f hf
  rw [h, hasForm_of_eq] at h1
  simp at h1

theorem opEntry_fetch_sub : opEntry "arithmetic" "fetch_sub" = ("fetch_sub", ".add") := by decide

theorem opEntry_fetch_add : opEntry "arithmetic" "fetch_add" = ("fetch_add", ".add") := by decide

set_option maxRecDepth 1000000 in
theorem emittedInstrs_no_sub :
    (emittedInstrs.all fun i => !occursIn (codes "sub") (codes i)) = true := by decide!

set_option maxRecDepth 1000000 in
theorem keys_block : ((scopeNames ("block", ".cta")).map nameKey).Nodup
    ∧ ∀ k ∈ (scopeNames ("block", ".cta")).map nameKey, k % 256 ^ 6 = nameKey "_block" := by
  decide!

set_option maxRecDepth 1000000 in
theorem keys_device : ((scopeNames ("device", ".gpu")).map nameKey).Nodup
    ∧ ∀ k ∈ (scopeNames ("device", ".gpu")).map nameKey, k % 256 ^ 7 = nameKey "_device" := by
  decide!

set_option maxRecDepth 1000000 in
theorem keys_system : ((scopeNames ("system", ".sys")).map nameKey).Nodup
    ∧ ∀ k ∈ (scopeNames ("system", ".sys")).map nameKey, k % 256 ^ 7 = nameKey "_system" := by
  decide!

/-- The keys of the names are pairwise different: within a section by
evaluation, across sections because the key of a name ends in the key of its
scope token. -/
theorem emittedNames_keys_nodup : (emittedNames.map nameKey).Nodup := by
  have hdvd : ∀ k : Nat, k % 256 ^ 7 % 256 ^ 6 = k % 256 ^ 6 := fun k =>
    Nat.mod_mod_of_dvd k (Dvd.intro 256 (by norm_num))
  rw [emittedNames_eq, scopes_eq]
  simp only [List.flatMap_cons, List.flatMap_nil, List.append_nil, List.map_append]
  rw [List.nodup_append, List.nodup_append]
  refine ⟨keys_block.1, ⟨keys_device.1, keys_system.1, ?_⟩, ?_⟩
  · intro k h1 h2
    have a := keys_device.2 k h1
    rw [keys_system.2 k h2] at a
    exact absurd a (by decide)
  · intro k h1 h2
    have a := keys_block.2 k h1
    rcases List.mem_append.1 h2 with h3 | h3
    · have c := hdvd k
      rw [keys_device.2 k h3, a] at c
      exact absurd c (by decide)
    · have c := hdvd k
      rw [keys_system.2 k h3, a] at c
      exact absurd c (by decide)

/-! ### The claims -/

/-- C1: over the whole output no two raw primitive definitions carry the same
name, and the name function is injective on the emitted tuples (role or
operation, order, type suffix, size, scope): two emitted tuples with the same
name are the same tuple. -/
theorem C1_names_unique :
    emittedNames.Nodup
    ∧ ∀ p ∈ emittedPrims, ∀ q ∈ emittedPrims, p.name = q.name → p = q := by
  have h : emittedNames.Nodup := List.Nodup.of_map nameKey emittedNames_keys_nodup
  exact ⟨h, fun p hp q hq e => List.inj_on_of_nodup_map h hp hq e⟩


/-- C3 (as stated, refuted): for scope block and size 32 the fallback-tier
seq_cst store executes the barrier and the volatile store and then stops; the
barrier that the after-predicate asks for at seq_cst is not executed, so the
store is not bracketed on both sides. -/
theorem C3_store_seq_cst_not_bracketed :
    barrierAfter .seq_cst = true
    ∧ (storeDispatcher ("block", ".cta") 32 "volatile ").run .device .seq_cst
        = [membarCall "block", .call (.store "volatile" 32 "block") ["__ptr", "__tmp"]]
    ∧ (storeDispatcher ("block", ".cta") 32 "volatile ").run .device .seq_cst
        ≠ sandwich "block" (.call (.store "volatile" 32 "block") ["__ptr", "__tmp"]) .seq_cst := by
  decide

/-- C3 (amended): for every scope and size and every order accepted by
`__atomic_store_cuda` (relaxed, release, seq_cst), the fallback tier executes a
`__cuda_membar_<scope>()` before the volatile store iff the order is release,
acq_rel or seq_cst, then the volatile store, and no barrier after the store. -/
theorem C3_fallback_store (s : String × String) (sz : Nat) (cv : String) (o : MemOrder)
    (ho : o ∈ [MemOrder.relaxed, MemOrder.release, MemOrder.seq_cst]) :
    (storeDispatcher s sz cv).run .device o
      = (if barrierBefore o then [membarCall s.1] else [])
          ++ [.call (.store "volatile" sz s.1) ["__ptr", "__tmp"]] := by
  simp only [List.mem_cons, List.mem_singleton, List.not_mem_nil, or_false] at ho
  rcases ho with rfl | rfl | rfl <;> rfl

/-- C3 (amended), at scope system, size 64 and order release. -/
theorem C3_fallback_store_witness :
    (storeDispatcher ("system", ".sys") 64 "volatile ").run .device .release
      = (if barrierBefore .release then [membarCall "system"] else [])
          ++ [.call (.store "volatile" 64 "system") ["__ptr", "__tmp"]] :=
  C3_fallback_store ("system", ".sys") 64 "volatile " .release (by decide)

/-- C4: with the raw compare-exchange primitive modelled as the atomic
instruction that writes the observed memory value into its destination and
stores the new value iff the observed value equals the comparand, the emitted
`__atomic_compare_exchange_cuda` returns, for every scope, size, type, tier and
every order of the domain: the caller's expected slot is overwritten with the
observed memory value on every outcome, the return value is true iff the
observed value equals the value the expected slot held before the call, and
memory holds the desired value iff the call succeeded. -/
theorem C4_cas_refreshes_expected (s type : String × String) (sz : Nat) (cv : String)
    (t : Tier) (o : MemOrder) (mem expected desired : Nat) :
    atomic_compare_exchange_cuda (casDispatcher s sz type cv) t o.toInt mem expected desired
      = some { ret := decide (mem = expected)
               mem := if mem = expected then desired else mem
               expected := mem } := by
  cases t <;> cases o <;>
    simp [atomic_compare_exchange_cuda, casDispatcher, Dispatcher.switch, casSwitchSM70,
      casSwitchDevice, exec, fromCase, fromDefault, fallThrough, untilAbort, Label.isCase,
      MemOrder.toInt, runCasStmts, runCasStmt, casArgs, CasState.set]

/-- C5: the raw fetch_sub primitive is the statement `__op = -__op;` followed
by exactly the asm statement of the raw fetch_add primitive of the same order,
type, size and scope, whose instruction is `atom.add`; no emitted instruction
contains `sub`; hence, whatever the value domain, its negation and the meaning
of the instructions, running fetch_sub on an operand gives the memory value and
the returned value of running fetch_add on the negated operand. -/
theorem C5_fetch_sub_is_negated_fetch_add (s type sem : String × String) (sz : Nat) :
    opEntry "arithmetic" "fetch_sub" ∈ mapGet rmw_operations "arithmetic" []
    ∧ opEntry "arithmetic" "fetch_add" ∈ mapGet rmw_operations "arithmetic" []
    ∧ rmwBody s sz (opEntry "arithmetic" "fetch_sub") type sem
        = "__op = -__op;" ++ "\n" ++ rmwBody s sz (opEntry "arithmetic" "fetch_add") type sem
    ∧ rmwBody s sz (opEntry "arithmetic" "fetch_add") type sem
        = rmwAsm s sz (opEntry "arithmetic" "fetch_add") type sem
    ∧ rmwAsm s sz (opEntry "arithmetic" "fetch_sub") type sem
        = rmwAsm s sz (opEntry "arithmetic" "fetch_add") type sem
    ∧ (rmwDef s sz (opEntry "arithmetic" "fetch_sub") type sem).instr
        = "atom" ++ ".add" ++ sem.2 ++ s.2 ++ type.2 ++ toString sz ++ " " ++ "%0,[%1],%2" ++ ";"
    ∧ (∀ i ∈ emittedInstrs, occursIn (codes "sub") (codes i) = false)
    ∧ (∀ (V : Type) (neg : V → V) (isa : String → V → V → V × V) (mem v : V),
        (rmwDef s sz (opEntry "arithmetic" "fetch_sub") type sem).run neg isa mem v
          = (rmwDef s sz (opEntry "arithmetic" "fetch_add") type sem).run neg isa mem (neg v))
    ∧ (rmwDef ("block", ".cta") 32 (opEntry "arithmetic" "fetch_sub") ("u", ".u")
          ("relaxed", ".relaxed")).run (negUnsigned 32) (isaUnsigned 32) 5 3 = (2, 5) := by
  refine ⟨by decide, by decide, ?_, ?_, ?_, ?_, ?_, ?_, by decide⟩
  · simp [rmwBody, rmwAsm, rmwInstr, opEntry_fetch_sub, opEntry_fetch_add, String.append_assoc]
  · simp [rmwBody, opEntry_fetch_add]
  · simp [rmwAsm, rmwInstr, opEntry_fetch_sub, opEntry_fetch_add]
  · simp [rmwDef, rmwInstr, opEntry_fetch_sub]
  · intro i hi
    have h := List.all_eq_true.1 emittedInstrs_no_sub i hi
    simpa using h
  · intro V neg isa mem v
    simp [RawDef.run, rmwDef, rmwInstr, opEntry_fetch_sub, opEntry_fetch_add]

/-- C6: for every scope, size and order of the tables, a raw read-modify-write
primitive of operation `op` and type suffix `ty` is emitted, and a public
dispatcher `__atomic_<op>_cuda` calling it is emitted, iff `(op, ty)` is one of
fetch_add / fetch_sub with `u` / `f`, fetch_max / fetch_min with `u` / `s`, or a
bitwise operation with the empty suffix; and no emitted name has the form
`__cuda_fetch_max_*_f<size>_*`, `__cuda_fetch_min_*_f<size>_*`,
`__cuda_fetch_add_*_s<size>_*` or `__cuda_fetch_sub_*_s<size>_*`. -/
theorem C6_skip_rules (s : String × String) (sz : Nat) (e : String × String)
    (hs : s ∈ scopes) (hsz : sz ∈ rmw_sizes) (he : e ∈ rmw_semantics) (op ty : String) :
    (Prim.rmw op e.1 ty sz s.1 ∈ emittedPrims ↔ (op, ty) ∈ arithmeticPairs ++ bitwisePairs)
    ∧ ((∃ d ∈ dispatchers, d.name = "__atomic_" ++ op ++ "_cuda"
          ∧ Prim.rmw op "volatile" ty sz s.1 ∈ d.calls)
        ↔ (op, ty) ∈ arithmeticPairs ++ bitwisePairs)
    ∧ (∀ n ∈ emittedNames, ∀ a b : String,
        n ≠ "__cuda_fetch_max_" ++ a ++ ("_f" ++ toString sz ++ "_") ++ b
        ∧ n ≠ "__cuda_fetch_min_" ++ a ++ ("_f" ++ toString sz ++ "_") ++ b
        ∧ n ≠ "__cuda_fetch_add_" ++ a ++ ("_s" ++ toString sz ++ "_") ++ b
        ∧ n ≠ "__cuda_fetch_sub_" ++ a ++ ("_s" ++ toString sz ++ "_") ++ b) := by
  refine ⟨rmw_mem_emittedPrims hs hsz he op ty, rmw_dispatcher_emitted hs hsz op ty, ?_⟩
  intro n hn a b
  simp only [rmw_sizes, List.mem_cons, List.mem_singleton, List.not_mem_nil, or_false] at hsz
  rcases hsz with rfl | rfl
  · exact ⟨name_not_of_form hn (f := ("__cuda_fetch_max_", "_f32_")) (by decide) a b,
      name_not_of_form hn (f := ("__cuda_fetch_min_", "_f32_")) (by decide) a b,
      name_not_of_form hn (f := ("__cuda_fetch_add_", "_s32_")) (by decide) a b,
      name_not_of_form hn (f := ("__cuda_fetch_sub_", "_s32_")) (by decide) a b⟩
  · exact ⟨name_not_of_form hn (f := ("__cuda_fetch_max_", "_f64_")) (by decide) a b,
      name_not_of_form hn (f := ("__cuda_fetch_min_", "_f64_")) (by decide) a b,
      name_not_of_form hn (f := ("__cuda_fetch_add_", "_s64_")) (by decide) a b,
      name_not_of_form hn (f := ("__cuda_fetch_sub_", "_s64_")) (by decide) a b⟩

/-- C6 at scope device, size 64 and order acq_rel: the two skipped pairs are
absent, a signed fetch_max and a bitwise fetch_xor are present. -/
theorem C6_skip_rules_witness :
    (("device", ".gpu") ∈ scopes ∧ 64 ∈ rmw_sizes ∧ ("acq_rel", ".acq_rel") ∈ rmw_semantics)
    ∧ Prim.rmw "fetch_max" "acq_rel" "f" 64 "device" ∉ emittedPrims
    ∧ Prim.rmw "fetch_add" "acq_rel" "s" 64 "device" ∉ emittedPrims
    ∧ Prim.rmw "fetch_max" "acq_rel" "s" 64 "device" ∈ emittedPrims
    ∧ Prim.rmw "fetch_xor" "acq_rel" "" 64 "device" ∈ emittedPrims :=
  ⟨by decide,
   fun h => absurd ((C6_skip_rules ("device", ".gpu") 64 ("acq_rel", ".acq_rel") (by decide)
      (by decide) (by decide) "fetch_max" "f").1.1 h) (by decide),
   fun h => absurd ((C6_skip_rules ("device", ".gpu") 64 ("acq_rel", ".acq_rel") (by decide)
      (by decide) (by decide) "fetch_add" "s").1.1 h) (by decide),
   (C6_skip_rules ("device", ".gpu") 64 ("acq_rel", ".acq_rel") (by decide)
      (by decide) (by decide) "fetch_max" "s").1.2 (by decide),
   (C6_skip_rules ("device", ".gpu") 64 ("acq_rel", ".acq_rel") (by decide)
      (by decide) (by decide) "fetch_xor" "").1.2 (by decide)⟩

/-- C7 (as stated, refuted): in the fallback tier, for scope block and size 32,
the seq_cst load does not start with the scoped fence `__cuda_fence_sc_block()`;
it starts with `__cuda_membar_block()`. -/
theorem C7_fallback_load_no_scoped_fence :
    (loadDispatcher ("block", ".cta") 32 "volatile ").run .device .seq_cst
      ≠ fenceScCall "block"
          :: (loadDispatcher ("block", ".cta") 32 "volatile ").run .device .acquire
    ∧ ((loadDispatcher ("block", ".cta") 32 "volatile ").run .device .seq_cst).map Stmt.render
      = ["__cuda_membar_block();", "__cuda_load_volatile_32_block(__ptr, __tmp);",
         "__cuda_membar_block();"] := by
  decide

/-- C7 (amended): for every scope and size, the statements `__atomic_load_cuda`
executes for seq_cst are, in the native tier, the scoped fence
`__cuda_fence_sc_<scope>()` followed by the statements that tier executes for
acquire, and, in the fallback tier, the full barrier `__cuda_membar_<scope>()`
followed by the statements that tier executes for acquire. -/
theorem C7_load_composition (s : String × String) (sz : Nat) (cv : String) :
    (loadDispatcher s sz cv).run .sm70 .seq_cst
        = fenceScCall s.1 :: (loadDispatcher s sz cv).run .sm70 .acquire
    ∧ (loadDispatcher s sz cv).run .device .seq_cst
        = membarCall s.1 :: (loadDispatcher s sz cv).run .device .acquire
    ∧ (loadDispatcher s sz cv).run .sm70 .acquire
        = [.call (.load "acquire" sz s.1) ["__ptr", "__tmp"]] :=
  ⟨rfl, rfl, rfl⟩

/-- C8: for every scope and size, the seq_cst store executes exactly the scoped
fence and the relaxed store in the native tier and exactly the full barrier and
the volatile store in the fallback tier, and the native-tier release store is
the release-tagged store alone. -/
theorem C8_store_composition (s : String × String) (sz : Nat) (cv : String) :
    (storeDispatcher s sz cv).run .sm70 .seq_cst
        = [fenceScCall s.1, .call (.store "relaxed" sz s.1) ["__ptr", "__tmp"]]
    ∧ (storeDispatcher s sz cv).run .device .seq_cst
        = [membarCall s.1, .call (.store "volatile" sz s.1) ["__ptr", "__tmp"]]
    ∧ (storeDispatcher s sz cv).run .sm70 .release
        = [.call (.store "release" sz s.1) ["__ptr", "__tmp"]] :=
  ⟨rfl, rfl, rfl⟩

/-- C10: for every scope and size of the tables, the fallback tier of
`__atomic_load_cuda` executes for acquire and for consume exactly the volatile
load followed by the full barrier (no barrier before the load), for relaxed the
volatile load alone, and for seq_cst barrier, volatile load, barrier; and the
volatile load it calls is a raw primitive the generator defines. -/
theorem C10_fallback_load (s : String × String) (sz : Nat) (cv : String)
    (hs : s ∈ scopes) (hsz : sz ∈ ld_sizes) :
    (loadDispatcher s sz cv).run .device .acquire
        = [.call (.load "volatile" sz s.1) ["__ptr", "__tmp"], membarCall s.1]
    ∧ (loadDispatcher s sz cv).run .device .consume
        = [.call (.load "volatile" sz s.1) ["__ptr", "__tmp"], membarCall s.1]
    ∧ (loadDispatcher s sz cv).run .device .relaxed
        = [.call (.load "volatile" sz s.1) ["__ptr", "__tmp"]]
    ∧ (loadDispatcher s sz cv).run .device .seq_cst
        = [membarCall s.1, .call (.load "volatile" sz s.1) ["__ptr", "__tmp"], membarCall s.1]
    ∧ Prim.load "volatile" sz s.1 ∈ emittedPrims
    ∧ (Prim.load "volatile" sz s.1).name ∈ emittedNames := by
  have hsem : (("volatile", ".volatile") : String × String) ∈ ld_semantics := by decide
  have hp : Prim.load "volatile" sz s.1 ∈ emittedPrims :=
    prim_mem_emittedPrims hs (loadDef_mem_scopeItems s hsz hsem)
  exact ⟨rfl, rfl, rfl, rfl, hp, List.mem_map.2 ⟨_, hp, rfl⟩⟩

/-- C10 at scope block and size 32: the acquire load renders as the volatile
load followed by the barrier, and the called name is a defined one. -/
theorem C10_fallback_load_witness :
    ((("block", ".cta") : String × String) ∈ scopes ∧ 32 ∈ ld_sizes)
    ∧ ((loadDispatcher ("block", ".cta") 32 "volatile ").run .device .acquire).map Stmt.render
        = ["__cuda_load_volatile_32_block(__ptr, __tmp);", "__cuda_membar_block();"]
    ∧ (Prim.load "volatile" 32 "block").name = "__cuda_load_volatile_32_block"
    ∧ (Prim.load "volatile" 32 "block").name ∈ emittedNames :=
  ⟨by decide, by decide, by decide,
    (C10_fallback_load ("block", ".cta") 32 "volatile " (by decide) (by decide)).2.2.2.2.2⟩

/-! ### The dispatchers of the output -/

/-- Every emitted dispatcher is, for a scope of the table, one of the six
dispatcher forms. -/
theorem dispatcher_cases {d : Dispatcher} (hd : d ∈ dispatchers) :
    ∃ s ∈ scopes, d = fenceDispatcher s
      ∨ (∃ sz cv, d = loadDispatcher s sz cv)
      ∨ (∃ sz cv, d = storeDispatcher s sz cv)
      ∨ (∃ sz t cv, d = casDispatcher s sz t cv)
      ∨ (∃ sz r t cv, d = rmwDispatcher s sz r t cv)
      ∨ (∃ cv op, d = ptrDispatcher s cv op) := by
  obtain ⟨s, hs, hi⟩ := (mem_dispatchers_iff d).1 hd
  refine ⟨s, hs, ?_⟩
  simp only [scopeItems, rmwItems, List.mem_append, List.mem_flatMap, List.mem_map,
    List.mem_singleton, List.mem_cons, Item.disp.injEq, List.not_mem_nil, or_false,
    false_or, reduceCtorEq, and_false, exists_false] at hi
  rcases hi with (((rfl | ⟨z, _, cv, _, rfl⟩) | ⟨z, _, cv, _, rfl⟩) | h) | h
  · exact Or.inl rfl
  · exact Or.inr (Or.inl ⟨z, cv, rfl⟩)
  · exact Or.inr (Or.inr (Or.inl ⟨z, cv, rfl⟩))
  · obtain ⟨z, _, cl, _, r, _, t, _, h⟩ := h
    by_cases hk : rmwSkipped t.1 r.1 = true
    · simp [hk] at h
    · simp only [hk, Bool.false_eq_true, ↓reduceIte, List.mem_append, List.mem_map,
        Item.disp.injEq, reduceCtorEq, and_false, exists_false, false_or] at h
      obtain ⟨cv, _, rfl⟩ := h
      by_cases hcas : r.1 = "compare_exchange"
      · simp only [hcas, ↓reduceIte]
        exact Or.inr (Or.inr (Or.inr (Or.inl ⟨z, t, cv, rfl⟩)))
      · simp only [hcas, ↓reduceIte]
        exact Or.inr (Or.inr (Or.inr (Or.inr (Or.inl ⟨z, r, t, cv, rfl⟩))))
  · obtain ⟨cv, _, o, _, rfl⟩ := h
    exact Or.inr (Or.inr (Or.inr (Or.inr (Or.inr ⟨cv, o, rfl⟩))))

theorem ptrDispatcher_mem_dispatchers {s : String × String} (hs : s ∈ scopes) {op : String}
    (ho : op ∈ addsub) : ptrDispatcher s "volatile " op ∈ dispatchers := by
  refine (mem_dispatchers_iff _).2 ⟨s, hs, ?_⟩
  unfold scopeItems
  refine List.mem_append_right _ (List.mem_flatMap.2 ⟨"volatile ", by decide, ?_⟩)
  exact List.mem_map.2 ⟨op, ho, rfl⟩

/-! ### Code units of the emitted texts -/

theorem litAux_eq (cs : List Char) (k : List Nat) :
    litAux cs k = cs.map Char.toNat ++ k := by
  induction cs with
  | nil => rfl
  | cons c cs ih => simp [litAux, ih]

theorem lit_eq (s : String) (k : List Nat) : lit s k = codes s ++ k := by
  simp [lit, codes, litAux_eq]

theorem nameK_codes (p : Prim) (k : List Nat) : p.nameK k = codes p.name ++ k := by
  cases p <;>
    simp only [Prim.nameK, Prim.name, fencename, lit_eq, codes_append, List.append_assoc]

theorem nameCodes_eq (p : Prim) : p.nameCodes = codes p.name := by
  simp [Prim.nameCodes, nameK_codes]

theorem join_foldl (l : List String) (acc : String) :
    l.foldl (fun r s => r ++ s) acc = acc ++ String.join l := by
  induction l generalizing acc with
  | nil => simp [String.join]
  | cons x xs ih =>
    simp only [List.foldl_cons, String.join]
    rw [ih, ih ("" ++ x)]
    simp [String.append_assoc]

theorem join_append (l₁ l₂ : List String) :
    String.join (l₁ ++ l₂) = String.join l₁ ++ String.join l₂ := by
  simp only [String.join, List.foldl_append]
  rw [join_foldl l₂ (List.foldl (fun r s => r ++ s) "" l₁)]
  rfl

theorem join_cons (x : String) (xs : List String) :
    String.join (x :: xs) = x ++ String.join xs := by
  have h := join_append [x] xs
  simpa [String.join] using h

theorem stmtK_codes (s : Stmt) (k : List Nat) : stmtK s k = codes s.render ++ k := by
  cases s <;>
    simp only [stmtK, Stmt.render, nameK_codes, lit_eq, codes_append, List.append_assoc]

theorem stmtsK_codes (ss : List Stmt) (k : List Nat) :
    stmtsK ss k = codes (String.join (ss.map fun s => " " ++ s.render)) ++ k := by
  induction ss with
  | nil => simp [stmtsK, String.join, codes]
  | cons s ss ih =>
    have h : stmtsK (s :: ss) k = lit " " (stmtK s (stmtsK ss k)) := rfl
    rw [h, ih, List.map_cons, join_cons]
    simp only [lit_eq, stmtK_codes, codes_append, List.append_assoc]

theorem labelK_codes (l : Label) (k : List Nat) : labelK l k = codes l.render ++ k := by
  cases l <;> simp only [labelK, Label.render, lit_eq, codes_append, List.append_assoc]

theorem lineK_codes (indent : String) (l : Line) (k : List Nat) :
    lineK indent l k = codes (l.render indent) ++ k := by
  simp only [lineK, Line.render, lit_eq, labelK_codes, stmtsK_codes, codes_append,
    List.append_assoc]

theorem linesK_codes (indent : String) (ls : List Line) (k : List Nat) :
    linesK indent ls k = codes (String.join (ls.map (Line.render indent))) ++ k := by
  induction ls with
  | nil => simp [linesK, String.join, codes]
  | cons l ls ih =>
    have h : linesK indent (l :: ls) k = lineK indent l (linesK indent ls k) := rfl
    rw [h, ih, lineK_codes, List.map_cons, join_cons]
    simp only [codes_append, List.append_assoc]

theorem dispatchTargetK_codes (ind scrutinee : String) (sm70 device : List Line)
    (k : List Nat) :
    dispatchTargetK ind scrutinee sm70 device k
      = codes (dispatchTarget ind scrutinee sm70 device) ++ k := by
  simp only [dispatchTargetK, dispatchTarget, lit_eq, linesK_codes, codes_append,
    List.append_assoc]

theorem membarDefK_codes (s : String × String) (k : List Nat) :
    membarDefK s k = codes (membarDef s).text ++ k := by
  simp only [membarDefK, membarDef, nameK_codes, lit_eq, codes_append, List.append_assoc]

theorem fenceDefK_codes (s sem : String × String) (k : List Nat) :
    fenceDefK s sem k = codes (fenceDef s sem).text ++ k := by
  simp only [fenceDefK, fenceDef, nameK_codes, Prim.name, lit_eq, codes_append, List.append_assoc]

theorem loadDefK_codes (s : String × String) (sz : Nat) (sem : String × String)
    (k : List Nat) : loadDefK s sz sem k = codes (loadDef s sz sem).text ++ k := by
  simp only [loadDefK, loadDef, nameK_codes, lit_eq, codes_append, List.append_assoc]

theorem storeDefK_codes (s : String × String) (sz : Nat) (sem : String × String)
    (k : List Nat) : storeDefK s sz sem k = codes (storeDef s sz sem).text ++ k := by
  simp only [storeDefK, storeDef, nameK_codes, lit_eq, codes_append, List.append_assoc]

theorem rmwDefK_codes (s : String × String) (sz : Nat) (rmw type sem : String × String)
    (k : List Nat) : rmwDefK s sz rmw type sem k = codes (rmwDef s sz rmw type sem).text ++ k := by
  simp only [rmwDefK, rmwDef, nameK_codes, rmwBody, rmwAsm, lit_eq, codes_append, List.append_assoc]

theorem fenceDispatcherK_codes (s : String × String) (k : List Nat) :
    fenceDispatcherK s k = codes (fenceDispatcher s).text ++ k := by
  simp only [fenceDispatcherK, fenceDispatcher, lit_eq, dispatchTargetK_codes, codes_append,
    List.append_assoc]

theorem loadDispatcherK_codes (s : String × String) (sz : Nat) (cv : String) (k : List Nat) :
    loadDispatcherK s sz cv k = codes (loadDispatcher s sz cv).text ++ k := by
  simp only [loadDispatcherK, loadDispatcher, lit_eq, dispatchTargetK_codes, codes_append,
    List.append_assoc]

theorem storeDispatcherK_codes (s : String × String) (sz : Nat) (cv : String) (k : List Nat) :
    storeDispatcherK s sz cv k = codes (storeDispatcher s sz cv).text ++ k := by
  simp only [storeDispatcherK, storeDispatcher, lit_eq, dispatchTargetK_codes, codes_append,
    List.append_assoc]

theorem casDispatcherK_codes (s : String × String) (sz : Nat) (type : String × String)
    (cv : String) (k : List Nat) :
    casDispatcherK s sz type cv k = codes (casDispatcher s sz type cv).text ++ k := by
  simp only [casDispatcherK, casDispatcher, lit_eq, dispatchTargetK_codes, codes_append,
    List.append_assoc]

theorem rmwDispatcherK_codes (s : String × String) (sz : Nat) (rmw type : String × String)
    (cv : String) (k : List Nat) :
    rmwDispatcherK s sz rmw type cv k = codes (rmwDispatcher s sz rmw type cv).text ++ k := by
  simp only [rmwDispatcherK, rmwDispatcher, lit_eq, dispatchTargetK_codes, codes_append,
    List.append_assoc]

theorem ptrDispatcherK_codes (s : String × String) (cv op : String) (k : List Nat) :
    ptrDispatcherK s cv op k = codes (ptrDispatcher s cv op).text ++ k := by
  simp only [ptrDispatcherK, ptrDispatcher, lit_eq, dispatchTargetK_codes, codes_append,
    List.append_assoc]

set_option maxRecDepth 100000 in
theorem scopeItems_eq_layout (s : String × String) : scopeItems s = sectionLayout s := by
  rfl

theorem text_raw (d : RawDef) : (Item.raw d).text = d.text := rfl

theorem text_disp (d : Dispatcher) : (Item.disp d).text = d.text := rfl

theorem rmwGroupCoded_eq (s : String × String)
    (g : Nat × (String × String) × (String × String)) :
    rmwGroupCoded s g = (rmwGroup s g).map fun i => (i, codes i.text) := by
  by_cases h : g.2.1.1 = "compare_exchange" <;>
    simp [rmwGroupCoded, rmwGroup, h, text_raw, text_disp, rmwDefK_codes, casDispatcherK_codes,
      rmwDispatcherK_codes]

theorem sectionCoded_eq (s : String × String) :
    sectionCoded s = (scopeItems s).map fun i => (i, codes i.text) := by
  rw [scopeItems_eq_layout]
  have hg : (fun g => (rmwGroup s g).map fun i => (i, codes i.text)) = rmwGroupCoded s :=
    funext fun g => (rmwGroupCoded_eq s g).symm
  simp only [sectionCoded, sectionLayout, List.map_append, List.map_flatMap, loadGroupCoded,
    loadGroup, storeGroupCoded, storeGroup, List.map_cons, List.map_nil, text_raw, text_disp,
    membarDefK_codes, fenceDefK_codes, fenceDispatcherK_codes, loadDefK_codes,
    loadDispatcherK_codes, storeDefK_codes, storeDispatcherK_codes, ptrDispatcherK_codes,
    List.append_nil, hg]

theorem coded_eq : coded = items.map fun i => (i, codes i.text) := by
  unfold coded items
  induction scopes with
  | nil => rfl
  | cons s ss ih => simp [List.flatMap_cons, sectionCoded_eq, ih]

/-- A property of items and the code units of their texts that holds on
`coded` holds of every item of the output. -/
theorem of_coded (q : Item → List Nat → Bool)
    (h : (coded.all fun p => q p.1 p.2) = true) {i : Item} (hi : i ∈ items) :
    q i (codes i.text) = true := by
  have hm : (i, codes i.text) ∈ coded := by
    rw [coded_eq]
    exact List.mem_map.2 ⟨i, hi, rfl⟩
  exact List.all_eq_true.1 h _ hm

theorem dispatchers_eq : dispatchers = scopes.flatMap scopeDispatchers := by
  unfold dispatchers items scopeDispatchers
  induction scopes with
  | nil => rfl
  | cons s ss ih => simp [List.flatMap_cons, List.filterMap_append, ih]

set_option maxRecDepth 100000 in
theorem scopeDispatchers_names (s : String × String) :
    (scopeDispatchers s).map Dispatcher.name = publicNameSeq := by
  rfl

/-! ### Raw definitions of the output -/

/-- Every emitted raw definition is, for a scope of the table, one of the five
raw primitive forms. -/
theorem rawDef_cases {d : RawDef} (hd : d ∈ rawDefs) :
    ∃ s ∈ scopes, d = membarDef s
      ∨ (∃ sem, d = fenceDef s sem)
      ∨ (∃ sz sem, d = loadDef s sz sem)
      ∨ (∃ sz sem, d = storeDef s sz sem)
      ∨ (∃ sz r t sem, d = rmwDef s sz r t sem) := by
  obtain ⟨i, hi, hr⟩ := List.mem_filterMap.1 hd
  rw [rawDef_eq_some] at hr
  subst hr
  obtain ⟨s, hs, hi⟩ := List.mem_flatMap.1 hi
  refine ⟨s, hs, ?_⟩
  simp only [scopeItems, rmwItems, List.mem_append, List.mem_flatMap, List.mem_map,
    List.mem_singleton, List.mem_cons, Item.raw.injEq, List.not_mem_nil, or_false,
    false_or, reduceCtorEq, and_false, exists_false] at hi
  rcases hi with (((rfl | ⟨e, _, rfl⟩) | ⟨z, _, e, _, rfl⟩) | ⟨z, _, e, _, rfl⟩) | h
  · exact Or.inl rfl
  · exact Or.inr (Or.inl ⟨e, rfl⟩)
  · exact Or.inr (Or.inr (Or.inl ⟨z, e, rfl⟩))
  · exact Or.inr (Or.inr (Or.inr (Or.inl ⟨z, e, rfl⟩)))
  · obtain ⟨z, _, cl, _, r, _, t, _, h⟩ := h
    by_cases hk : rmwSkipped t.1 r.1 = true
    · simp [hk] at h
    · simp only [hk, Bool.false_eq_true, ↓reduceIte, List.mem_append, List.mem_map,
        Item.raw.injEq, reduceCtorEq, and_false, exists_false, or_false] at h
      obtain ⟨e, _, rfl⟩ := h
      exact Or.inr (Or.inr (Or.inr (Or.inr ⟨z, r, t, e, rfl⟩)))

/-- The text of every raw primitive form defines a `void` function under the
name of its tuple. -/
theorem rawDef_defines_name {d : RawDef} (hd : d ∈ rawDefs) :
    ∃ a b, d.text = a ++ ("void " ++ d.prim.name ++ "(") ++ b := by
  have h1 : "static inline _LIBCUDACXX_DEVICE void "
      = "static inline _LIBCUDACXX_DEVICE " ++ "void " := by decide
  have h2 : "() \x7b asm volatile(\"" = "(" ++ ") \x7b asm volatile(\"" := by decide
  have h3 : "(_CUDA_A __ptr, _CUDA_B& __dst) \x7b"
      = "(" ++ "_CUDA_A __ptr, _CUDA_B& __dst) \x7b" := by decide
  have h4 : "(_CUDA_A __ptr, _CUDA_B __src) \x7b "
      = "(" ++ "_CUDA_A __ptr, _CUDA_B __src) \x7b " := by decide
  obtain ⟨s, _, h⟩ := rawDef_cases hd
  rcases h with rfl | ⟨sem, rfl⟩ | ⟨sz, sem, rfl⟩ | ⟨sz, sem, rfl⟩ | ⟨sz, r, t, sem, rfl⟩
  · refine ⟨"static inline _LIBCUDACXX_DEVICE ", ?_⟩
    apply Exists.intro
    simp only [membarDef, h1, h2, String.append_assoc]
    rfl
  · refine ⟨"static inline _LIBCUDACXX_DEVICE ", ?_⟩
    apply Exists.intro
    simp only [fenceDef, Prim.name, h1, h2, String.append_assoc]
    rfl
  · refine ⟨"template<class _CUDA_A, class _CUDA_B> " ++ "static inline _LIBCUDACXX_DEVICE ",
      ?_⟩
    apply Exists.intro
    simp only [loadDef, h1, h3, String.append_assoc]
    rfl
  · refine ⟨"template<class _CUDA_A, class _CUDA_B> " ++ "static inline _LIBCUDACXX_DEVICE ",
      ?_⟩
    apply Exists.intro
    simp only [storeDef, h1, h4, String.append_assoc]
    rfl
  · refine ⟨(if r.1 = "compare_exchange" then
        "template<class _CUDA_A, class _CUDA_B, class _CUDA_C, class _CUDA_D> "
       else "template<class _CUDA_A, class _CUDA_B, class _CUDA_C> ")
        ++ "static inline _LIBCUDACXX_DEVICE ", ?_⟩
    apply Exists.intro
    simp only [rmwDef, h1, String.append_assoc]
    rfl

/-! ### Bounds on what a switch executes -/

theorem fromCase_suffix {v : Int} {sw ls : List Line} (h : fromCase v sw = some ls) :
    ls ∈ sw.tails := by
  induction sw with
  | nil => simp [fromCase] at h
  | cons l rest ih =>
    simp only [fromCase] at h
    split at h
    · simp only [Option.some.injEq] at h
      subst h
      simp
    · simp only [List.tails, List.mem_cons]
      exact Or.inr (ih h)

theorem fromDefault_suffix {sw ls : List Line} (h : fromDefault sw = some ls) :
    ls ∈ sw.tails := by
  induction sw with
  | nil => simp [fromDefault] at h
  | cons l rest ih =>
    simp only [fromDefault] at h
    split at h
    · simp only [Option.some.injEq] at h
      subst h
      simp
    · simp only [List.tails, List.mem_cons]
      exact Or.inr (ih h)

theorem le_foldr_max {α : Type} (f : α → Nat) {l : List α} {x : α} (h : x ∈ l) :
    f x ≤ (l.map f).foldr max 0 := by
  induction l with
  | nil => simp at h
  | cons y ys ih =>
    simp only [List.map_cons, List.foldr_cons]
    rcases List.mem_cons.1 h with rfl | h
    · exact Nat.le_max_left _ _
    · exact Nat.le_trans (ih h) (Nat.le_max_right _ _)

/-- Whatever the value of the scrutinee, a switch executes at most `maxRun`
statements. -/
theorem exec_length_le (sw : List Line) (v : Int) : (exec sw v).length ≤ maxRun sw := by
  unfold exec maxRun
  split
  · rename_i ls h1
    exact le_foldr_max (fun ls => (untilAbort (fallThrough ls)).length) (fromCase_suffix h1)
  · split
    · rename_i ls h2
      exact le_foldr_max (fun ls => (untilAbort (fallThrough ls)).length)
        (fromDefault_suffix h2)
    · exact Nat.zero_le _

theorem maxRun_le_three {d : Dispatcher} (hd : d ∈ dispatchers) (t : Tier) :
    maxRun (d.switch t) ≤ 3 := by
  obtain ⟨s, _, h⟩ := dispatcher_cases hd
  rcases h with rfl | ⟨sz, cv, rfl⟩ | ⟨sz, cv, rfl⟩ | ⟨sz, ty, cv, rfl⟩ | ⟨sz, r, ty, cv, rfl⟩ |
    ⟨cv, op, rfl⟩ <;> cases t <;> exact Nat.le_of_ble_eq_true rfl

/-! ### Kernel-checked facts about the emitted characters -/

/-- A check that holds on the first `n` entries of a list and on the remaining
ones holds on the whole list. -/
theorem all_of_split {α : Type} (n : Nat) (l : List α) (q : α → Bool)
    (h0 : (l.take n).all q = true) (h1 : (l.drop n).all q = true) : l.all q = true := by
  rw [← List.take_append_drop n l, List.all_append, h0, h1]
  rfl

/-- A check that holds on six consecutive blocks of a list, the first five of
thirty entries, holds on the whole list. -/
theorem all_of_sixths {α : Type} (l : List α) (q : α → Bool)
    (h0 : (l.take 30).all q = true) (h1 : ((l.drop 30).take 30).all q = true)
    (h2 : ((l.drop 60).take 30).all q = true) (h3 : ((l.drop 90).take 30).all q = true)
    (h4 : ((l.drop 120).take 30).all q = true) (h5 : (l.drop 150).all q = true) :
    l.all q = true := by
  refine all_of_split 30 l q h0 (all_of_split 30 _ q ?_ (all_of_split 30 _ q ?_
    (all_of_split 30 _ q ?_ (all_of_split 30 _ q ?_ ?_))))
  · exact h1
  · simpa only [List.drop_drop] using h2
  · simpa only [List.drop_drop] using h3
  · simpa only [List.drop_drop] using h4
  · simpa only [List.drop_drop] using h5

set_option maxRecDepth 1000000 in
theorem straightLine_block_1 :
    (((sectionCoded ("block", ".cta")).take 30).all fun p => straightLine p.1 p.2) = true := by
  decide!

set_option maxRecDepth 1000000 in
theorem straightLine_block_2 :
    ((((sectionCoded ("block", ".cta")).drop 30).take 30).all
      fun p => straightLine p.1 p.2) = true := by
  decide!

set_option maxRecDepth 1000000 in
theorem straightLine_block_3 :
    ((((sectionCoded ("block", ".cta")).drop 60).take 30).all
      fun p => straightLine p.1 p.2) = true := by
  decide!

set_option maxRecDepth 1000000 in
theorem straightLine_block_4 :
    ((((sectionCoded ("block", ".cta")).drop 90).take 30).all
      fun p => straightLine p.1 p.2) = true := by
  decide!

set_option maxRecDepth 1000000 in
theorem straightLine_block_5 :
    ((((sectionCoded ("block", ".cta")).drop 120).take 30).all
      fun p => straightLine p.1 p.2) = true := by
  decide!

set_option maxRecDepth 1000000 in
theorem straightLine_block_6 :
    (((sectionCoded ("block", ".cta")).drop 150).all fun p => straightLine p.1 p.2) = true := by
  decide!

set_option maxRecDepth 1000000 in
theorem straightLine_device_1 :
    (((sectionCoded ("device", ".gpu")).take 30).all fun p => straightLine p.1 p.2) = true := by
  decide!

set_option maxRecDepth 1000000 in
theorem straightLine_device_2 :
    ((((sectionCoded ("device", ".gpu")).drop 30).take 30).all
      fun p => straightLine p.1 p.2) = true := by
  decide!

set_option maxRecDepth 1000000 in
theorem straightLine_device_3 :
    ((((sectionCoded ("device", ".gpu")).drop 60).take 30).all
      fun p => straightLine p.1 p.2) = true := by
  decide!

set_option maxRecDepth 1000000 in
theorem straightLine_device_4 :
    ((((sectionCoded ("device", ".gpu")).drop 90).take 30).all
      fun p => straightLine p.1 p.2) = true := by
  decide!

set_option maxRecDepth 1000000 in
theorem straightLine_device_5 :
    ((((sectionCoded ("device", ".gpu")).drop 120).take 30).all
      fun p => straightLine p.1 p.2) = true := by
  decide!

set_option maxRecDepth 1000000 in
theorem straightLine_device_6 :
    (((sectionCoded ("device", ".gpu")).drop 150).all fun p => straightLine p.1 p.2) = true := by
  decide!

set_option maxRecDepth 1000000 in
theorem straightLine_system_1 :
    (((sectionCoded ("system", ".sys")).take 30).all fun p => straightLine p.1 p.2) = true := by
  decide!

set_option maxRecDepth 1000000 in
theorem straightLine_system_2 :
    ((((sectionCoded ("system", ".sys")).drop 30).take 30).all
      fun p => straightLine p.1 p.2) = true := by
  decide!

set_option maxRecDepth 1000000 in
theorem straightLine_system_3 :
    ((((sectionCoded ("system", ".sys")).drop 60).take 30).all
      fun p => straightLine p.1 p.2) = true := by
  decide!

set_option maxRecDepth 1000000 in
theorem straightLine_system_4 :
    ((((sectionCoded ("system", ".sys")).drop 90).take 30).all
      fun p => straightLine p.1 p.2) = true := by
  decide!

set_option maxRecDepth 1000000 in
theorem straightLine_system_5 :
    ((((sectionCoded ("system", ".sys")).drop 120).take 30).all
      fun p => straightLine p.1 p.2) = true := by
  decide!

set_option maxRecDepth 1000000 in
theorem straightLine_system_6 :
    (((sectionCoded ("system", ".sys")).drop 150).all fun p => straightLine p.1 p.2) = true := by
  decide!

theorem sectionCoded_straightLine : ∀ s ∈ scopes,
    ((sectionCoded s).all fun p => straightLine p.1 p.2) = true :=
  forall_scopes
    (all_of_sixths _ _ straightLine_block_1 straightLine_block_2 straightLine_block_3
      straightLine_block_4 straightLine_block_5 straightLine_block_6)
    (all_of_sixths _ _ straightLine_device_1 straightLine_device_2 straightLine_device_3
      straightLine_device_4 straightLine_device_5 straightLine_device_6)
    (all_of_sixths _ _ straightLine_system_1 straightLine_system_2 straightLine_system_3
      straightLine_system_4 straightLine_system_5 straightLine_system_6)

theorem coded_straightLine : (coded.all fun p => straightLine p.1 p.2) = true := by
  refine List.all_eq_true.2 fun p hp => ?_
  obtain ⟨s, hs, hps⟩ := List.mem_flatMap.1 hp
  exact List.all_eq_true.1 (sectionCoded_straightLine s hs) p hps

set_option maxRecDepth 1000000 in
theorem preamble_commentOnly : commentOnly preamble = true := by
  decide!

set_option maxRecDepth 1000000 in
theorem rawDefs_gl_only_membar :
    (rawDefs.all fun d => !occursIn (codes ".gl") (codes d.instr) || d.prim.isMembar) = true := by
  decide!

theorem ptrCoded_eq : ptrCoded = ptrDispatchers.map fun d => (d, codes d.text) := by
  simp only [ptrCoded, ptrDispatchers, List.map_flatMap, List.map_map, ptrDispatcherK_codes,
    List.append_nil, Function.comp_def]

set_option maxRecDepth 1000000 in
theorem copiesEight_block : ((ptrCodedOf ("block", ".cta")).all copiesEight) = true := by
  decide!

set_option maxRecDepth 1000000 in
theorem copiesEight_device : ((ptrCodedOf ("device", ".gpu")).all copiesEight) = true := by
  decide!

set_option maxRecDepth 1000000 in
theorem copiesEight_system : ((ptrCodedOf ("system", ".sys")).all copiesEight) = true := by
  decide!

theorem ptrCoded_copy_eight :
    (ptrCoded.all fun p =>
      countOcc (codes "memcpy(") p.2 == 2
      && countOcc (codes "memcpy(&__tmp, &__val, 8);") p.2 == 1
      && countOcc (codes "memcpy(&__ret, &__tmp, 8);") p.2 == 1
      && countOcc (codes "__tmp *= sizeof(_Type);") p.2 == 1
      && countOcc (codes "__tmp = -__tmp;\n    __tmp *= sizeof(_Type);") p.2
          == (if p.1.name = "__atomic_fetch_sub_cuda" then 1 else 0)) = true := by
  have h := forall_scopes (P := fun s => ((ptrCodedOf s).all copiesEight) = true)
    copiesEight_block copiesEight_device copiesEight_system
  refine List.all_eq_true.2 fun p hp => ?_
  obtain ⟨s, hs, hps⟩ := List.mem_flatMap.1 hp
  exact List.all_eq_true.1 (h s hs) p hps

theorem neg_mul_wrap (a s : Nat) (ha : a < 2 ^ 64) :
    ((2 ^ 64 - a) % 2 ^ 64 * s) % 2 ^ 64 = (2 ^ 64 - (a * s) % 2 ^ 64) % 2 ^ 64 := by
  rw [Nat.mod_mul_mod, Nat.sub_mul]
  have h : a * s ≤ 2 ^ 64 * s := Nat.mul_le_mul_right s (Nat.le_of_lt ha)
  generalize a * s = t at h ⊢
  norm_num at h ⊢
  omega

theorem rmwDispatcher_template (s : String × String) (sz : Nat) (rmw type : String × String)
    (cv : String) (h : rmw.1 ≠ "exchange") :
    ∃ rest, (rmwDispatcher s sz rmw type cv).text
      = templateLine (sz / 8) (fetchConstraint rmw.1 type.1) ++ rest := by
  simp only [rmwDispatcher, templateLine, h, ↓reduceIte, String.append_assoc]
  exact ⟨_, rfl⟩

theorem rmwDispatcher_callsOnlyType (s : String × String) (sz : Nat)
    (rmw type : String × String) (cv : String) :
    callsOnlyType (rmwDispatcher s sz rmw type cv) type.1 = true := by
  simp [callsOnlyType, Dispatcher.calls, rmwDispatcher, rmwSwitchSM70, rmwSwitchDevice,
    Line.calls, Stmt.callee?, Prim.isMembar, Prim.isFence, Prim.typeSuffix]

theorem rmw_not_emitted {op ty : String} (h : (op, ty) ∉ arithmeticPairs ++ bitwisePairs)
    (sem : String) (sz : Nat) (sc : String) : Prim.rmw op sem ty sz sc ∉ emittedPrims := by
  intro hp
  obtain ⟨s, _, hd⟩ := (mem_emittedPrims_iff _).1 hp
  exact h ((classCond_iff op ty).1 ((rmw_raw_mem_scopeItems s op sem ty sz sc).1 hd).2.2.2)

theorem prim_name_head (p : Prim) : (codes p.name).take 3 = [95, 95, 99] := by
  cases p <;> simp [Prim.name, fencename, codes_append, String.append_assoc] <;> rfl

set_option maxRecDepth 100000 in
theorem overloads_add (s : String × String) :
    overloads s "__atomic_fetch_add_cuda"
      = [rmwDispatcher s 32 ("fetch_add", ".add") ("f", ".f") "volatile ",
         rmwDispatcher s 32 ("fetch_add", ".add") ("u", ".u") "volatile ",
         rmwDispatcher s 64 ("fetch_add", ".add") ("f", ".f") "volatile ",
         rmwDispatcher s 64 ("fetch_add", ".add") ("u", ".u") "volatile ",
         ptrDispatcher s "volatile " "add"] := by
  rfl

set_option maxRecDepth 100000 in
theorem overloads_sub (s : String × String) :
    overloads s "__atomic_fetch_sub_cuda"
      = [rmwDispatcher s 32 ("fetch_sub", ".add") ("f", ".f") "volatile ",
         rmwDispatcher s 32 ("fetch_sub", ".add") ("u", ".u") "volatile ",
         rmwDispatcher s 64 ("fetch_sub", ".add") ("f", ".f") "volatile ",
         rmwDispatcher s 64 ("fetch_sub", ".add") ("u", ".u") "volatile ",
         ptrDispatcher s "volatile " "sub"] := by
  rfl

set_option maxRecDepth 100000 in
theorem overloads_max (s : String × String) :
    overloads s "__atomic_fetch_max_cuda"
      = [rmwDispatcher s 32 ("fetch_max", ".max") ("s", ".s") "volatile ",
         rmwDispatcher s 32 ("fetch_max", ".max") ("u", ".u") "volatile ",
         rmwDispatcher s 64 ("fetch_max", ".max") ("s", ".s") "volatile ",
         rmwDispatcher s 64 ("fetch_max", ".max") ("u", ".u") "volatile "] := by
  rfl

set_option maxRecDepth 100000 in
theorem overloads_min (s : String × String) :
    overloads s "__atomic_fetch_min_cuda"
      = [rmwDispatcher s 32 ("fetch_min", ".min") ("s", ".s") "volatile ",
         rmwDispatcher s 32 ("fetch_min", ".min") ("u", ".u") "volatile ",
         rmwDispatcher s 64 ("fetch_min", ".min") ("s", ".s") "volatile ",
         rmwDispatcher s 64 ("fetch_min", ".min") ("u", ".u") "volatile "] := by
  rfl

/-! ### The claims, continued -/

/-- C11 (the code at the failing input): the native-tier switch of the pointer
fetch_add dispatcher of scope block, which is part of the output, has no
`default: assert(0);` line; for the out-of-domain order value 6 it executes
nothing, whereas the fallback-tier switch of the same dispatcher executes
`assert(0)`.  Every emitted dispatcher has the default line in its
fallback-tier switch, and in its native-tier switch unless it is a pointer
dispatcher. -/
theorem C11_ptr_native_switch_lacks_default :
    ptrDispatcher ("block", ".cta") "volatile " "add" ∈ dispatchers
    ∧ defaultLine ∉ (ptrDispatcher ("block", ".cta") "volatile " "add").sm70
    ∧ fromDefault (ptrDispatcher ("block", ".cta") "volatile " "add").sm70 = none
    ∧ exec ((ptrDispatcher ("block", ".cta") "volatile " "add").switch .sm70) 6 = []
    ∧ exec ((ptrDispatcher ("block", ".cta") "volatile " "add").switch .device) 6
        = [Stmt.assert0]
    ∧ defaultLine.render "          " = "          default: assert(0);\n"
    ∧ (∀ d ∈ dispatchers,
        defaultLine ∈ d.device
        ∧ (defaultLine ∈ d.sm70 ∨ ∃ s cv op, d = ptrDispatcher s cv op)) := by
  refine ⟨ptrDispatcher_mem_dispatchers (by decide) (by decide), by decide, by decide,
    by decide, by decide, by decide, ?_⟩
  intro d hd
  obtain ⟨s, _, h⟩ := dispatcher_cases hd
  rcases h with rfl | ⟨sz, cv, rfl⟩ | ⟨sz, cv, rfl⟩ | ⟨sz, ty, cv, rfl⟩ | ⟨sz, r, ty, cv, rfl⟩ |
    ⟨cv, op, rfl⟩
  · exact ⟨by simp [fenceDispatcher, fenceSwitchDevice, defaultLine],
      Or.inl (by simp [fenceDispatcher, fenceSwitchSM70, defaultLine])⟩
  · exact ⟨by simp [loadDispatcher, loadSwitchDevice, defaultLine],
      Or.inl (by simp [loadDispatcher, loadSwitchSM70, defaultLine])⟩
  · exact ⟨by simp [storeDispatcher, storeSwitchDevice, defaultLine],
      Or.inl (by simp [storeDispatcher, storeSwitchSM70, defaultLine])⟩
  · exact ⟨by simp [casDispatcher, casSwitchDevice, defaultLine],
      Or.inl (by simp [casDispatcher, casSwitchSM70, defaultLine])⟩
  · exact ⟨by simp [rmwDispatcher, rmwSwitchDevice, defaultLine],
      Or.inl (by simp [rmwDispatcher, rmwSwitchSM70, defaultLine])⟩
  · exact ⟨by simp [ptrDispatcher, ptrSwitchDevice, defaultLine], Or.inr ⟨s, cv, op, rfl⟩⟩

/-- C12: the operand a pointer dispatcher passes to the primitive is
`v * s mod 2^64` for fetch_add and `((0 - v) mod 2^64) * s mod 2^64` for
fetch_sub, the negation coming before the multiplication, so the fetch_sub
operand is the two's-complement negation modulo `2^64` of the fetch_add
operand; in both tiers the only read-modify-write primitive either dispatcher
calls is `__cuda_fetch_add_<order>_u64_<scope>` (besides it only the barrier and
the scoped fence are called), exactly one per order; and each emitted pointer
dispatcher holds exactly two `memcpy`, each of 8 bytes, into and out of
`__tmp`. -/
theorem C12_pointer_scaling (s : String × String) (cv op : String) (v sz : Nat) :
    ptrOperand "add" v sz = (v * sz) % 2 ^ 64
    ∧ ptrOperand "sub" v sz = ((2 ^ 64 - v % 2 ^ 64) % 2 ^ 64 * sz) % 2 ^ 64
    ∧ ptrOperand "sub" v sz = (2 ^ 64 - ptrOperand "add" v sz) % 2 ^ 64
    ∧ (∀ t : Tier, ∀ p ∈ (ptrDispatcher s cv op).tierCalls t,
        p.isMembar = true ∨ p.isFence = true
          ∨ ∃ sem, p = Prim.rmw "fetch_add" sem "u" 64 s.1)
    ∧ (∀ (t : Tier) (o : MemOrder),
        rmwCallees ((ptrDispatcher s cv op).run t o)
          = [Prim.rmw "fetch_add" (tierTag t o) "u" 64 s.1])
    ∧ (∀ d ∈ ptrDispatchers,
        countOcc (codes "memcpy(") (codes d.text) = 2
        ∧ countOcc (codes "memcpy(&__tmp, &__val, 8);") (codes d.text) = 1
        ∧ countOcc (codes "memcpy(&__ret, &__tmp, 8);") (codes d.text) = 1
        ∧ countOcc (codes "__tmp *= sizeof(_Type);") (codes d.text) = 1
        ∧ countOcc (codes "__tmp = -__tmp;\n    __tmp *= sizeof(_Type);") (codes d.text)
            = (if d.name = "__atomic_fetch_sub_cuda" then 1 else 0)) := by
  have hadd : ptrOperand "add" v sz = (v * sz) % 2 ^ 64 := by
    simp [ptrOperand, Nat.mod_mul_mod]
  refine ⟨hadd, by simp [ptrOperand], ?_, ?_, ?_, ?_⟩
  · rw [hadd]
    have h := neg_mul_wrap (v % 2 ^ 64) sz (Nat.mod_lt _ (by norm_num))
    simp only [ptrOperand, ↓reduceIte]
    rw [h, Nat.mod_mul_mod]
  · intro t p hp
    cases t <;>
      simp [Dispatcher.tierCalls, Dispatcher.switch, ptrDispatcher, ptrSwitchSM70,
        ptrSwitchDevice, Line.calls, Stmt.callee?] at hp <;>
      rcases hp with rfl | rfl | rfl | rfl | rfl <;> simp [Prim.isMembar, Prim.isFence]
  · intro t o
    cases t <;> cases o <;> rfl
  · intro d hd
    have hm : (d, codes d.text) ∈ ptrCoded := by
      rw [ptrCoded_eq]
      exact List.mem_map.2 ⟨d, hd, rfl⟩
    have h := List.all_eq_true.1 ptrCoded_copy_eight _ hm
    simpa [and_assoc] using h

/-- C13: the scopes are visited in the order block, device, system, not in the
order of their declaration; the output is the preamble followed by the block,
the device and the system section; and every section is, in this order, the
full-barrier primitive, the two scoped fence primitives, the public fence
dispatcher, the load group of size 32 and of size 64, the store group of size
32 and of size 64, the read-modify-write groups (each the primitives of one
operation, type and size followed by their public dispatcher), the pointer
fetch_add dispatcher and the pointer fetch_sub dispatcher.  The output is the
closed term `main`, the same text on every run. -/
theorem C13_output_layout :
    scopes.map Prod.fst = ["block", "device", "system"]
    ∧ scopes.map Prod.fst ≠ ["system", "device", "block"]
    ∧ main = preamble ++ sectionText ("block", ".cta") ++ sectionText ("device", ".gpu")
        ++ sectionText ("system", ".sys")
    ∧ (∀ s : String × String, sectionText s = String.join ((sectionLayout s).map Item.text))
    ∧ ∀ s : String × String, scopeItems s = sectionLayout s := by
  refine ⟨by decide, by decide, ?_, ?_, scopeItems_eq_layout⟩
  · have hs : scopes = [("block", ".cta"), ("device", ".gpu"), ("system", ".sys")] := by decide
    simp only [main, items, hs, List.flatMap_cons, List.flatMap_nil, List.append_nil,
      List.map_append, join_append, sectionText, String.append_assoc]
  · intro s
    rw [sectionText, scopeItems_eq_layout]

/-- C15 (as stated, refuted): the instruction of `__cuda_load_volatile_32_block`,
which is part of the output, is `ld.volatile.b32`, not a plain `ld.b32`: it
carries the qualifier `.volatile`. -/
theorem C15_volatile_load_carries_qualifier :
    (("volatile", ".volatile") : String × String) ∈ ld_semantics
    ∧ Prim.load "volatile" 32 "block" ∈ emittedPrims
    ∧ (loadDef ("block", ".cta") 32 ("volatile", ".volatile")).prim
        = Prim.load "volatile" 32 "block"
    ∧ (loadDef ("block", ".cta") 32 ("volatile", ".volatile")).instr
        = "ld.volatile.b32 %0,[%1];"
    ∧ (loadDef ("block", ".cta") 32 ("volatile", ".volatile")).instr ≠ "ld.b32 %0,[%1];"
    ∧ (storeDef ("block", ".cta") 32 ("volatile", ".volatile")).instr
        = "st.volatile.b32 [%0], %1;" := by
  have hi : Item.raw (loadDef ("block", ".cta") 32 ("volatile", ".volatile"))
      ∈ scopeItems ("block", ".cta") := loadDef_mem_scopeItems _ (by decide) (by decide)
  have hs : (("block", ".cta") : String × String) ∈ scopes := by decide
  exact ⟨by decide, prim_mem_emittedPrims hs hi, rfl, by decide, by decide, by decide⟩

/-- C15 (amended): for every scope and size, the instruction of the volatile
load and of the volatile store carries the qualifier `.volatile` and no scope
suffix (`ld.volatile.b<size>`, `st.volatile.b<size>`), whereas the relaxed,
acquire and release primitives carry the native qualifier of their order
followed by the scope suffix. -/
theorem C15_volatile_access_form (s : String × String) (sz : Nat) :
    ld_semantics = [("acquire", ".acquire"), ("relaxed", ".relaxed"), ("volatile", ".volatile")]
    ∧ st_semantics
        = [("relaxed", ".relaxed"), ("release", ".release"), ("volatile", ".volatile")]
    ∧ (loadDef s sz ("volatile", ".volatile")).instr
        = "ld" ++ ".volatile" ++ "" ++ ".b" ++ toString sz ++ " %0,[%1];"
    ∧ (storeDef s sz ("volatile", ".volatile")).instr
        = "st" ++ ".volatile" ++ "" ++ ".b" ++ toString sz ++ " [%0], %1;"
    ∧ (loadDef s sz ("relaxed", ".relaxed")).instr
        = "ld" ++ ".relaxed" ++ s.2 ++ ".b" ++ toString sz ++ " %0,[%1];"
    ∧ (loadDef s sz ("acquire", ".acquire")).instr
        = "ld" ++ ".acquire" ++ s.2 ++ ".b" ++ toString sz ++ " %0,[%1];"
    ∧ (storeDef s sz ("relaxed", ".relaxed")).instr
        = "st" ++ ".relaxed" ++ s.2 ++ ".b" ++ toString sz ++ " [%0], %1;"
    ∧ (storeDef s sz ("release", ".release")).instr
        = "st" ++ ".release" ++ s.2 ++ ".b" ++ toString sz ++ " [%0], %1;" := by
  refine ⟨by decide, by decide, ?_, ?_, ?_, ?_, ?_, ?_⟩ <;>
    simp [loadDef, storeDef, ld_as_atom]

/-- C16: in every section the overloads named fetch_add (and fetch_sub) are
the floating one and the integral one of each size and the pointer one; the
integral overload is constrained by `sizeof(_Type)` and `is_integral` alone and
calls only `u`-tagged primitives; no `s`-tagged fetch_add or fetch_sub
primitive is emitted.  The overloads named fetch_max (and fetch_min) are, for
each size, one constrained by `is_signed` that calls only `s`-tagged primitives
and one constrained by `is_unsigned` that calls only `u`-tagged primitives. -/
theorem C16_signed_add_aliases_unsigned (s : String × String) (sz : Nat) (cv : String) :
    overloads s "__atomic_fetch_add_cuda"
        = [rmwDispatcher s 32 ("fetch_add", ".add") ("f", ".f") "volatile ",
           rmwDispatcher s 32 ("fetch_add", ".add") ("u", ".u") "volatile ",
           rmwDispatcher s 64 ("fetch_add", ".add") ("f", ".f") "volatile ",
           rmwDispatcher s 64 ("fetch_add", ".add") ("u", ".u") "volatile ",
           ptrDispatcher s "volatile " "add"]
    ∧ overloads s "__atomic_fetch_sub_cuda"
        = [rmwDispatcher s 32 ("fetch_sub", ".add") ("f", ".f") "volatile ",
           rmwDispatcher s 32 ("fetch_sub", ".add") ("u", ".u") "volatile ",
           rmwDispatcher s 64 ("fetch_sub", ".add") ("f", ".f") "volatile ",
           rmwDispatcher s 64 ("fetch_sub", ".add") ("u", ".u") "volatile ",
           ptrDispatcher s "volatile " "sub"]
    ∧ overloads s "__atomic_fetch_max_cuda"
        = [rmwDispatcher s 32 ("fetch_max", ".max") ("s", ".s") "volatile ",
           rmwDispatcher s 32 ("fetch_max", ".max") ("u", ".u") "volatile ",
           rmwDispatcher s 64 ("fetch_max", ".max") ("s", ".s") "volatile ",
           rmwDispatcher s 64 ("fetch_max", ".max") ("u", ".u") "volatile "]
    ∧ overloads s "__atomic_fetch_min_cuda"
        = [rmwDispatcher s 32 ("fetch_min", ".min") ("s", ".s") "volatile ",
           rmwDispatcher s 32 ("fetch_min", ".min") ("u", ".u") "volatile ",
           rmwDispatcher s 64 ("fetch_min", ".min") ("s", ".s") "volatile ",
           rmwDispatcher s 64 ("fetch_min", ".min") ("u", ".u") "volatile "]
    ∧ (∀ op ∈ ["fetch_add", "fetch_sub"], ∀ m : String,
        (∃ rest, (rmwDispatcher s sz (op, m) ("u", ".u") cv).text
          = templateLine (sz / 8) " && cuda::std::is_integral<_Type>::value, int>::type = 0>\n"
              ++ rest)
        ∧ callsOnlyType (rmwDispatcher s sz (op, m) ("u", ".u") cv) "u" = true)
    ∧ (∀ op ∈ ["fetch_max", "fetch_min"], ∀ m : String,
        (∃ rest, (rmwDispatcher s sz (op, m) ("u", ".u") cv).text
          = templateLine (sz / 8)
              (" && cuda::std::is_integral<_Type>::value"
                ++ " && cuda::std::is_unsigned<_Type>::value, int>::type = 0>\n") ++ rest)
        ∧ callsOnlyType (rmwDispatcher s sz (op, m) ("u", ".u") cv) "u" = true
        ∧ (∃ rest, (rmwDispatcher s sz (op, m) ("s", ".s") cv).text
          = templateLine (sz / 8)
              (" && cuda::std::is_integral<_Type>::value"
                ++ " && cuda::std::is_signed<_Type>::value, int>::type = 0>\n") ++ rest)
        ∧ callsOnlyType (rmwDispatcher s sz (op, m) ("s", ".s") cv) "s" = true)
    ∧ (∀ (sem sc : String) (z : Nat),
        Prim.rmw "fetch_add" sem "s" z sc ∉ emittedPrims
        ∧ Prim.rmw "fetch_sub" sem "s" z sc ∉ emittedPrims) := by
  refine ⟨overloads_add s, overloads_sub s, overloads_max s, overloads_min s, ?_, ?_, ?_⟩
  · intro op hop m
    refine ⟨?_, rmwDispatcher_callsOnlyType s sz (op, m) ("u", ".u") cv⟩
    simp only [List.mem_cons, List.mem_singleton, List.not_mem_nil, or_false] at hop
    rcases hop with rfl | rfl
    · exact rmwDispatcher_template s sz ("fetch_add", m) ("u", ".u") cv (show "fetch_add" ≠ "exchange" by decide)
    · exact rmwDispatcher_template s sz ("fetch_sub", m) ("u", ".u") cv (show "fetch_sub" ≠ "exchange" by decide)
  · intro op hop m
    simp only [List.mem_cons, List.mem_singleton, List.not_mem_nil, or_false] at hop
    rcases hop with rfl | rfl
    · exact ⟨rmwDispatcher_template s sz ("fetch_max", m) ("u", ".u") cv (show "fetch_max" ≠ "exchange" by decide),
        rmwDispatcher_callsOnlyType s sz ("fetch_max", m) ("u", ".u") cv,
        rmwDispatcher_template s sz ("fetch_max", m) ("s", ".s") cv (show "fetch_max" ≠ "exchange" by decide),
        rmwDispatcher_callsOnlyType s sz ("fetch_max", m) ("s", ".s") cv⟩
    · exact ⟨rmwDispatcher_template s sz ("fetch_min", m) ("u", ".u") cv (show "fetch_min" ≠ "exchange" by decide),
        rmwDispatcher_callsOnlyType s sz ("fetch_min", m) ("u", ".u") cv,
        rmwDispatcher_template s sz ("fetch_min", m) ("s", ".s") cv (show "fetch_min" ≠ "exchange" by decide),
        rmwDispatcher_callsOnlyType s sz ("fetch_min", m) ("s", ".s") cv⟩
  · intro sem sc z
    exact ⟨rmw_not_emitted (by decide) sem z sc, rmw_not_emitted (by decide) sem z sc⟩

/-- C17: every emitted dispatcher executes, in either tier, the same
statements for consume as for acquire; in the store dispatcher both reach the
default assertion. -/
theorem C17_consume_is_acquire :
    (∀ d ∈ dispatchers, ∀ t : Tier, d.run t .consume = d.run t .acquire)
    ∧ (∀ (s : String × String) (sz : Nat) (cv : String) (t : Tier),
        (storeDispatcher s sz cv).run t .consume = [Stmt.assert0]
        ∧ (storeDispatcher s sz cv).run t .acquire = [Stmt.assert0]) := by
  constructor
  · intro d hd t
    obtain ⟨s, _, h⟩ := dispatcher_cases hd
    rcases h with rfl | ⟨sz, cv, rfl⟩ | ⟨sz, cv, rfl⟩ | ⟨sz, ty, cv, rfl⟩ |
      ⟨sz, r, ty, cv, rfl⟩ | ⟨cv, op, rfl⟩ <;> cases t <;> rfl
  · intro s sz cv t
    cases t <;> exact ⟨rfl, rfl⟩

/-- C18: the full barrier issues `membar` with the suffix of `membar_scopes`,
which is `.cta`, `.gl`, `.sys` for block, device, system; fences, ordered loads
and stores and atom instructions carry the suffix of `scopes`, which is `.cta`,
`.gpu`, `.sys`; the two spellings differ for the device scope only; and among
the emitted instructions only those of the membar primitives contain `.gl`. -/
theorem C18_two_scope_spellings :
    membar_scopes = [("block", ".cta"), ("device", ".gl"), ("system", ".sys")]
    ∧ scopes = [("block", ".cta"), ("device", ".gpu"), ("system", ".sys")]
    ∧ (∀ s : String × String,
        (membarDef s).instr = "membar" ++ mapGet membar_scopes s.1 "" ++ ";")
    ∧ (∀ (s sem rmw type : String × String) (sz : Nat),
        (fenceDef s sem).instr = "fence" ++ sem.2 ++ s.2 ++ ";"
        ∧ (loadDef s sz ("relaxed", ".relaxed")).instr
            = "ld" ++ ".relaxed" ++ s.2 ++ ".b" ++ toString sz ++ " %0,[%1];"
        ∧ (loadDef s sz ("acquire", ".acquire")).instr
            = "ld" ++ ".acquire" ++ s.2 ++ ".b" ++ toString sz ++ " %0,[%1];"
        ∧ (storeDef s sz ("relaxed", ".relaxed")).instr
            = "st" ++ ".relaxed" ++ s.2 ++ ".b" ++ toString sz ++ " [%0], %1;"
        ∧ (storeDef s sz ("release", ".release")).instr
            = "st" ++ ".release" ++ s.2 ++ ".b" ++ toString sz ++ " [%0], %1;"
        ∧ (rmwDef s sz rmw type sem).instr
            = "atom" ++ rmw.2 ++ sem.2 ++ s.2 ++ type.2 ++ toString sz ++ " "
                ++ (if rmw.1 = "compare_exchange" then "%0,[%1],%2,%3" else "%0,[%1],%2")
                ++ ";")
    ∧ (∀ s ∈ scopes, mapGet membar_scopes s.1 "" ≠ s.2 ↔ s.1 = "device")
    ∧ (∀ d ∈ rawDefs, occursIn (codes ".gl") (codes d.instr) = true → d.prim.isMembar = true)
    ∧ ((scopes.map fun s => (membarDef s).instr) = ["membar.cta;", "membar.gl;", "membar.sys;"]) := by
  refine ⟨by decide, by decide, fun s => rfl, ?_, by decide, ?_, by decide⟩
  · intro s sem rmw type sz
    refine ⟨rfl, ?_, ?_, ?_, ?_, rfl⟩ <;> simp [loadDef, storeDef, ld_as_atom]
  · intro d hd h
    have h1 := List.all_eq_true.1 rawDefs_gl_only_membar d hd
    simpa [h] using h1

/-- C19: in every emitted dispatcher the native-tier branch calls no
`__cuda_membar_<scope>` and no volatile-named primitive, and every primitive the
fallback-tier branch calls is `__cuda_membar_<scope>` or volatile-named, hence
neither a scoped fence nor a primitive tagged relaxed, acquire, release or
acq_rel. -/
theorem C19_tier_separation :
    (∀ d ∈ dispatchers,
      (∀ p ∈ d.tierCalls .sm70, p.isMembar = false ∧ p.isVolatile = false)
      ∧ (∀ p ∈ d.tierCalls .device, p.isMembar = true ∨ p.isVolatile = true))
    ∧ (∀ p : Prim, p.isVolatile = true →
        p.isFence = false ∧ p.tag ∉ ["relaxed", "acquire", "release", "acq_rel"])
    ∧ (∀ p : Prim, p.isMembar = true → p.isFence = false) := by
  refine ⟨?_, ?_, ?_⟩
  · intro d hd
    obtain ⟨s, _, h⟩ := dispatcher_cases hd
    rcases h with rfl | ⟨sz, cv, rfl⟩ | ⟨sz, cv, rfl⟩ | ⟨sz, ty, cv, rfl⟩ |
      ⟨sz, r, ty, cv, rfl⟩ | ⟨cv, op, rfl⟩ <;>
    simp [Dispatcher.tierCalls, Dispatcher.switch, fenceDispatcher, fenceSwitchSM70,
      fenceSwitchDevice, loadDispatcher, loadSwitchSM70, loadSwitchDevice, storeDispatcher,
      storeSwitchSM70, storeSwitchDevice, casDispatcher, casSwitchSM70, casSwitchDevice,
      rmwDispatcher, rmwSwitchSM70, rmwSwitchDevice, ptrDispatcher, ptrSwitchSM70,
      ptrSwitchDevice, Line.calls, Stmt.callee?, Prim.isMembar, Prim.isVolatile, Prim.isFence,
      Prim.tag]
  · intro p hp
    cases p <;> simp_all [Prim.isVolatile, Prim.isMembar, Prim.isFence, Prim.tag]
  · intro p hp
    cases p <;> simp_all [Prim.isMembar, Prim.isFence]

/-- C20: the preamble consists of comment lines only; in the text of every
emitted item no word is `while`, `for`, `do` or `goto`; a name applied in the
signature of an item is the name the item defines (or `sizeof`); a name applied
in the body of a raw primitive is only `volatile` (of `asm volatile`), so a raw
primitive calls no function; a name applied in the body of a dispatcher is an
external name or the name of a raw primitive, never the name of a dispatcher,
so no emitted function calls itself or a function that calls it; and whatever
the value of the order, a dispatcher executes at most three statements of its
one switch. -/
theorem C20_no_loops :
    commentOnly preamble = true
    ∧ (∀ i ∈ items, ∀ w ∈ words (codes i.text),
        w.word ∉ loopKeywords
        ∧ (w.next = 40 → w.inBody = true → appliedOk i w.word = true)
        ∧ (w.next = 40 → w.inBody = false → definedOk i w.word = true))
    ∧ (∀ (d : RawDef) (w : List Nat), appliedOk (Item.raw d) w = true → w = codes "volatile")
    ∧ (∀ (d : Dispatcher) (w : List Nat), appliedOk (Item.disp d) w = true →
        w ∈ externalNames ∨ ∃ p ∈ d.calls, w = codes p.name)
    ∧ (∀ (p : Prim), ∀ d ∈ dispatchers, codes p.name ≠ codes d.name)
    ∧ (∀ d ∈ dispatchers, ∀ (t : Tier) (v : Int),
        (exec (d.switch t) v).length ≤ 3
        ∧ ((exec (d.switch t) v).filterMap Stmt.callee?).length ≤ 3) := by
  refine ⟨preamble_commentOnly, ?_, ?_, ?_, ?_, ?_⟩
  · intro i hi w hw
    have h := List.all_eq_true.1 (of_coded straightLine coded_straightLine hi) w hw
    simp only [wordOk, Bool.and_eq_true, Bool.not_eq_true', Bool.or_eq_true, beq_iff_eq,
      Bool.and_eq_false_imp] at h
    refine ⟨?_, ?_, ?_⟩
    · intro hk
      have h0 := h.1.1
      rw [List.contains, List.elem_eq_mem] at h0
      simp [hk] at h0
    · intro h1 h2
      rcases h.1.2 with h3 | h3
      · exact absurd h2 (by simpa using h3 h1)
      · exact h3
    · intro h1 h2
      rcases h.2 with h3 | h3
      · exact absurd h2 (by simpa using h3 h1)
      · exact h3
  · intro d w h
    simpa [appliedOk] using h
  · intro d w h
    simp only [appliedOk, Bool.or_eq_true, List.contains, List.elem_eq_mem, decide_eq_true_eq,
      List.mem_map] at h
    rcases h with h | ⟨p, hp, hw⟩
    · exact Or.inl h
    · exact Or.inr ⟨p, hp, by rw [← hw, nameCodes_eq]⟩
  · intro p d hd h
    rw [dispatchers_eq, List.mem_flatMap] at hd
    obtain ⟨s, _, hs⟩ := hd
    have hn : d.name ∈ publicNameSeq := by
      rw [← scopeDispatchers_names s]
      exact List.mem_map.2 ⟨d, hs, rfl⟩
    have h3 : ∀ n ∈ publicNameSeq, (codes n).take 3 = [95, 95, 97] := by decide
    have h4 := prim_name_head p
    rw [h, h3 _ hn] at h4
    simp at h4
  · intro d hd t v
    have h := Nat.le_trans (exec_length_le (d.switch t) v) (maxRun_le_three hd t)
    exact ⟨h, Nat.le_trans (List.length_filterMap_le _ _) h⟩




/-! ### The raw primitives of the output -/

theorem rawDef_mem_scopeItems {d : RawDef} (hd : d ∈ rawDefs) :
    ∃ s ∈ scopes, Item.raw d ∈ scopeItems s := by
  obtain ⟨i, hi, hr⟩ := List.mem_filterMap.1 hd
  rw [rawDef_eq_some] at hr
  subst hr
  exact List.mem_flatMap.1 hi

theorem rawDef_of_mem_scopeItems {s : String × String} (hs : s ∈ scopes) {d : RawDef}
    (h : Item.raw d ∈ scopeItems s) : d ∈ rawDefs :=
  List.mem_filterMap.2 ⟨Item.raw d, List.mem_flatMap.2 ⟨s, hs, h⟩, rfl⟩

/-- The order entries of the read-modify-write table, in output order. -/
theorem rmw_semantics_eq : rmw_semantics = [("acq_rel", ".acq_rel"), ("acquire", ".acquire"),
    ("relaxed", ".relaxed"), ("release", ".release"), ("volatile", "")] := by
  decide

/-- Every emitted raw primitive is, for a scope of the table, the barrier, one
of the two fences, a load or a store of the layout, or the read-modify-write
primitive of a group of the layout and an order of the table. -/
theorem rawDef_layout_cases {d : RawDef} (hd : d ∈ rawDefs) :
    ∃ s ∈ scopes, d = membarDef s
      ∨ (∃ e ∈ fence_semantics, d = fenceDef s e)
      ∨ (∃ sz ∈ ld_sizes, ∃ e ∈ ld_semantics, d = loadDef s sz e)
      ∨ (∃ sz ∈ st_sizes, ∃ e ∈ st_semantics, d = storeDef s sz e)
      ∨ (∃ g ∈ rmwGroupsOfSize 32 ++ rmwGroupsOfSize 64, ∃ e ∈ rmw_semantics,
          d = rmwDef s g.1 g.2.1 g.2.2 e) := by
  obtain ⟨s, hs, hi⟩ := rawDef_mem_scopeItems hd
  refine ⟨s, hs, ?_⟩
  rw [scopeItems_eq_layout] at hi
  simp only [sectionLayout, loadGroup, storeGroup, List.mem_append, List.mem_cons,
    List.mem_singleton, List.not_mem_nil, or_false, Item.raw.injEq, reduceCtorEq,
    List.mem_flatMap, false_or] at hi
  rcases hi with ((((h | h) | h) | h) | h) | ⟨g, hg, h⟩
  · rcases h with h | h | h
    · exact Or.inl h
    · exact Or.inr (Or.inl ⟨_, by decide, h⟩)
    · exact Or.inr (Or.inl ⟨_, by decide, h⟩)
  · rcases h with h | h | h <;>
      exact Or.inr (Or.inr (Or.inl ⟨32, by decide, _, by decide, h⟩))
  · rcases h with h | h | h <;>
      exact Or.inr (Or.inr (Or.inl ⟨64, by decide, _, by decide, h⟩))
  · rcases h with h | h | h <;>
      exact Or.inr (Or.inr (Or.inr (Or.inl ⟨32, by decide, _, by decide, h⟩)))
  · rcases h with h | h | h <;>
      exact Or.inr (Or.inr (Or.inr (Or.inl ⟨64, by decide, _, by decide, h⟩)))
  · refine Or.inr (Or.inr (Or.inr (Or.inr ⟨g, List.mem_append.2 hg, ?_⟩)))
    rw [rmw_semantics_eq]
    simp only [rmwGroup, List.mem_cons, List.mem_singleton, List.not_mem_nil, or_false,
      Item.raw.injEq, reduceCtorEq] at h
    rcases h with h | h | h | h | h <;> exact ⟨_, by simp, h⟩

/-- Every emitted raw read-modify-write primitive is the primitive of a scope
of the table, a group of the layout and an order of the table. -/
theorem rmw_rawDef_cases {d : RawDef} (hd : d ∈ rawDefs) {op sem type scope : String} {sz : Nat}
    (hp : d.prim = .rmw op sem type sz scope) :
    ∃ s ∈ scopes, ∃ g ∈ rmwGroupsOfSize 32 ++ rmwGroupsOfSize 64, ∃ e ∈ rmw_semantics,
      d = rmwDef s g.1 g.2.1 g.2.2 e := by
  obtain ⟨s, hs, h⟩ := rawDef_layout_cases hd
  rcases h with rfl | ⟨e, _, rfl⟩ | ⟨z, _, e, _, rfl⟩ | ⟨z, _, e, _, rfl⟩ | h
  · exact absurd hp (by simp [membarDef])
  · exact absurd hp (by simp [fenceDef])
  · exact absurd hp (by simp [loadDef])
  · exact absurd hp (by simp [storeDef])
  · exact ⟨s, hs, h⟩


/-! ### The bodies of the raw primitives -/

theorem plain_append (a b : String) : plain (a ++ b) = (plain a && plain b) := by
  simp [plain, codes_append, List.all_append]

theorem plain_registers (t : String) (sz : Nat) : plain (registers t sz) = true := by
  unfold registers
  split <;> split <;> decide


theorem asmBody_nil (instr ops : String) :
    asmBody [] instr ops = "asm volatile(\"" ++ (instr ++ ("\"" ++ (ops ++ ");"))) := by
  simp only [asmBody, List.map_nil, String.append_assoc]
  rw [show String.join [] = "" from rfl, String.empty_append]

theorem asmBody_neg (instr ops : String) :
    asmBody ["__op = -__op;"] instr ops
      = "__op = -__op;" ++ ("\n" ++ ("asm volatile(\"" ++ (instr ++ ("\"" ++ (ops ++ ");"))))) := by
  simp only [asmBody, List.map_cons, List.map_nil, String.append_assoc]
  rw [show String.join ["__op = -__op;" ++ "\n"] = "__op = -__op;" ++ "\n" from by decide,
    String.append_assoc]

theorem membarDef_shape {s : String × String} (hs : s ∈ scopes) : RawShape (membarDef s) := by
  have h1 : "() \x7b asm volatile(\"" = "() " ++ ("\x7b" ++ (" " ++ "asm volatile(\"")) := by
    decide
  have h2 : "\":::\"memory\"); \x7d\n" = "\"" ++ (":::\"memory\"" ++ (");" ++ " \x7d\n")) := by
    decide
  have h3 : ∀ s ∈ scopes, plain s.1 = true ∧ plain (mapGet membar_scopes s.1 "") = true := by
    decide
  refine ⟨"static inline _LIBCUDACXX_DEVICE void " ++ (Prim.membar s.1).name ++ "() ", " ",
    ":::\"memory\"", "membar" ++ mapGet membar_scopes s.1 "", ?_, ?_, Or.inr rfl, by decide,
    rfl, ?_⟩
  · simp only [membarDef, asmBody_nil, h1, h2, String.append_assoc]
  · simp only [Prim.name, plain_append, (h3 s hs).1, Bool.and_true, Bool.true_and]
    decide
  · simp only [plain_append, (h3 s hs).2, Bool.and_true]
    decide

theorem fenceDef_shape {s : String × String} (hs : s ∈ scopes) {e : String × String}
    (he : e ∈ fence_semantics) : RawShape (fenceDef s e) := by
  have h1 : "() \x7b asm volatile(\"" = "() " ++ ("\x7b" ++ (" " ++ "asm volatile(\"")) := by
    decide
  have h2 : "\":::\"memory\"); \x7d\n" = "\"" ++ (":::\"memory\"" ++ (");" ++ " \x7d\n")) := by
    decide
  have h3 : ∀ s ∈ scopes, plain s.1 = true ∧ plain s.2 = true := by decide
  have h4 : ∀ e ∈ fence_semantics, plain e.1 = true ∧ plain e.2 = true := by decide
  refine ⟨"static inline _LIBCUDACXX_DEVICE void " ++ fencename e.1 s.1 ++ "() ", " ",
    ":::\"memory\"", "fence" ++ e.2 ++ s.2, ?_, ?_, Or.inr rfl, by decide, rfl, ?_⟩
  · simp only [fenceDef, asmBody_nil, h1, h2, String.append_assoc]
  · simp only [fencename, plain_append, (h3 s hs).1, (h4 e he).1, Bool.and_true, Bool.true_and]
    decide
  · simp only [plain_append, (h3 s hs).2, (h4 e he).2, Bool.and_true]
    decide

theorem loadDef_shape {s : String × String} (hs : s ∈ scopes) {sz : Nat} (hz : sz ∈ ld_sizes)
    {e : String × String} (he : e ∈ ld_semantics) : RawShape (loadDef s sz e) := by
  have h1 : "(_CUDA_A __ptr, _CUDA_B& __dst) \x7b"
      = "(_CUDA_A __ptr, _CUDA_B& __dst) " ++ "\x7b" := by decide
  have h2 : "\" : " = "\"" ++ " : " := by decide
  have h3 : " : \"memory\"); \x7d\n" = " : \"memory\"" ++ (");" ++ " \x7d\n") := by decide
  have h4 : " %0,[%1];" = " %0,[%1]" ++ ";" := by decide
  have h5 : ∀ s ∈ scopes, plain s.1 = true ∧ plain s.2 = true := by decide
  have h6 : ∀ e ∈ ld_semantics, plain e.1 = true ∧ plain e.2 = true := by decide
  have h7 : ∀ sz ∈ ld_sizes, plain (toString sz) = true := by decide
  have ha : ld_as_atom = false := rfl
  refine ⟨"template<class _CUDA_A, class _CUDA_B> " ++ "static inline _LIBCUDACXX_DEVICE void "
      ++ (Prim.load e.1 sz s.1).name ++ "(_CUDA_A __ptr, _CUDA_B& __dst) ", "",
    " : " ++ "\"=" ++ registers "b" sz ++ "\"(__dst) : \"l\"(__ptr)" ++ " : \"memory\"",
    "ld" ++ e.2 ++ (if e.1 = "volatile" then "" else s.2) ++ ".b" ++ toString sz ++ " %0,[%1]",
    ?_, ?_, Or.inl rfl, ?_, ?_, ?_⟩
  · simp only [loadDef, ha, Bool.false_eq_true, ↓reduceIte, asmBody_nil, h1, h2, h3,
      String.append_assoc, String.empty_append]
  · simp only [Prim.name, plain_append, (h5 s hs).1, (h6 e he).1, h7 sz hz, Bool.and_true,
      Bool.true_and]
    decide
  · simp only [plain_append, plain_registers, Bool.and_true, Bool.true_and]
    decide
  · simp only [loadDef, ha, Bool.false_eq_true, ↓reduceIte, h4, String.append_assoc]
  · by_cases hv : e.1 = "volatile" <;>
      simp only [hv, ↓reduceIte, plain_append, (h5 s hs).2, (h6 e he).2, h7 sz hz,
        Bool.and_true, Bool.true_and] <;> decide

theorem storeDef_shape {s : String × String} (hs : s ∈ scopes) {sz : Nat} (hz : sz ∈ st_sizes)
    {e : String × String} (he : e ∈ st_semantics) : RawShape (storeDef s sz e) := by
  have h1 : "(_CUDA_A __ptr, _CUDA_B __src) \x7b "
      = "(_CUDA_A __ptr, _CUDA_B __src) " ++ ("\x7b" ++ " ") := by decide
  have h2 : "\" :: " = "\"" ++ " :: " := by decide
  have h3 : " : \"memory\"); \x7d\n" = " : \"memory\"" ++ (");" ++ " \x7d\n") := by decide
  have h4 : " [%0], %1;" = " [%0], %1" ++ ";" := by decide
  have h5 : ∀ s ∈ scopes, plain s.1 = true ∧ plain s.2 = true := by decide
  have h6 : ∀ e ∈ st_semantics, plain e.1 = true ∧ plain e.2 = true := by decide
  have h7 : ∀ sz ∈ st_sizes, plain (toString sz) = true := by decide
  refine ⟨"template<class _CUDA_A, class _CUDA_B> " ++ "static inline _LIBCUDACXX_DEVICE void "
      ++ (Prim.store e.1 sz s.1).name ++ "(_CUDA_A __ptr, _CUDA_B __src) ", " ",
    " :: " ++ "\"l\"(__ptr),\"" ++ registers "b" sz ++ "\"(__src)" ++ " : \"memory\"",
    "st" ++ e.2 ++ (if e.1 = "volatile" then "" else s.2) ++ ".b" ++ toString sz ++ " [%0], %1",
    ?_, ?_, Or.inr rfl, ?_, ?_, ?_⟩
  · simp only [storeDef, asmBody_nil, h1, h2, h3, String.append_assoc]
  · simp only [Prim.name, plain_append, (h5 s hs).1, (h6 e he).1, h7 sz hz, Bool.and_true,
      Bool.true_and]
    decide
  · simp only [plain_append, plain_registers, Bool.and_true, Bool.true_and]
    decide
  · simp only [storeDef, h4, String.append_assoc]
  · by_cases hv : e.1 = "volatile" <;>
      simp only [hv, ↓reduceIte, plain_append, (h5 s hs).2, (h6 e he).2, h7 sz hz,
        Bool.and_true, Bool.true_and] <;> decide

theorem rmwDef_shape {s : String × String} (hs : s ∈ scopes)
    {g : Nat × (String × String) × (String × String)}
    (hg : g ∈ rmwGroupsOfSize 32 ++ rmwGroupsOfSize 64) {e : String × String}
    (he : e ∈ rmw_semantics) : RawShape (rmwDef s g.1 g.2.1 g.2.2 e) := by
  have h1 : ") \x7b " = ") " ++ ("\x7b" ++ " ") := by decide
  have h2 : "\" : " = "\"" ++ " : " := by decide
  have h3 : " : \"memory\");" = " : \"memory\"" ++ ");" := by decide
  have h5 : ∀ s ∈ scopes, plain s.1 = true ∧ plain s.2 = true := by decide
  have h6 : ∀ e ∈ rmw_semantics, plain e.1 = true ∧ plain e.2 = true := by decide
  have h7 : ∀ g ∈ rmwGroupsOfSize 32 ++ rmwGroupsOfSize 64,
      plain g.2.1.1 = true ∧ plain g.2.1.2 = true ∧ plain g.2.2.1 = true
        ∧ plain g.2.2.2 = true ∧ plain (toString g.1) = true := by decide
  obtain ⟨p1, p2, p3, p4, p5⟩ := h7 g hg
  refine ⟨(if g.2.1.1 = "compare_exchange" then
        "template<class _CUDA_A, class _CUDA_B, class _CUDA_C, class _CUDA_D> "
       else "template<class _CUDA_A, class _CUDA_B, class _CUDA_C> ")
      ++ "static inline _LIBCUDACXX_DEVICE void "
      ++ (Prim.rmw g.2.1.1 e.1 g.2.2.1 g.1 s.1).name ++ "("
      ++ (if g.2.1.1 = "compare_exchange" then
            "_CUDA_A __ptr, _CUDA_B& __dst, _CUDA_C __cmp, _CUDA_D __op"
          else "_CUDA_A __ptr, _CUDA_B& __dst, _CUDA_C __op")
      ++ ") ", " ",
    " : " ++ (if g.2.1.1 = "compare_exchange" then
          "\"=" ++ registers g.2.2.1 g.1 ++ "\"(__dst) : \"l\"(__ptr),\"" ++ registers g.2.2.1 g.1
            ++ "\"(__cmp),\"" ++ registers g.2.2.1 g.1 ++ "\"(__op)"
        else
          "\"=" ++ registers g.2.2.1 g.1 ++ "\"(__dst) : \"l\"(__ptr),\"" ++ registers g.2.2.1 g.1
            ++ "\"(__op)")
      ++ " : \"memory\"",
    "atom" ++ g.2.1.2 ++ e.2 ++ s.2 ++ g.2.2.2 ++ toString g.1 ++ " "
      ++ (if g.2.1.1 = "compare_exchange" then "%0,[%1],%2,%3" else "%0,[%1],%2"),
    ?_, ?_, Or.inr rfl, ?_, ?_, ?_⟩
  · by_cases hf : g.2.1.1 = "fetch_sub"
    · simp only [rmwDef, rmwBody, rmwAsm, hf, ↓reduceIte, asmBody_neg, h1, h2, h3,
        String.append_assoc]
    · simp only [rmwDef, rmwBody, rmwAsm, hf, ↓reduceIte, asmBody_nil, h1, h2, h3,
        String.append_assoc, String.empty_append]
  · by_cases hc : g.2.1.1 = "compare_exchange" <;>
      simp only [hc, ↓reduceIte, Prim.name, plain_append, (h5 s hs).1, (h6 e he).1, p1, p3, p5,
        Bool.and_true, Bool.true_and] <;> decide
  · by_cases hc : g.2.1.1 = "compare_exchange" <;>
      simp only [hc, ↓reduceIte, plain_append, plain_registers, Bool.and_true, Bool.true_and]
        <;> decide
  · simp only [rmwDef, rmwInstr, String.append_assoc]
  · by_cases hc : g.2.1.1 = "compare_exchange" <;>
      simp only [hc, ↓reduceIte, plain_append, (h5 s hs).2, (h6 e he).2, p2, p4, p5,
        Bool.and_true, Bool.true_and] <;> decide

/-- Every emitted raw primitive has the shape `RawShape`. -/
theorem rawDef_shape {d : RawDef} (hd : d ∈ rawDefs) : RawShape d := by
  obtain ⟨s, hs, h⟩ := rawDef_layout_cases hd
  rcases h with rfl | ⟨e, he, rfl⟩ | ⟨sz, hz, e, he, rfl⟩ | ⟨sz, hz, e, he, rfl⟩ |
    ⟨g, hg, e, he, rfl⟩
  · exact membarDef_shape hs
  · exact fenceDef_shape hs he
  · exact loadDef_shape hs hz he
  · exact storeDef_shape hs hz he
  · exact rmwDef_shape hs hg he

/-- The statement before the `asm` statement: none, except the negation of the
operand in the fetch_sub primitives. -/
theorem rawDef_pre {d : RawDef} (hd : d ∈ rawDefs) :
    (d.pre = [] ∨ d.pre = ["__op = -__op;"])
    ∧ (d.pre = ["__op = -__op;"] ↔
        ∃ sem type sz scope, d.prim = .rmw "fetch_sub" sem type sz scope) := by
  obtain ⟨s, hs, h⟩ := rawDef_layout_cases hd
  rcases h with rfl | ⟨e, he, rfl⟩ | ⟨sz, hz, e, he, rfl⟩ | ⟨sz, hz, e, he, rfl⟩ |
    ⟨g, hg, e, he, rfl⟩
  · simp [membarDef]
  · simp [fenceDef]
  · simp [loadDef]
  · simp [storeDef]
  · by_cases hf : g.2.1.1 = "fetch_sub" <;> simp [rmwDef, hf]

set_option maxRecDepth 100000 in
theorem fetch_sub_text :
    (rmwDef ("block", ".cta") 32 ("fetch_sub", ".add") ("u", ".u") ("relaxed", ".relaxed")).text
      = "template<class _CUDA_A, class _CUDA_B, class _CUDA_C> "
        ++ "static inline _LIBCUDACXX_DEVICE void "
        ++ "__cuda_fetch_sub_relaxed_u32_block(_CUDA_A __ptr, _CUDA_B& __dst, _CUDA_C __op) "
        ++ "\x7b __op = -__op;\n"
        ++ "asm volatile(\"atom.add.relaxed.cta.u32 %0,[%1],%2;\" : "
        ++ "\"=r\"(__dst) : \"l\"(__ptr),\"r\"(__op) : \"memory\"); \x7d\n" := by
  decide

set_option maxRecDepth 100000 in
theorem membar_device_text :
    (membarDef ("device", ".gpu")).text
      = "static inline _LIBCUDACXX_DEVICE void __cuda_membar_device() "
        ++ "\x7b asm volatile(\"membar.gl;\":::\"memory\"); \x7d\n" := by
  decide

/-- C25: every raw primitive issues exactly one instruction. The text of every
emitted raw primitive (membar, fence, load, store, read-modify-write) is a
signature, the opening brace, the statements of `pre` and one `asm volatile`
statement, and the closing brace; the template of that statement is one
instruction text without semicolon followed by one `;`, and its operand text
holds no semicolon. The statements of `pre` are none, except the one negation
`__op = -__op;` in exactly the fetch_sub primitives. No raw primitive calls a
function: the only word its body applies to a parenthesis is the `volatile` of
`asm volatile(`. -/
theorem C25_one_instruction_per_primitive :
    (∀ d ∈ rawDefs,
        (∃ sig pad ops i,
          d.text = sig ++ ("\x7b" ++ (pad ++ (asmBody d.pre d.instr ops ++ " \x7d\n")))
          ∧ plain sig = true ∧ (pad = "" ∨ pad = " ") ∧ plain ops = true
          ∧ d.instr = i ++ ";" ∧ plain i = true)
        ∧ (d.pre = [] ∨ d.pre = ["__op = -__op;"])
        ∧ (d.pre = ["__op = -__op;"] ↔
            ∃ sem type sz scope, d.prim = .rmw "fetch_sub" sem type sz scope)
        ∧ (∀ w ∈ words (codes d.text), w.next = 40 → w.inBody = true →
            w.word = codes "volatile"))
    ∧ (rmwDef ("block", ".cta") 32 ("fetch_sub", ".add") ("u", ".u") ("relaxed", ".relaxed")).text
        = "template<class _CUDA_A, class _CUDA_B, class _CUDA_C> "
          ++ "static inline _LIBCUDACXX_DEVICE void "
          ++ "__cuda_fetch_sub_relaxed_u32_block(_CUDA_A __ptr, _CUDA_B& __dst, _CUDA_C __op) "
          ++ "\x7b __op = -__op;\n"
          ++ "asm volatile(\"atom.add.relaxed.cta.u32 %0,[%1],%2;\" : "
          ++ "\"=r\"(__dst) : \"l\"(__ptr),\"r\"(__op) : \"memory\"); \x7d\n"
    ∧ (membarDef ("device", ".gpu")).text
        = "static inline _LIBCUDACXX_DEVICE void __cuda_membar_device() "
          ++ "\x7b asm volatile(\"membar.gl;\":::\"memory\"); \x7d\n" := by
  refine ⟨fun d hd => ⟨rawDef_shape hd, (rawDef_pre hd).1, (rawDef_pre hd).2, ?_⟩,
    fetch_sub_text, membar_device_text⟩
  intro w hw h1 h2
  have hi : Item.raw d ∈ items := by
    obtain ⟨s, hs, h⟩ := rawDef_mem_scopeItems hd
    exact List.mem_flatMap.2 ⟨s, hs, h⟩
  have hk := List.all_eq_true.1 (of_coded straightLine coded_straightLine hi) w hw
  simp only [wordOk, Bool.and_eq_true, Bool.not_eq_true', Bool.or_eq_true, beq_iff_eq,
    Bool.and_eq_false_imp] at hk
  rcases hk.1.2 with h4 | h4
  · exact absurd h2 (by simpa using h4 h1)
  · simpa [appliedOk] using h4

/-! ### Definition before use -/

theorem definedBefore_spec : ∀ (l : List Item) (seen : List Prim),
    definedBefore seen l = true → ∀ (pre post : List Item) (d : Dispatcher),
    l = pre ++ Item.disp d :: post →
    ∀ p ∈ d.calls, p ∈ seen ∨ ∃ r, Item.raw r ∈ pre ∧ r.prim = p := by
  intro l
  induction l with
  | nil =>
    intro seen _ pre post d h
    simp at h
  | cons i rest ih =>
    intro seen hb pre post d h p hp
    cases i with
    | raw r =>
      rw [definedBefore] at hb
      cases pre with
      | nil => simp at h
      | cons i0 pre0 =>
        rw [List.cons_append, List.cons.injEq] at h
        obtain ⟨h1, h2⟩ := h
        subst h1
        rcases ih _ hb pre0 post d h2 p hp with h3 | ⟨r0, h3, h4⟩
        · rcases List.mem_cons.1 h3 with h5 | h5
          · exact Or.inr ⟨r, List.mem_cons_self _ _, h5.symm⟩
          · exact Or.inl h5
        · exact Or.inr ⟨r0, List.mem_cons_of_mem _ h3, h4⟩
    | disp d0 =>
      rw [definedBefore, Bool.and_eq_true] at hb
      cases pre with
      | nil =>
        rw [List.nil_append, List.cons.injEq, Item.disp.injEq] at h
        obtain ⟨h1, _⟩ := h
        subst h1
        have h3 := List.all_eq_true.1 hb.1 p hp
        rw [List.contains, List.elem_eq_mem, decide_eq_true_eq] at h3
        exact Or.inl h3
      | cons i0 pre0 =>
        rw [List.cons_append, List.cons.injEq] at h
        obtain ⟨h1, h2⟩ := h
        subst h1
        rcases ih _ hb.2 pre0 post d h2 p hp with h3 | ⟨r0, h3, h4⟩
        · exact Or.inl h3
        · exact Or.inr ⟨r0, List.mem_cons_of_mem _ h3, h4⟩

set_option maxRecDepth 1000000 in
theorem scopeItems_definedBefore : ∀ s ∈ scopes, definedBefore [] (scopeItems s) = true := by
  decide!

theorem externalNames_not_cuda :
    ∀ n ∈ externalNames, (codes "__cuda_").isPrefixOf n = false := by
  decide

theorem ptrDispatcher_calls (s : String × String) (cv op : String) :
    ∀ p ∈ (ptrDispatcher s cv op).calls, p = .membar s.1 ∨ p = .fence "sc" s.1
      ∨ ∃ e ∈ rmw_semantics, p = .rmw "fetch_add" e.1 "u" 64 s.1 := by
  intro p hp
  rw [rmw_semantics_eq]
  simp only [Dispatcher.calls, ptrDispatcher, ptrSwitchSM70, ptrSwitchDevice, Line.calls,
    List.cons_append, List.nil_append, List.flatMap_cons, List.flatMap_nil, List.filterMap_cons,
    List.filterMap_nil, Stmt.callee?, List.append_nil, List.mem_cons, List.mem_append,
    List.not_mem_nil, or_false, false_or] at hp
  simp only [List.mem_cons, List.not_mem_nil, or_false, exists_eq_or_imp, exists_eq_left]
  tauto

theorem casDispatcher_calls (s t : String × String) (sz : Nat) (cv : String) :
    (∀ p ∈ (casDispatcher s sz t cv).calls, p = .membar s.1 ∨ p = .fence "sc" s.1
      ∨ ∃ e ∈ rmw_semantics, p = .rmw "compare_exchange" e.1 t.1 sz s.1)
    ∧ ∀ e ∈ rmw_semantics, Prim.rmw "compare_exchange" e.1 t.1 sz s.1
        ∈ (casDispatcher s sz t cv).calls := by
  rw [rmw_semantics_eq]
  constructor
  · intro p hp
    simp only [Dispatcher.calls, casDispatcher, casSwitchSM70, casSwitchDevice, Line.calls,
      List.cons_append, List.nil_append, List.flatMap_cons, List.flatMap_nil,
      List.filterMap_cons, List.filterMap_nil, Stmt.callee?, List.append_nil, List.mem_cons,
      List.mem_append, List.not_mem_nil, or_false, false_or] at hp
    simp only [List.mem_cons, List.not_mem_nil, or_false, exists_eq_or_imp, exists_eq_left]
    tauto
  · intro e he
    simp only [List.mem_cons, List.not_mem_nil, or_false] at he
    simp only [Dispatcher.calls, casDispatcher, casSwitchSM70, casSwitchDevice, Line.calls,
      List.cons_append, List.nil_append, List.flatMap_cons, List.flatMap_nil,
      List.filterMap_cons, List.filterMap_nil, Stmt.callee?, List.append_nil, List.mem_cons,
      List.mem_append, List.not_mem_nil, or_false, false_or]
    rcases he with rfl | rfl | rfl | rfl | rfl <;> simp

/-- C26: every primitive a dispatcher calls is defined before it. For every
public dispatcher of a scope section, every raw primitive it calls (in either
tier and any switch arm) is defined by an item standing earlier in the same
section, and every name beginning with `__cuda_` that its text applies is the
name of such an earlier raw primitive; the text of every raw primitive defines
a function under the primitive's name. In particular the pointer dispatchers
call, besides the barrier and the fence, only `__cuda_fetch_add_<order>_u64_<scope>`,
each compare_exchange dispatcher calls its four order-tagged primitives and the
volatile one, and these primitives are emitted. -/
theorem C26_defined_before_use :
    (∀ s ∈ scopes, ∀ (pre post : List Item) (d : Dispatcher),
        scopeItems s = pre ++ Item.disp d :: post →
        (∀ p ∈ d.calls, ∃ r, Item.raw r ∈ pre ∧ r.prim = p ∧ r ∈ rawDefs)
        ∧ (∀ w ∈ words (codes d.text), w.next = 40 → w.inBody = true →
            (codes "__cuda_").isPrefixOf w.word = true →
            ∃ r, Item.raw r ∈ pre ∧ r ∈ rawDefs ∧ w.word = codes r.prim.name))
    ∧ (∀ r ∈ rawDefs, ∃ a b, r.text = a ++ ("void " ++ r.prim.name ++ "(") ++ b)
    ∧ (∀ (s : String × String) (cv op : String), ∀ p ∈ (ptrDispatcher s cv op).calls,
        p = .membar s.1 ∨ p = .fence "sc" s.1
          ∨ ∃ e ∈ rmw_semantics, p = .rmw "fetch_add" e.1 "u" 64 s.1)
    ∧ (∀ (s t : String × String) (sz : Nat) (cv : String), ∀ e ∈ rmw_semantics,
        Prim.rmw "compare_exchange" e.1 t.1 sz s.1 ∈ (casDispatcher s sz t cv).calls)
    ∧ (∀ s ∈ scopes, ∀ e ∈ rmw_semantics,
        Prim.rmw "fetch_add" e.1 "u" 64 s.1 ∈ emittedPrims
        ∧ ∀ sz ∈ rmw_sizes, Prim.rmw "compare_exchange" e.1 "" sz s.1 ∈ emittedPrims) := by
  have hcalls : ∀ s ∈ scopes, ∀ (pre post : List Item) (d : Dispatcher),
      scopeItems s = pre ++ Item.disp d :: post →
      ∀ p ∈ d.calls, ∃ r, Item.raw r ∈ pre ∧ r.prim = p ∧ r ∈ rawDefs := by
    intro s hs pre post d h p hp
    rcases definedBefore_spec _ _ (scopeItems_definedBefore s hs) pre post d h p hp with h1 | h1
    · simp at h1
    · obtain ⟨r, h2, h3⟩ := h1
      refine ⟨r, h2, h3, rawDef_of_mem_scopeItems hs ?_⟩
      rw [h]
      exact List.mem_append_left _ h2
  refine ⟨?_, fun r hr => rawDef_defines_name hr, ptrDispatcher_calls, ?_, ?_⟩
  · intro s hs pre post d h
    refine ⟨hcalls s hs pre post d h, ?_⟩
    intro w hw h1 h2 h3
    have hi : Item.disp d ∈ items :=
      List.mem_flatMap.2 ⟨s, hs, by rw [h]; exact List.mem_append_right _ (List.mem_cons_self _ _)⟩
    have hk := List.all_eq_true.1 (of_coded straightLine coded_straightLine hi) w hw
    simp only [wordOk, Bool.and_eq_true, Bool.not_eq_true', Bool.or_eq_true, beq_iff_eq,
      Bool.and_eq_false_imp] at hk
    have ha : appliedOk (Item.disp d) w.word = true := by
      rcases hk.1.2 with h4 | h4
      · exact absurd h2 (by simpa using h4 h1)
      · exact h4
    simp only [appliedOk, Bool.or_eq_true, List.contains, List.elem_eq_mem, decide_eq_true_eq,
      List.mem_map] at ha
    rcases ha with h4 | ⟨p, hp, hn⟩
    · rw [externalNames_not_cuda _ h4] at h3
      exact absurd h3 (by simp)
    · obtain ⟨r, h5, h6, h7⟩ := hcalls s hs pre post d h p hp
      exact ⟨r, h5, h7, by rw [h6, ← hn, nameCodes_eq]⟩
  · intro s t sz cv
    exact (casDispatcher_calls s t sz cv).2
  · intro s hs e he
    refine ⟨(rmw_mem_emittedPrims hs (by decide) he "fetch_add" "u").2 (by decide), ?_⟩
    intro sz hsz
    exact (rmw_mem_emittedPrims hs hsz he "compare_exchange" "").2 (by decide)

/-! ### The fence dispatcher and the orders outside an operation's domain -/

/-- C27: the public fence dispatcher of every scope. In the
`NV_PROVIDES_SM_70` branch `__atomic_thread_fence_cuda` executes exactly the
one call `__cuda_fence_sc_<scope>()` for seq_cst, exactly the one call
`__cuda_fence_acq_rel_<scope>()` for each of consume, acquire, acq_rel and
release, and nothing for relaxed; in the `NV_IS_DEVICE` branch it executes
exactly the one call `__cuda_membar_<scope>()` for each of seq_cst, consume,
acquire, acq_rel and release, and nothing for relaxed. The dispatcher of each
scope of the table is emitted under that name. -/
theorem C27_fence_dispatcher_mapping (s : String × String) :
    (fenceDispatcher s).name = "__atomic_thread_fence_cuda"
    ∧ (fenceDispatcher s).run .sm70 .seq_cst = [.call (.fence "sc" s.1) []]
    ∧ (∀ o ∈ [MemOrder.consume, .acquire, .acq_rel, .release],
        (fenceDispatcher s).run .sm70 o = [.call (.fence "acq_rel" s.1) []])
    ∧ (fenceDispatcher s).run .sm70 .relaxed = []
    ∧ (∀ o ∈ [MemOrder.seq_cst, .consume, .acquire, .acq_rel, .release],
        (fenceDispatcher s).run .device o = [.call (.membar s.1) []])
    ∧ (fenceDispatcher s).run .device .relaxed = []
    ∧ (Stmt.call (.fence "sc" s.1) []).render = "__cuda_fence_sc_" ++ s.1 ++ "();"
    ∧ (Stmt.call (.fence "acq_rel" s.1) []).render = "__cuda_fence_acq_rel_" ++ s.1 ++ "();"
    ∧ (Stmt.call (.membar s.1) []).render = "__cuda_membar_" ++ s.1 ++ "();"
    ∧ (s ∈ scopes → fenceDispatcher s ∈ dispatchers) := by
  have hcall : ∀ a : String, a ++ "(" ++ ", ".intercalate [] ++ ");" = a ++ "();" := by
    intro a
    rw [show ", ".intercalate [] = "" from rfl, String.append_empty, String.append_assoc]
    rfl
  refine ⟨rfl, rfl, ?_, rfl, ?_, rfl, ?_, ?_, ?_, ?_⟩
  · intro o ho
    simp only [List.mem_cons, List.mem_singleton, List.not_mem_nil, or_false] at ho
    rcases ho with rfl | rfl | rfl | rfl <;> rfl
  · intro o ho
    simp only [List.mem_cons, List.mem_singleton, List.not_mem_nil, or_false] at ho
    rcases ho with rfl | rfl | rfl | rfl | rfl <;> rfl
  · simp only [Stmt.render, Prim.name, fencename, hcall]
    rw [show "__cuda_fence_" ++ "sc" ++ "_" = "__cuda_fence_sc_" from by decide]
  · simp only [Stmt.render, Prim.name, fencename, hcall]
    rw [show "__cuda_fence_" ++ "acq_rel" ++ "_" = "__cuda_fence_acq_rel_" from by decide]
  · simp only [Stmt.render, Prim.name, hcall]
  · intro hs
    rw [mem_dispatchers_iff]
    exact ⟨s, hs, by simp [scopeItems]⟩

/-- C28: orders outside an operation's domain are rejected. For every scope and
size, in both tiers, `__atomic_load_cuda` called with release or acq_rel and
`__atomic_store_cuda` called with consume, acquire or acq_rel find no `case`
label, enter at `default:` and execute `assert(0)` and nothing else: no fence,
no barrier and no load or store primitive. -/
theorem C28_foreign_orders_rejected (s : String × String) (sz : Nat) (cv : String) (t : Tier) :
    (∀ o ∈ [MemOrder.release, .acq_rel],
        fromCase o.toInt ((loadDispatcher s sz cv).switch t) = none
        ∧ fromDefault ((loadDispatcher s sz cv).switch t) = some [defaultLine]
        ∧ (loadDispatcher s sz cv).run t o = [.assert0]
        ∧ ((loadDispatcher s sz cv).run t o).filterMap Stmt.callee? = [])
    ∧ (∀ o ∈ [MemOrder.consume, .acquire, .acq_rel],
        fromCase o.toInt ((storeDispatcher s sz cv).switch t) = none
        ∧ fromDefault ((storeDispatcher s sz cv).switch t) = some [defaultLine]
        ∧ (storeDispatcher s sz cv).run t o = [.assert0]
        ∧ ((storeDispatcher s sz cv).run t o).filterMap Stmt.callee? = []) := by
  constructor
  · intro o ho
    simp only [List.mem_cons, List.mem_singleton, List.not_mem_nil, or_false] at ho
    rcases ho with rfl | rfl <;> cases t <;> exact ⟨rfl, rfl, rfl, rfl⟩
  · intro o ho
    simp only [List.mem_cons, List.mem_singleton, List.not_mem_nil, or_false] at ho
    rcases ho with rfl | rfl | rfl <;> cases t <;> exact ⟨rfl, rfl, rfl, rfl⟩

/-! ### The instruction of the read-modify-write primitives -/

theorem rmwGroups_suffixes : ∀ g ∈ rmwGroupsOfSize 32 ++ rmwGroupsOfSize 64,
    mnemonic g.2.1.1 = g.2.1.2 ∧ typeSuffix g.2.2.1 = g.2.2.2 ∧ (g.1 = 32 ∨ g.1 = 64) := by
  decide

theorem rmw_semantics_qualifier : ∀ e ∈ rmw_semantics, orderQualifier e.1 = e.2 := by
  decide

theorem scopes_suffix : ∀ s ∈ scopes, scopeSuffix s.1 = s.2 := by
  decide

/-- C29: the instruction text of the raw read-modify-write primitives. For
every emitted raw primitive `__cuda_<op>_<order>_<type><size>_<scope>` the
instruction is `atom`, the mnemonic of the operation, the qualifier of the
order, the scope suffix, the type suffix and the size, followed by a blank,
the operand list and `;`. The mnemonics are `.exch`, `.cas`, `.and`, `.or`,
`.xor`, `.add` (for fetch_add and for fetch_sub), `.max`, `.min`; the type
suffixes `.b`, `.u`, `.s`, `.f`; the qualifier of `volatile` is empty while the
scope suffix stays; compare_exchange takes `%0,[%1],%2,%3` and every other
operation `%0,[%1],%2`. The primitive
`__cuda_compare_exchange_acq_rel_64_device` is emitted and issues
`atom.cas.acq_rel.gpu.b64`, and `__cuda_fetch_max_volatile_s32_block` is
emitted and issues `atom.max.cta.s32`. -/
theorem C29_rmw_instruction_text :
    (∀ d ∈ rawDefs, ∀ (op sem type scope : String) (sz : Nat),
        d.prim = .rmw op sem type sz scope →
        d.prim.name = "__cuda_" ++ op ++ "_" ++ sem ++ "_" ++ type ++ toString sz ++ "_" ++ scope
        ∧ d.instr = rmwOpcode op sem type sz scope ++ " " ++ operandList op ++ ";")
    ∧ (rmw_operations.flatMap fun c => c.2.map fun r => (r.1, mnemonic r.1))
        = [("fetch_add", ".add"), ("fetch_max", ".max"), ("fetch_min", ".min"),
           ("fetch_sub", ".add"), ("compare_exchange", ".cas"), ("exchange", ".exch"),
           ("fetch_and", ".and"), ("fetch_or", ".or"), ("fetch_xor", ".xor")]
    ∧ (rmw_types.flatMap fun c => c.2.map fun t => (t.1, typeSuffix t.1))
        = [("f", ".f"), ("s", ".s"), ("u", ".u"), ("", ".b")]
    ∧ (∀ (op type scope : String) (sz : Nat),
        rmwOpcode op "volatile" type sz scope
          = "atom" ++ mnemonic op ++ "" ++ scopeSuffix scope ++ typeSuffix type ++ toString sz)
    ∧ operandList "compare_exchange" = "%0,[%1],%2,%3"
    ∧ (∀ op, op ≠ "compare_exchange" → operandList op = "%0,[%1],%2")
    ∧ (∃ d ∈ rawDefs, d.prim = .rmw "compare_exchange" "acq_rel" "" 64 "device"
        ∧ d.prim.name = "__cuda_compare_exchange_acq_rel_64_device"
        ∧ rmwOpcode "compare_exchange" "acq_rel" "" 64 "device" = "atom.cas.acq_rel.gpu.b64"
        ∧ d.instr = "atom.cas.acq_rel.gpu.b64 %0,[%1],%2,%3;")
    ∧ (∃ d ∈ rawDefs, d.prim = .rmw "fetch_max" "volatile" "s" 32 "block"
        ∧ d.prim.name = "__cuda_fetch_max_volatile_s32_block"
        ∧ rmwOpcode "fetch_max" "volatile" "s" 32 "block" = "atom.max.cta.s32"
        ∧ d.instr = "atom.max.cta.s32 %0,[%1],%2;") := by
  refine ⟨?_, by decide, by decide, fun _ _ _ _ => rfl, by decide, ?_, ?_, ?_⟩
  · intro d hd op sem type scope sz hp
    refine ⟨by rw [hp]; rfl, ?_⟩
    obtain ⟨s, hs, g, hg, e, he, rfl⟩ := rmw_rawDef_cases hd hp
    simp only [rmwDef, Prim.rmw.injEq] at hp
    obtain ⟨rfl, rfl, rfl, rfl, rfl⟩ := hp
    obtain ⟨h1, h2, _⟩ := rmwGroups_suffixes g hg
    simp only [rmwDef, rmwInstr, rmwOpcode, operandList, h1, h2, rmw_semantics_qualifier e he,
      scopes_suffix s hs]
  · intro op h
    simp [operandList, h]
  · refine ⟨rmwDef ("device", ".gpu") 64 ("compare_exchange", ".cas") ("", ".b")
      ("acq_rel", ".acq_rel"), ?_, rfl, by decide, by decide, by decide⟩
    apply rawDef_of_mem_scopeItems (show ("device", ".gpu") ∈ scopes by decide)
    exact @rmwDef_mem_scopeItems _ _ (by decide) "bitwise" (by decide) _ (by decide) _ (by decide)
      (by decide) _ (by decide)
  · refine ⟨rmwDef ("block", ".cta") 32 ("fetch_max", ".max") ("s", ".s") ("volatile", ""),
      ?_, rfl, by decide, by decide, by decide⟩
    apply rawDef_of_mem_scopeItems (show ("block", ".cta") ∈ scopes by decide)
    exact @rmwDef_mem_scopeItems _ _ (by decide) "arithmetic" (by decide) _ (by decide) _ (by decide)
      (by decide) _ (by decide)

/-! ### Overload conditions -/

theorem conflicts_sound {a b : Atom} (h : a.conflicts b = true) {t : TypeFacts}
    (ht : t.consistent = true) : ¬(a.holds t = true ∧ b.holds t = true) := by
  simp only [TypeFacts.consistent, Bool.and_eq_true, Bool.not_eq_true', Bool.and_eq_false_imp]
    at ht
  rintro ⟨h1, h2⟩
  cases a <;> cases b <;> simp only [Atom.conflicts, Atom.holds, bne_iff_ne, ne_eq,
    beq_iff_eq, Bool.false_eq_true] at h h1 h2
  · exact h (h1.symm.trans h2)
  · simp [ht.1 h1] at h2
  · have := ht.1 h2; simp [this] at h1
  · simp [ht.2 h1] at h2
  · have := ht.2 h2; simp [this] at h1

theorem exclusive_sound {c1 c2 : List Atom} (h : exclusive c1 c2 = true) {t : TypeFacts}
    (ht : t.consistent = true) : ¬(satisfies t c1 = true ∧ satisfies t c2 = true) := by
  simp only [exclusive, List.any_eq_true] at h
  obtain ⟨a, ha, b, hb, hab⟩ := h
  rintro ⟨h1, h2⟩
  exact conflicts_sound hab ht
    ⟨List.all_eq_true.1 h1 a ha, List.all_eq_true.1 h2 b hb⟩

theorem allApart_pairwise : ∀ l : List (String × Option (List Atom)),
    allApart l = true → l.Pairwise fun x y => apart x y = true := by
  intro l
  induction l with
  | nil => intro _; exact List.Pairwise.nil
  | cons x xs ih =>
    intro h
    rw [allApart, Bool.and_eq_true] at h
    exact List.Pairwise.cons (fun y hy => List.all_eq_true.1 h.1 y hy) (ih h.2)

theorem conditions_map (l : List Item) :
    conditions (l.map fun i => (i, codes i.text))
      = (l.filterMap Item.dispatcher?).map fun d => (d.name, enableIf (codes d.text)) := by
  induction l with
  | nil => rfl
  | cons i l ih =>
    cases i with
    | raw r =>
      simp only [conditions, List.map_cons, List.filterMap_cons, Item.dispatcher?] at ih ⊢
      exact ih
    | disp d =>
      simp only [conditions, List.map_cons, List.filterMap_cons, Item.dispatcher?,
        text_disp] at ih ⊢
      rw [ih]

set_option maxRecDepth 1000000 in
theorem conditions_block : conditions (sectionCoded ("block", ".cta")) = overloadConditions := by
  decide!

set_option maxRecDepth 1000000 in
theorem conditions_device : conditions (sectionCoded ("device", ".gpu")) = overloadConditions := by
  decide!

set_option maxRecDepth 1000000 in
theorem conditions_system : conditions (sectionCoded ("system", ".sys")) = overloadConditions := by
  decide!

theorem sectionCoded_conditions :
    ∀ s ∈ scopes, conditions (sectionCoded s) = overloadConditions :=
  forall_scopes conditions_block conditions_device conditions_system

theorem overloadConditions_apart : allApart overloadConditions = true := by
  decide

/-- C30: the overloads of one public name never overlap. In every scope
section the public names carry, in output order, the `enable_if` conditions of
`overloadConditions` (every entry point taking a pointer to `_Type` carries
one; the fence dispatcher and the two pointer dispatchers, which take
`_Type *volatile *`, carry none), and any two different overloads of one name
that carry a condition exclude each other: a type whose traits are consistent
(`is_integral` and `is_floating_point` disjoint, `is_signed` and `is_unsigned`
disjoint) does not satisfy both conditions. -/
theorem C30_overloads_exclusive :
    (∀ s ∈ scopes,
        ((scopeDispatchers s).map fun d => (d.name, enableIf (codes d.text)))
          = overloadConditions)
    ∧ (∀ s ∈ scopes, (scopeDispatchers s).Pairwise fun d1 d2 =>
        d1.name = d2.name →
        ∀ c1 c2, enableIf (codes d1.text) = some c1 → enableIf (codes d2.text) = some c2 →
        ∀ t : TypeFacts, t.consistent = true →
          ¬(satisfies t c1 = true ∧ satisfies t c2 = true))
    ∧ (∀ (s : String × String) (cv op : String), ∃ rest,
        (ptrDispatcher s cv op).text
          = "template<class _Type>\n" ++ "_LIBCUDACXX_DEVICE _Type* __atomic_fetch_" ++ op
              ++ "_cuda(_Type *" ++ cv ++ "*__ptr, ptrdiff_t __val, int __memorder, " ++ rest) := by
  have hmap : ∀ s ∈ scopes,
      ((scopeDispatchers s).map fun d => (d.name, enableIf (codes d.text)))
        = overloadConditions := by
    intro s hs
    rw [← sectionCoded_conditions s hs, sectionCoded_eq, conditions_map]
    rfl
  refine ⟨hmap, ?_, ?_⟩
  · intro s hs
    have h := allApart_pairwise _ overloadConditions_apart
    rw [← hmap s hs, List.pairwise_map] at h
    refine h.imp ?_
    intro d1 d2 hap hn c1 c2 h1 h2 t ht
    simp only [apart, h1, h2, hn, bne_self_eq_false, Bool.false_or] at hap
    exact exclusive_sound hap ht
  · intro s cv op
    simp only [ptrDispatcher, String.append_assoc]
    exact ⟨_, rfl⟩

end Codegen

namespace CommonType

/-! ### The variadic trait as a fold -/

theorem foldl_empty {Ty : Type} [DecidableEq Ty] (L : Lang Ty) (n : Nat) (l : List Ty) :
    l.foldl (foldStep L n) .empty = .empty := by
  induction l with
  | nil => rfl
  | cons V l ih => simpa [List.foldl_cons, foldStep] using ih

theorem foldl_unfinished {Ty : Type} [DecidableEq Ty] (L : Lang Ty) (n : Nat) (l : List Ty) :
    l.foldl (foldStep L n) .unfinished = .unfinished := by
  induction l with
  | nil => rfl
  | cons V l ih => simpa [List.foldl_cons, foldStep] using ih

/-- The class `__common_type_impl` is the left fold of the two-argument trait
over the arguments after the second. -/
theorem impl_eq_foldl {Ty : Type} [DecidableEq Ty] (L : Lang Ty) (n : Nat) (Rest : List Ty) :
    ∀ T U, __common_type_impl L n T U Rest = Rest.foldl (foldStep L n) (common_type2 L n T U) := by
  induction Rest with
  | nil => intro T U; rfl
  | cons V Rest ih =>
    intro T U
    rw [__common_type_impl, List.foldl_cons]
    cases h : common_type2 L n T U with
    | unfinished => simp [foldStep, foldl_unfinished]
    | empty => simp [foldStep, foldl_empty]
    | member C => simpa [foldStep] using ih C V

/-- With three or more arguments the trait is `__common_type_impl` of the
three-or-more list, also when that list is reached from a shorter head. -/
theorem common_type_cons_cons {Ty : Type} [DecidableEq Ty] (L : Lang Ty) (n : Nat) (T U : Ty)
    (Rest : List Ty) : common_type L n (T :: U :: Rest) = __common_type_impl L n T U Rest := by
  cases Rest <;> rfl

theorem ofOption_ne_unfinished {Ty : Type} (o : Option Ty) : Inst.ofOption o ≠ .unfinished := by
  cases o <;> simp [Inst.ofOption]

/-- One nested instantiation suffices for the two-argument trait when decay is
idempotent: the class derives from `__common_type2_imp` of the decayed
arguments. -/
theorem common_type2_decayed {Ty : Type} [DecidableEq Ty] (L : Lang Ty)
    (hd : ∀ T, L.decay (L.decay T) = L.decay T) (n : Nat) (T U : Ty) :
    common_type2 L (n + 2) T U = Inst.ofOption (__common_type2_imp L (L.decay T) (L.decay U)) := by
  rw [common_type2]
  split
  · rename_i h
    rw [← h.1, ← h.2]
  · rw [common_type2, if_pos ⟨(hd T).symm, (hd U).symm⟩]

theorem foldl_ne_unfinished {Ty : Type} [DecidableEq Ty] (L : Lang Ty)
    (hd : ∀ T, L.decay (L.decay T) = L.decay T) (n : Nat) (l : List Ty) :
    ∀ acc, acc ≠ .unfinished → l.foldl (foldStep L (n + 2)) acc ≠ .unfinished := by
  induction l with
  | nil => intro acc h; exact h
  | cons V l ih =>
    intro acc h
    rw [List.foldl_cons]
    apply ih
    cases acc with
    | unfinished => exact absurd rfl h
    | empty => simp [foldStep]
    | member C =>
      simp only [foldStep]
      rw [common_type2_decayed L hd]
      exact ofOption_ne_unfinished _

theorem strip_strip (t : CTy) : t.strip.strip = t.strip := by
  induction t with
  | const t ih => simpa [CTy.strip] using ih
  | lref t ih => simpa [CTy.strip] using ih
  | int => rfl
  | long => rfl
  | double => rfl

/-- C21: `common_type` of three or more types is the left fold of the
two-argument `common_type` with failure propagation. For all `T`, `U`, `V` and
`Rest...` (and every nesting bound): `common_type<T, U, V, Rest...>` has the
member `X` iff `common_type<T, U>` has a member `C` and
`common_type<C, V, Rest...>` has the member `X`; when `common_type<T, U>` has
the member `C` the two classes agree altogether; the whole is the left fold of
the two-argument trait over `V, Rest...` started at `common_type<T, U>`; and
when the fold has no member type after some step, the whole has none. -/
theorem C21_common_type_left_fold {Ty : Type} [DecidableEq Ty] (L : Lang Ty) (n : Nat)
    (T U V : Ty) (Rest : List Ty) :
    (∀ X, common_type L n (T :: U :: V :: Rest) = .member X ↔
        ∃ C, common_type L n [T, U] = .member C
          ∧ common_type L n (C :: V :: Rest) = .member X)
    ∧ (∀ C, common_type L n [T, U] = .member C →
        common_type L n (T :: U :: V :: Rest) = common_type L n (C :: V :: Rest))
    ∧ (common_type L n [T, U] = .empty → common_type L n (T :: U :: V :: Rest) = .empty)
    ∧ common_type L n (T :: U :: V :: Rest)
        = (V :: Rest).foldl (foldStep L n) (common_type L n [T, U])
    ∧ (∀ done todo, V :: Rest = done ++ todo →
        done.foldl (foldStep L n) (common_type L n [T, U]) = .empty →
        common_type L n (T :: U :: V :: Rest) = .empty) := by
  have hstep : ∀ C, common_type2 L n T U = .member C →
      common_type L n (T :: U :: V :: Rest) = common_type L n (C :: V :: Rest) := by
    intro C h
    rw [common_type_cons_cons L n C V Rest]
    show __common_type_impl L n T U (V :: Rest) = _
    rw [__common_type_impl, h]
  have hfold : common_type L n (T :: U :: V :: Rest)
      = (V :: Rest).foldl (foldStep L n) (common_type2 L n T U) :=
    impl_eq_foldl L n (V :: Rest) T U
  refine ⟨fun X => ⟨fun h => ?_, ?_⟩, hstep, ?_, hfold, ?_⟩
  · cases h2 : common_type2 L n T U with
    | unfinished => rw [hfold, h2, foldl_unfinished] at h; exact absurd h (by simp)
    | empty => rw [hfold, h2, foldl_empty] at h; exact absurd h (by simp)
    | member C => exact ⟨C, h2, by rw [← hstep C h2]; exact h⟩
  · rintro ⟨C, h1, h2⟩
    rw [hstep C h1]
    exact h2
  · intro h
    have h2 : common_type2 L n T U = .empty := h
    rw [hfold, h2, foldl_empty]
  · intro done todo hsplit h
    have h2 : done.foldl (foldStep L n) (common_type2 L n T U) = .empty := h
    rw [hfold, hsplit, List.foldl_append, h2, foldl_empty]

/-- C22: `common_type` normalises its arguments by decay. `common_type<>` has
no member type; `common_type<T>` is `common_type<T, T>`; and, decay being
idempotent, `common_type<T, U>` is `common_type<decay_t<T>, decay_t<U>>`, which
for already-decayed `T` and `U` with a well-formed
`true ? declval<T>() : declval<U>()` has the decayed type of that expression as
member. The instantiation terminates: one nested instantiation (one decay
step) always suffices, for two arguments and for any argument list. -/
theorem C22_common_type_decays {Ty : Type} [DecidableEq Ty] (L : Lang Ty)
    (hd : ∀ T, L.decay (L.decay T) = L.decay T) (n : Nat) (T U : Ty) :
    common_type L n [] = .empty
    ∧ common_type L n [T] = common_type L n [T, T]
    ∧ common_type L (n + 2) [T, U] = common_type L (n + 2) [L.decay T, L.decay U]
    ∧ (T = L.decay T → U = L.decay U → ∀ X, L.condExpr T U = some X →
        common_type L (n + 1) [T, U] = .member (L.decay X))
    ∧ common_type L (n + 2) [T, U] = Inst.ofOption (__common_type2_imp L (L.decay T) (L.decay U))
    ∧ common_type L (n + 2) [T, U] = common_type L 2 [T, U]
    ∧ (∀ l, common_type L (n + 2) l ≠ .unfinished) := by
  have h2 : ∀ A B, common_type L (n + 2) [A, B]
      = Inst.ofOption (__common_type2_imp L (L.decay A) (L.decay B)) :=
    fun A B => common_type2_decayed L hd n A B
  refine ⟨rfl, rfl, ?_, ?_, h2 T U, ?_, ?_⟩
  · rw [h2, h2, hd, hd]
  · intro hT hU X hX
    show common_type2 L (n + 1) T U = _
    rw [common_type2, if_pos ⟨hT, hU⟩, __common_type2_imp, hX]
    rfl
  · rw [h2]
    exact (common_type2_decayed L hd 0 T U).symm
  · intro l
    match l with
    | [] => simp [common_type]
    | [A] =>
      show common_type2 L (n + 2) A A ≠ _
      rw [common_type2_decayed L hd]
      exact ofOption_ne_unfinished _
    | A :: B :: Rest =>
      rw [common_type_cons_cons, impl_eq_foldl]
      apply foldl_ne_unfinished L hd
      rw [common_type2_decayed L hd]
      exact ofOption_ne_unfinished _

/-- C22 on the arithmetic instance: decay is idempotent there, and
`common_type<const int, long&>` is `common_type<int, long>`, namely `long`. -/
theorem C22_common_type_decays_witness :
    (∀ T, arithLang.decay (arithLang.decay T) = arithLang.decay T)
    ∧ common_type arithLang 2 [.const .int, .lref .long] = common_type arithLang 2 [.int, .long]
    ∧ common_type arithLang 2 [.const .int, .lref .long] = .member .long :=
  ⟨strip_strip,
    (C22_common_type_decays arithLang strip_strip 0 (.const .int) (.lref .long)).2.2.1,
    by decide⟩

end CommonType

namespace ExpectedVoid

theorem set_self {E : Type} (st : Store E) (a : Nat) (v : Expected E) : st.set a v a = v := by
  simp [Store.set]

theorem set_other {E : Type} (st : Store E) {a b : Nat} (v : Expected E) (h : b ≠ a) :
    st.set a v b = st b := by
  simp [Store.set, h]

/-- C23: copy assignment of `expected<void, E>`, for an error type whose copy
constructor and copy assignment copy. For all objects `e1` (at `self`) and `e2`
(at `rhs`): when the call returns, the returned reference denotes `e1`,
`e1.has_value()` equals `e2.has_value()`, and when `e2` holds an error
`e1.error()` equals it, copy-constructed if `e1` had a value and copy-assigned
if it held an error; when both hold a value nothing changes and nothing runs;
when only `e2` holds a value the error of `e1` is destroyed; no other object
changes; and when the copy constructor throws while `e1` has a value, the call
is left by that exception and `e1` still has a value. The test functions of
the file pass. -/
theorem C23_copy_assign {E X : Type} (ops : ErrOps E X)
    (hC : ∀ e c, ops.copyCtor e = .ok c → c = e) (hA : ∀ a e, ops.copyAssign a e = e)
    (st : Store E) (self rhs : Nat) :
    ((assign ops st self rhs).thrown = none →
        (assign ops st self rhs).ret = some self
        ∧ ((assign ops st self rhs).store self).has_value = (st rhs).has_value
        ∧ ((assign ops st self rhs).store rhs).has_value = (st rhs).has_value
        ∧ ∀ e, st rhs = .unex e → ((assign ops st self rhs).store self).error = some e)
    ∧ (∀ e, st self = .value → st rhs = .unex e → (assign ops st self rhs).thrown = none →
        (assign ops st self rhs).trace = [.copyCtorCalled])
    ∧ (∀ a e, st self = .unex a → st rhs = .unex e →
        (assign ops st self rhs).thrown = none
        ∧ (assign ops st self rhs).trace = [.copyAssignCalled])
    ∧ (st self = .value → st rhs = .value →
        (assign ops st self rhs).store = st ∧ (assign ops st self rhs).trace = []
        ∧ (assign ops st self rhs).thrown = none)
    ∧ (∀ a, st self = .unex a → st rhs = .value →
        (assign ops st self rhs).trace = [.dtorCalled]
        ∧ (assign ops st self rhs).store self = .value
        ∧ (assign ops st self rhs).thrown = none)
    ∧ (∀ b, b ≠ self → (assign ops st self rhs).store b = st b)
    ∧ (∀ e x, st self = .value → st rhs = .unex e → ops.copyCtor e = .error x →
        (assign ops st self rhs).thrown = some x
        ∧ (assign ops st self rhs).ret = none
        ∧ ((assign ops st self rhs).store self).has_value = true)
    ∧ test = true ∧ testException = true := by
  refine ⟨?_, ?_, ?_, ?_, ?_, ?_, ?_, by decide, by decide⟩
  · intro ht
    cases h1 : st self with
    | value =>
      cases h2 : st rhs with
      | value => simp [assign, h1, h2, Expected.has_value]
      | unex e =>
        cases h3 : ops.copyCtor e with
        | error x => simp [assign, h1, h2, h3] at ht
        | ok c =>
          have hc := hC e c h3
          subst hc
          by_cases hr : rhs = self
          · subst hr; simp [h1] at h2
          · simp [assign, h1, h2, h3, set_self, set_other _ _ hr, Expected.has_value,
              Expected.error]
    | unex a =>
      cases h2 : st rhs with
      | value =>
        by_cases hr : rhs = self
        · subst hr; simp [h1] at h2
        · simp [assign, h1, h2, set_self, set_other _ _ hr, Expected.has_value]
      | unex e =>
        by_cases hr : rhs = self
        · subst hr
          have hae : a = e := Expected.unex.inj (h1.symm.trans h2)
          subst hae
          simp [assign, h1, set_self, hA, Expected.has_value, Expected.error]
        · simp [assign, h1, h2, set_self, set_other _ _ hr, hA, Expected.has_value,
            Expected.error]
  · intro e h1 h2 ht
    cases h3 : ops.copyCtor e with
    | error x => simp [assign, h1, h2, h3] at ht
    | ok c => simp [assign, h1, h2, h3]
  · intro a e h1 h2
    simp [assign, h1, h2]
  · intro h1 h2
    simp [assign, h1, h2]
  · intro a h1 h2
    simp [assign, h1, h2, set_self]
  · intro b hb
    cases h1 : st self with
    | value =>
      cases h2 : st rhs with
      | value => simp [assign, h1, h2]
      | unex e =>
        cases h3 : ops.copyCtor e with
        | error x => simp [assign, h1, h2, h3]
        | ok c => simp [assign, h1, h2, h3, set_other _ _ hb]
    | unex a =>
      cases h2 : st rhs with
      | value => simp [assign, h1, h2, set_other _ _ hb]
      | unex e => simp [assign, h1, h2, set_other _ _ hb]
  · intro e x h1 h2 h3
    simp [assign, h1, h2, h3, Expected.has_value]

/-- C23 on the test's second block: `e1` holds a value, `e2` the error with
`data_ == 5`; afterwards `e1` holds the error 5. -/
theorem C23_copy_assign_witness :
    (∀ e c, tracedOps.copyCtor e = .ok c → c = e)
    ∧ (∀ a e, tracedOps.copyAssign a e = e)
    ∧ ((assign tracedOps (twoObjects .value (.unex 5)) 0 1).store 0).error = some 5
    ∧ (assign tracedOps (twoObjects .value (.unex 5)) 0 1).ret = some 0 :=
  have hC : ∀ e c, tracedOps.copyCtor e = .ok c → c = e := by
    intro e c h
    simp only [tracedOps, Except.ok.injEq] at h
    exact h.symm
  have hA : ∀ a e, tracedOps.copyAssign a e = e := fun _ _ => rfl
  have h := (C23_copy_assign tracedOps hC hA (twoObjects .value (.unex 5)) 0 1).1 rfl
  ⟨hC, hA, h.2.2.2 5 rfl, h.1⟩

end ExpectedVoid
